import Mathlib

/-!
# Authentication core of the to-do application

A shallow embedding of `auth-service/middleware/auth.js`, `auth-service/models/User.js`,
of the circuit breaker and the handlers of `auth-service/server.js`, and of
`terraform/functions/health-monitor.js`.

Conventions of the embedding

* Times are milliseconds since the epoch (`Date.now()`, `Date.valueOf()`), as `Int`.
  A call runs at one instant: every clock read inside it yields its `now` argument
  (`CircuitBreaker.execute` takes the instant it is entered at and the instant its operation
  settles at).
* A detached call (a promise nobody awaits) takes effect at the point it is started.
* JavaScript `null`/`undefined` is `Option.none`.
* A value that is only tested for truthiness and handed to `parseInt` is the pair `Coerced`
  of what these two see of it: its truthiness and its text.
* State is passed explicitly: an operation takes the state it reads and returns the
  state it leaves behind.
* Libraries outside the repository (jsonwebtoken, bcryptjs, Joi, `String.toLowerCase`)
  are fields of `Env` and `RegisterEnv`.
-/

namespace TodoApp

/-! ## UserCache (`middleware/auth.js`) -/

/-- The object stored per key by `UserCache.set`: the cached value and its capture time. -/
structure CacheEntry (α : Type) where
  data : α
  timestamp : Int
deriving DecidableEq, Repr

/-- The class `UserCache`: `cache` is the JavaScript `Map` from user id to entry (a finite
map with unique keys), `ttl` is the constructor argument. -/
structure UserCache (α : Type) where
  cache : AList (fun _ : Int => CacheEntry α)
  ttl : Int

/-- The constructor default `5 * 60 * 1000`. -/
def defaultTtl : Int := 5 * 60 * 1000

/-- The body of `constructor(ttl)`: an empty map and the given ttl. -/
def UserCache.new (α : Type) (ttl : Int) : UserCache α :=
  { cache := ∅, ttl := ttl }

/-- The method `set(userId, userData)`, run when the clock shows `now`. -/
def UserCache.set {α : Type} (c : UserCache α) (userId : Int) (userData : α) (now : Int) :
    UserCache α :=
  { c with cache := c.cache.insert userId { data := userData, timestamp := now } }

/-- The method `get(userId)`, run when the clock shows `now`: the value returned and the cache
left behind (an expired entry is deleted by the read). -/
def UserCache.get {α : Type} (c : UserCache α) (userId : Int) (now : Int) :
    Option α × UserCache α :=
  match c.cache.lookup userId with
  | none => (none, c)
  | some entry =>
    if now - entry.timestamp > c.ttl then
      (none, { c with cache := c.cache.erase userId })
    else
      (some entry.data, c)

/-- The method `delete(userId)`. -/
def UserCache.delete {α : Type} (c : UserCache α) (userId : Int) : UserCache α :=
  { c with cache := c.cache.erase userId }

/-- The method `clear()`. -/
def UserCache.clear {α : Type} (c : UserCache α) : UserCache α :=
  { c with cache := ∅ }

/-- One round of the loop of `cleanup`: the visited entry is deleted when it is expired. -/
def UserCache.cleanupStep {α : Type} (now : Int) (acc : UserCache α)
    (e : Sigma (fun _ : Int => CacheEntry α)) : UserCache α :=
  if now - e.2.timestamp > acc.ttl then { acc with cache := acc.cache.erase e.1 } else acc

/-- The method `cleanup()`, run when the clock shows `now`: the loop visits every entry the map
holds and deletes the expired ones. -/
def UserCache.cleanup {α : Type} (c : UserCache α) (now : Int) : UserCache α :=
  c.cache.entries.foldl (UserCache.cleanupStep now) c

/-- A call of one of the methods of `UserCache`. -/
inductive CacheOp (α : Type) where
  | set (userId : Int) (userData : α)
  | get (userId : Int)
  | delete (userId : Int)
  | clear
  | cleanup

/-- The cache after one method call made when the clock shows `now`. -/
def UserCache.step {α : Type} (c : UserCache α) (call : CacheOp α × Int) : UserCache α :=
  match call.1 with
  | .set userId userData => c.set userId userData call.2
  | .get userId => (c.get userId call.2).2
  | .delete userId => c.delete userId
  | .clear => c.clear
  | .cleanup => c.cleanup call.2

/-- The cache after a sequence of method calls, each with the time it is made at. -/
def UserCache.run {α : Type} (c : UserCache α) (calls : List (CacheOp α × Int)) : UserCache α :=
  calls.foldl UserCache.step c

/-- The call is `set(userId, _)`. -/
def CacheOp.setsKey {α : Type} (userId : Int) : CacheOp α → Bool
  | .set k _ => k == userId
  | _ => false

/-- The call is `set(userId, _)`, `delete(userId)` or `clear()`: it writes or removes the entry
of `userId` whatever the time. -/
def CacheOp.setsOrDeletesKey {α : Type} (userId : Int) : CacheOp α → Bool
  | .set k _ => k == userId
  | .delete k => k == userId
  | .clear => true
  | _ => false

/-! ## User model and credential store (`models/User.js`) -/

/-- A JavaScript error object as far as the handlers look at it: `error.name`, `error.message`. -/
structure JsError where
  name : String
  message : String
deriving DecidableEq, Repr

/-- A row of table `users`, which is also the data of a `User` instance. Dates are epoch
milliseconds. `createdAt`/`updatedAt` come from `timestamps: true`, `deletedAt` from
`paranoid: true`. The column selection (`attributes`) of a query is not modelled: an instance
carries the whole row. -/
structure User where
  id : Int
  username : String
  email : String
  password : String
  firstName : Option String
  lastName : Option String
  isActive : Bool
  emailVerified : Bool
  lastLoginAt : Option Int
  loginAttempts : Int
  lockedUntil : Option Int
  createdAt : Int
  updatedAt : Int
  deletedAt : Option Int
deriving DecidableEq, Repr

/-- The credential store: the rows of table `users`, and `failure`, the error every query
rejects with while the database cannot be reached (`none` when it can). -/
structure Db where
  users : List User
  failure : Option JsError
deriving DecidableEq, Repr

/-- The query `User.findOne` with the given `where` condition. The model is paranoid, so rows
with `deletedAt` set are left out. -/
def Db.findOne (db : Db) (cond : User → Bool) : Except JsError (Option User) :=
  match db.failure with
  | some err => .error err
  | none => .ok (db.users.find? (fun r => cond r && r.deletedAt.isNone))

/-- The bulk query `User.update(values, where id, silent)`: `values` is the assignment of the
listed columns. `silent` keeps `updatedAt`; a bulk update runs no instance hook; rows with
`deletedAt` set are left out. -/
def Db.update (db : Db) (values : User → User) (id : Int) : Except JsError Db :=
  match db.failure with
  | some err => .error err
  | none =>
    .ok { db with users := db.users.map (fun r =>
      if r.id = id ∧ r.deletedAt = none then values r else r) }

/-- The lockout threshold `5` of `incrementLoginAttempts`. -/
def maxLoginAttempts : Int := 5

/-- The lock window `15 * 60 * 1000` of `incrementLoginAttempts`. -/
def lockWindow : Int := 15 * 60 * 1000

/-- The values `updateLastLogin` writes, to the row and to the instance. -/
def User.withLastLogin (self : User) (now : Int) : User :=
  { self with lastLoginAt := some now, loginAttempts := 0, lockedUntil := none }

/-- The method `User.prototype.updateLastLogin`: the stored row is updated first; when the query
rejects the method rejects and the instance is left as it was. -/
def User.updateLastLogin (db : Db) (self : User) (now : Int) : Except JsError (Db × User) :=
  match db.update (fun r => r.withLastLogin now) self.id with
  | .error err => .error err
  | .ok db1 => .ok (db1, self.withLastLogin now)

/-- The values `incrementLoginAttempts` writes: `newAttempts` and `lockUntil`. -/
def User.withLoginAttempts (self : User) (newAttempts : Int) (lockUntil : Option Int) : User :=
  { self with loginAttempts := newAttempts, lockedUntil := lockUntil }

/-- The method `User.prototype.incrementLoginAttempts`: `newAttempts` and `lockUntil` are
computed from the instance, written to the stored row, then to the instance. -/
def User.incrementLoginAttempts (db : Db) (self : User) (now : Int) :
    Except JsError (Db × User) :=
  let newAttempts := self.loginAttempts + 1
  let lockUntil := if newAttempts ≥ maxLoginAttempts then some (now + lockWindow) else none
  match db.update (fun r => r.withLoginAttempts newAttempts lockUntil) self.id with
  | .error err => .error err
  | .ok db1 => .ok (db1, self.withLoginAttempts newAttempts lockUntil)

/-- The method `User.prototype.isLocked`, as a condition: `lockedUntil && lockedUntil > new Date()`. -/
def User.isLocked (self : User) (now : Int) : Bool :=
  match self.lockedUntil with
  | none => false
  | some lockedUntil => decide (lockedUntil > now)

/-- The outcome of a login as the lockout policy sees it: a failed password check (the handler
calls `incrementLoginAttempts`) or a successful login (the handler calls `updateLastLogin`). -/
inductive LoginOutcome where
  | failed
  | succeeded
deriving DecidableEq, Repr

/-- One lockout transition at time `now`. A rejected store query leaves store and instance as
they were (the handler only logs the rejection). -/
def User.lockoutStep (st : Db × User) (ev : LoginOutcome × Int) : Db × User :=
  match ev.1 with
  | .failed =>
    match User.incrementLoginAttempts st.1 st.2 ev.2 with
    | .ok st1 => st1
    | .error _ => st
  | .succeeded =>
    match User.updateLastLogin st.1 st.2 ev.2 with
    | .ok st1 => st1
    | .error _ => st

/-- The store and the instance after a sequence of lockout transitions. -/
def User.lockoutRun (st : Db × User) (evs : List (LoginOutcome × Int)) : Db × User :=
  evs.foldl User.lockoutStep st

/-- The lockout part of the state of a new account: `loginAttempts` has its default `0` and
`lockedUntil` is null. -/
def User.isFresh (u : User) : Prop :=
  u.loginAttempts = 0 ∧ u.lockedUntil = none

instance (u : User) : Decidable u.isFresh := by
  unfold User.isFresh
  infer_instance

/-- The invariant of the lockout state: the counter is not negative and a lock is only set at
or above the threshold. -/
def User.lockoutInv (u : User) : Prop :=
  0 ≤ u.loginAttempts ∧ (u.lockedUntil ≠ none → maxLoginAttempts ≤ u.loginAttempts)

instance (u : User) : Decidable u.lockoutInv := by
  unfold User.lockoutInv
  infer_instance

/-! ## Collaborators outside the repository -/

/-- The payload `generateToken` is given and `jwt.verify` gives back. -/
structure TokenClaims where
  userId : Int
  email : String
  username : String
deriving DecidableEq, Repr

/-- The value `loginSchema.validate` yields for a body it accepts. -/
structure LoginValue where
  email : String
  password : String
deriving DecidableEq, Repr

/-- The library functions the service calls. `jwtVerify token now` is `jwt.verify` with the
secret, issuer and audience of the service, `jwtSign` is `jwt.sign` with the same options,
`bcryptCompare candidate hash` is `bcrypt.compare`, `loginSchemaValidate` is
`loginSchema.validate` on the request body (its error carries the detail messages) and
`toLowerCase` is `String.prototype.toLowerCase`. -/
structure Env where
  jwtVerify : String → Int → Except JsError TokenClaims
  jwtSign : TokenClaims → Int → String
  bcryptCompare : String → String → Bool
  loginSchemaValidate : String → Except (List String) LoginValue
  toLowerCase : String → String

/-- The method `User.prototype.comparePassword`. -/
def User.comparePassword (env : Env) (self : User) (candidatePassword : String) : Bool :=
  env.bcryptCompare candidatePassword self.password

/-- The function `generateToken`. -/
def generateToken (env : Env) (payload : TokenClaims) (now : Int) : String :=
  env.jwtSign payload now

/-! ## Response bodies -/

/-- A JSON value of a serialised user. -/
inductive JsValue where
  | null
  | bool (b : Bool)
  | number (n : Int)
  | string (s : String)
  | date (ms : Int)
deriving DecidableEq, Repr

/-- A nullable string as a JSON value. -/
def JsValue.ofString? : Option String → JsValue
  | none => .null
  | some s => .string s

/-- A nullable date as a JSON value. -/
def JsValue.ofDate? : Option Int → JsValue
  | none => .null
  | some ms => .date ms

/-- The plain object `this.get()` of an instance: one key per attribute. -/
def User.get (self : User) : List (String × JsValue) :=
  [("id", .number self.id),
   ("username", .string self.username),
   ("email", .string self.email),
   ("password", .string self.password),
   ("firstName", .ofString? self.firstName),
   ("lastName", .ofString? self.lastName),
   ("isActive", .bool self.isActive),
   ("emailVerified", .bool self.emailVerified),
   ("lastLoginAt", .ofDate? self.lastLoginAt),
   ("loginAttempts", .number self.loginAttempts),
   ("lockedUntil", .ofDate? self.lockedUntil),
   ("createdAt", .date self.createdAt),
   ("updatedAt", .date self.updatedAt),
   ("deletedAt", .ofDate? self.deletedAt)]

/-- The statement `delete values[key]` on a plain object. -/
def deleteKey (key : String) (values : List (String × JsValue)) : List (String × JsValue) :=
  values.filter (fun kv => kv.1 ≠ key)

/-- The method `User.prototype.toJSON`. -/
def User.toJSON (self : User) : List (String × JsValue) :=
  deleteKey "deletedAt" (deleteKey "password" self.get)

/-- The `data` object of a success body. -/
structure ResponseData where
  user : List (String × JsValue)
  token : Option String
deriving DecidableEq, Repr

/-- What a handler sends: `res.status(status).json(body)` (status 200 when none is set), with
the keys `success`, `message`, `details` and `data` of the body. -/
structure Response where
  status : Nat
  success : Bool
  message : String
  details : Option (List String)
  data : Option ResponseData
deriving DecidableEq, Repr

/-- The body `success: false, message` sent with `status`. -/
def Response.reject (status : Nat) (message : String) : Response :=
  { status := status, success := false, message := message, details := none, data := none }

/-! ## CircuitBreaker (`server.js`) -/

/-- The three values of `CircuitBreaker.state`. -/
inductive BreakerState where
  | CLOSED
  | OPEN
  | HALF_OPEN
deriving DecidableEq, Repr

/-- The class `CircuitBreaker`. -/
structure CircuitBreaker where
  failureThreshold : Int
  timeout : Int
  failureCount : Int
  lastFailureTime : Option Int
  state : BreakerState
deriving DecidableEq, Repr

/-- The body of `constructor(threshold, timeout)`. -/
def CircuitBreaker.new (threshold timeout : Int) : CircuitBreaker :=
  { failureThreshold := threshold, timeout := timeout, failureCount := 0,
    lastFailureTime := none, state := .CLOSED }

/-- The instance `dbCircuitBreaker = new CircuitBreaker(5, 30000)`. -/
def dbCircuitBreaker : CircuitBreaker := CircuitBreaker.new 5 30000

/-- The error `new Error('Circuit breaker is OPEN')`. -/
def breakerOpenError : JsError := { name := "Error", message := "Circuit breaker is OPEN" }

/-- The method `onSuccess`. -/
def CircuitBreaker.onSuccess (b : CircuitBreaker) : CircuitBreaker :=
  { b with failureCount := 0, state := .CLOSED }

/-- The method `onFailure`, run when the clock shows `now`. -/
def CircuitBreaker.onFailure (b : CircuitBreaker) (now : Int) : CircuitBreaker :=
  let b1 := { b with failureCount := b.failureCount + 1, lastFailureTime := some now }
  if b1.failureCount ≥ b1.failureThreshold then { b1 with state := .OPEN } else b1

/-- The first statement of `execute`, run when the clock shows `now`: an OPEN breaker throws
until the timeout has passed and becomes HALF_OPEN after it (a null `lastFailureTime` counts
as `0` in the subtraction). -/
def CircuitBreaker.enter (b : CircuitBreaker) (now : Int) : Except JsError CircuitBreaker :=
  if b.state = .OPEN then
    if now - b.lastFailureTime.getD 0 > b.timeout then .ok { b with state := .HALF_OPEN }
    else .error breakerOpenError
  else .ok b

/-- The method `execute(operation)`, entered at `now`, the operation settling at `settled`.
The operation works on a state `σ` (the store); it is not run when the breaker throws. -/
def CircuitBreaker.execute {σ ρ : Type} (b : CircuitBreaker) (now settled : Int)
    (operation : σ → Except JsError ρ × σ) (s : σ) : Except JsError ρ × σ × CircuitBreaker :=
  match b.enter now with
  | .error err => (.error err, s, b)
  | .ok b1 =>
    match operation s with
    | (.ok result, s1) => (.ok result, s1, b1.onSuccess)
    | (.error err, s1) => (.error err, s1, b1.onFailure settled)

/-! ## The login handler (`server.js`) -/

/-- What the operation of the login handler resolves to: `error, status` or `user`. -/
inductive LoginResult where
  | error (message : String) (status : Nat)
  | user (user : User)
deriving DecidableEq, Repr

/-- The store after a detached call (`.catch` logs a rejection and nothing waits for it): the
store the call leaves when it resolves, the store from before when it rejects. -/
def detached (db : Db) (call : Except JsError (Db × User)) : Db :=
  match call with
  | .ok st => st.1
  | .error _ => db

/-- The operation the login handler hands to `dbCircuitBreaker.execute`, for the validated
`email` and `password`. -/
def loginOperation (env : Env) (value : LoginValue) (now : Int) (db : Db) :
    Except JsError LoginResult × Db :=
  match db.findOne (fun r => r.email = env.toLowerCase value.email && r.isActive) with
  | .error err => (.error err, db)
  | .ok none => (.ok (.error "Invalid credentials" 401), db)
  | .ok (some user) =>
    if user.isLocked now then
      (.ok (.error "Account temporarily locked due to failed login attempts" 423), db)
    else if !(user.comparePassword env value.password) then
      (.ok (.error "Invalid credentials" 401), detached db (user.incrementLoginAttempts db now))
    else
      (.ok (.user user), db)

/-- What a call of the login handler leaves: the response sent, the store, the breaker. -/
structure LoginOut where
  response : Response
  db : Db
  breaker : CircuitBreaker
deriving DecidableEq, Repr

/-- The handler of `POST /auth/login` for the request body `body`, run at `now`. The response
of a successful login is built before the detached `updateLastLogin` has touched the instance,
so it serialises the instance as it was found. -/
def login (env : Env) (db : Db) (breaker : CircuitBreaker) (body : String) (now : Int) :
    LoginOut :=
  match env.loginSchemaValidate body with
  | .error details =>
    { response := { status := 400, success := false, message := "Validation error",
                    details := some details, data := none },
      db := db, breaker := breaker }
  | .ok value =>
    match breaker.execute now now (loginOperation env value now) db with
    | (.error err, db1, breaker1) =>
      if err.message = "Circuit breaker is OPEN" then
        { response := Response.reject 503
            "Service temporarily unavailable, please try again later",
          db := db1, breaker := breaker1 }
      else
        { response := Response.reject 500 "Internal server error during login",
          db := db1, breaker := breaker1 }
    | (.ok (.error message status), db1, breaker1) =>
      { response := Response.reject status message, db := db1, breaker := breaker1 }
    | (.ok (.user user), db1, breaker1) =>
      let db2 := detached db1 (user.updateLastLogin db1 now)
      let token := generateToken env
        { userId := user.id, email := user.email, username := user.username } now
      { response := { status := 200, success := true, message := "Login successful",
                      details := none,
                      data := some { user := user.toJSON, token := some token } },
        db := db2, breaker := breaker1 }

/-! ## The register handler (`server.js`) -/

/-- The value `registerSchema.validate` yields for a body it accepts. -/
structure RegisterValue where
  username : String
  email : String
  password : String
  firstName : Option String
  lastName : Option String
deriving DecidableEq, Repr

/-- The library functions registration calls on top of those of `Env`:
`registerSchemaValidate` is `registerSchema.validate` on the request body, `modelValidate` runs
the validators of the model definition (`len`, `isAlphanumeric`, `isEmail`) and yields the
validation error if one fails, `bcryptGenSalt rounds now` is the salt `bcrypt.genSalt` draws at
`now` and `bcryptHash password salt` is `bcrypt.hash`. -/
structure RegisterEnv extends Env where
  registerSchemaValidate : String → Except (List String) RegisterValue
  modelValidate : RegisterValue → Option JsError
  bcryptGenSalt : Nat → Int → String
  bcryptHash : String → String → String

/-- The error an insert rejects with when a unique index (`email`, `username`) is violated. -/
def uniqueConstraintError : JsError :=
  { name := "SequelizeUniqueConstraintError", message := "Validation error" }

/-- The hook `beforeCreate`: a truthy (non-empty) password is replaced by its salted hash. -/
def beforeCreate (env : RegisterEnv) (password : String) (now : Int) : String :=
  if password = "" then password else env.bcryptHash password (env.bcryptGenSalt 10 now)

/-- The query `User.create(values)` at `now`: the model validators run first, then the hook
`beforeCreate`, then the insert, which takes `newId` from the sequence of column `id`, fills
the column defaults and the timestamps and rejects when the store cannot be reached or a row
(soft-deleted ones included) already has the email or the username. -/
def Db.create (env : RegisterEnv) (db : Db) (values : RegisterValue) (now newId : Int) :
    Except JsError (Db × User) :=
  match env.modelValidate values with
  | some err => .error err
  | none =>
    let user : User :=
      { id := newId, username := values.username, email := values.email,
        password := beforeCreate env values.password now,
        firstName := values.firstName, lastName := values.lastName,
        isActive := true, emailVerified := false, lastLoginAt := none,
        loginAttempts := 0, lockedUntil := none,
        createdAt := now, updatedAt := now, deletedAt := none }
    match db.failure with
    | some err => .error err
    | none =>
      if db.users.any (fun r => r.email = values.email || r.username = values.username) then
        .error uniqueConstraintError
      else
        .ok ({ db with users := db.users ++ [user] }, user)

/-- The operation the register handler hands to `dbCircuitBreaker.execute`, for the validated
`value`; it resolves to `error, status` or `user` like the one of the login handler. -/
def registerOperation (env : RegisterEnv) (value : RegisterValue) (now newId : Int) (db : Db) :
    Except JsError LoginResult × Db :=
  match db.findOne
      (fun r => r.email = env.toLowerCase value.email || r.username = value.username) with
  | .error err => (.error err, db)
  | .ok (some existingUser) =>
    let field := if existingUser.email = env.toLowerCase value.email then "email" else "username"
    (.ok (.error ("User with this " ++ field ++ " already exists") 409), db)
  | .ok none =>
    match db.create env { value with email := env.toLowerCase value.email } now newId with
    | .error err => (.error err, db)
    | .ok (db1, user) => (.ok (.user user), db1)

/-- The handler of `POST /auth/register` for the request body `body`, run at `now`; `newId` is
the id the store would assign to the new row. It leaves a response, the store and the breaker
like the login handler. -/
def register (env : RegisterEnv) (db : Db) (breaker : CircuitBreaker) (body : String)
    (now newId : Int) : LoginOut :=
  match env.registerSchemaValidate body with
  | .error details =>
    { response := { status := 400, success := false, message := "Validation error",
                    details := some details, data := none },
      db := db, breaker := breaker }
  | .ok value =>
    match breaker.execute now now (registerOperation env value now newId) db with
    | (.error err, db1, breaker1) =>
      if err.message = "Circuit breaker is OPEN" then
        { response := Response.reject 503
            "Service temporarily unavailable, please try again later",
          db := db1, breaker := breaker1 }
      else
        { response := Response.reject 500 "Internal server error during registration",
          db := db1, breaker := breaker1 }
    | (.ok (.error message status), db1, breaker1) =>
      { response := Response.reject status message, db := db1, breaker := breaker1 }
    | (.ok (.user user), db1, breaker1) =>
      let token := generateToken env.toEnv
        { userId := user.id, email := user.email, username := user.username } now
      { response := { status := 201, success := true,
                      message := "User registered successfully", details := none,
                      data := some { user := user.toJSON, token := some token } },
        db := db1, breaker := breaker1 }

/-! ## The request gate (`middleware/auth.js`) -/

/-- The parts of the request the gate reads and writes: the header `authorization` and the
properties `req.user` and `req.token` it attaches. -/
structure Request where
  authorization : Option String
  user : Option User
  token : Option String
deriving DecidableEq, Repr

/-- A collaborator the gate calls: `jwt.verify`, a method of `userCache`, a query of the user
store, the method `isLocked` of the resolved record. -/
inductive Collaborator where
  | tokenVerifier
  | userCache
  | userStore
  | lockState
deriving DecidableEq, Repr

/-- The expression `authHeader.startsWith('Bearer ') ? authHeader.slice(7) : authHeader`. The
seven characters cut off are ASCII, so cutting characters and cutting UTF-16 units agree. -/
def extractToken (authHeader : String) : String :=
  if "Bearer ".data.isPrefixOf authHeader.data then String.mk (authHeader.data.drop 7)
  else authHeader

/-- The function `getCachedUser`, run at `now`: the result (or the error the store query
rejects with), the cache left behind and the collaborators called, in order. -/
def getCachedUser (db : Db) (cache : UserCache User) (userId : Int) (now : Int) :
    Except JsError (Option User) × UserCache User × List Collaborator :=
  match cache.get userId now with
  | (some user, cache1) => (.ok (some user), cache1, [.userCache])
  | (none, cache1) =>
    match db.findOne (fun r => r.id = userId && r.isActive) with
    | .error err => (.error err, cache1, [.userCache, .userStore])
    | .ok none => (.ok none, cache1, [.userCache, .userStore])
    | .ok (some user) =>
      (.ok (some user), cache1.set userId user now, [.userCache, .userStore, .userCache])

/-- The function `clearUserCache`. -/
def clearUserCache (cache : UserCache User) (userId : Int) : UserCache User :=
  cache.delete userId

/-- What a call of a middleware leaves: the request with what was attached, the response sent
(if any), how often `next` was called, the cache, and the collaborators called, in order. -/
structure GateOut where
  req : Request
  response : Option Response
  nextCalls : Nat
  cache : UserCache User
  consulted : List Collaborator

/-- A middleware return through `res.status(status).json(...)`, without calling `next`. -/
def GateOut.rejected (req : Request) (cache : UserCache User) (consulted : List Collaborator)
    (status : Nat) (message : String) : GateOut :=
  { req := req, response := some (Response.reject status message), nextCalls := 0,
    cache := cache, consulted := consulted }

/-- The `catch` block of `verifyToken`. -/
def verifyTokenCatch (req : Request) (cache : UserCache User) (consulted : List Collaborator)
    (error : JsError) : GateOut :=
  if error.name = "JsonWebTokenError" then
    GateOut.rejected req cache consulted 401 "Access denied. Invalid token."
  else if error.name = "TokenExpiredError" then
    GateOut.rejected req cache consulted 401 "Access denied. Token has expired."
  else
    GateOut.rejected req cache consulted 500 "Internal server error during token verification."

/-- The middleware `verifyToken`, run at `now` on the module cache `cache` and the store `db`.
A header that is undefined or the empty string is falsy, and so is an empty token. -/
def verifyToken (env : Env) (db : Db) (cache : UserCache User) (req : Request) (now : Int) :
    GateOut :=
  match req.authorization with
  | none => GateOut.rejected req cache [] 401 "Access denied. No token provided."
  | some authHeader =>
    if authHeader = "" then
      GateOut.rejected req cache [] 401 "Access denied. No token provided."
    else
      let token := extractToken authHeader
      if token = "" then
        GateOut.rejected req cache [] 401 "Access denied. Invalid token format."
      else
        match env.jwtVerify token now with
        | .error err => verifyTokenCatch req cache [.tokenVerifier] err
        | .ok decoded =>
          match getCachedUser db cache decoded.userId now with
          | (.error err, cache1, calls) =>
            verifyTokenCatch req cache1 (.tokenVerifier :: calls) err
          | (.ok none, cache1, calls) =>
            GateOut.rejected req (cache1.delete decoded.userId)
              (.tokenVerifier :: calls ++ [.userCache]) 401
              "Access denied. User not found or inactive."
          | (.ok (some user), cache1, calls) =>
            if !user.isActive then
              GateOut.rejected req (cache1.delete decoded.userId)
                (.tokenVerifier :: calls ++ [.userCache]) 401
                "Access denied. User not found or inactive."
            else if user.isLocked now then
              GateOut.rejected req (cache1.delete decoded.userId)
                (.tokenVerifier :: calls ++ [.lockState, .userCache]) 401
                "Account is temporarily locked due to multiple failed login attempts."
            else
              { req := { req with user := some user, token := some token },
                response := none, nextCalls := 1, cache := cache1,
                consulted := .tokenVerifier :: calls ++ [.lockState] }

/-- A middleware return through `next()`, nothing sent. -/
def GateOut.proceeded (req : Request) (cache : UserCache User) (consulted : List Collaborator) :
    GateOut :=
  { req := req, response := none, nextCalls := 1, cache := cache, consulted := consulted }

/-- The middleware `optionalAuth`, run at `now`. Every early return and the `catch` block call
`next()`; `isLocked` is only called on an active record (`&&` short-circuits). -/
def optionalAuth (env : Env) (db : Db) (cache : UserCache User) (req : Request) (now : Int) :
    GateOut :=
  match req.authorization with
  | none => GateOut.proceeded req cache []
  | some authHeader =>
    if authHeader = "" then
      GateOut.proceeded req cache []
    else
      let token := extractToken authHeader
      if token = "" then
        GateOut.proceeded req cache []
      else
        match env.jwtVerify token now with
        | .error _ => GateOut.proceeded req cache [.tokenVerifier]
        | .ok decoded =>
          match getCachedUser db cache decoded.userId now with
          | (.error _, cache1, calls) => GateOut.proceeded req cache1 (.tokenVerifier :: calls)
          | (.ok none, cache1, calls) => GateOut.proceeded req cache1 (.tokenVerifier :: calls)
          | (.ok (some user), cache1, calls) =>
            if !user.isActive then
              GateOut.proceeded req cache1 (.tokenVerifier :: calls)
            else if user.isLocked now then
              GateOut.proceeded req cache1 (.tokenVerifier :: calls ++ [.lockState])
            else
              GateOut.proceeded { req with user := some user, token := some token } cache1
                (.tokenVerifier :: calls ++ [.lockState])

/-! ## The service state -/

/-- The module-level state of the auth service: the store behind the model, the `userCache` of
`middleware/auth.js` and the `dbCircuitBreaker` of `server.js`. -/
structure AuthService where
  db : Db
  userCache : UserCache User
  dbCircuitBreaker : CircuitBreaker

/-- A request to `POST /auth/login`: the handler works on the store and the breaker; it holds
no reference to `userCache` (`server.js` imports `generateToken` and `verifyToken` only). -/
def AuthService.postLogin (env : Env) (svc : AuthService) (body : String) (now : Int) :
    Response × AuthService :=
  let out := login env svc.db svc.dbCircuitBreaker body now
  (out.response, { svc with db := out.db, dbCircuitBreaker := out.breaker })

/-- A request through the middleware `verifyToken`: it works on the store and the cache. -/
def AuthService.authenticate (env : Env) (svc : AuthService) (req : Request) (now : Int) :
    GateOut × AuthService :=
  let out := verifyToken env svc.db svc.userCache req now
  (out, { svc with userCache := out.cache })

/-! ## Calls of the breaker in flight -/

/-- The `try`/`catch` of `execute` once the operation has settled at `settled`: `onSuccess`
when it resolved, `onFailure` when it rejected. -/
def CircuitBreaker.settle {ρ : Type} (b : CircuitBreaker) (outcome : Except JsError ρ)
    (settled : Int) : CircuitBreaker :=
  match outcome with
  | .ok _ => b.onSuccess
  | .error _ => b.onFailure settled

/-- An operation that rejects with `err` when it is invoked. -/
def rejecting (err : JsError) (s : Unit) : Except JsError Unit × Unit :=
  (.error err, s)

/-- The breaker after a call of `execute`, entered at `call.1` and settled at `call.2.1`, whose
operation rejects with `call.2.2`. -/
def CircuitBreaker.executeRejecting (b : CircuitBreaker) (call : Int × Int × JsError) :
    CircuitBreaker :=
  (b.execute call.1 call.2.1 (rejecting call.2.2) ()).2.2

/-- The state of a breaker after `k` calls in a row that threw: still CLOSED with at least `k`
failures counted (fewer than the threshold once a call was made), or OPEN with the threshold
reached and the time of the last failure set. -/
def CircuitBreaker.failing (thr : Int) (k : Nat) (b : CircuitBreaker) : Prop :=
  (b.state = .CLOSED ∧ (k : Int) ≤ b.failureCount ∧ (1 ≤ k → b.failureCount < thr)) ∨
  (b.state = .OPEN ∧ thr ≤ b.failureCount ∧ b.lastFailureTime ≠ none)

/-! ## Token issuance and verification over the library (`middleware/auth.js`) -/

/-- The options object of `jwt.sign` in `generateToken`; `expiresIn` is the lifetime in
seconds that the setting `JWT_EXPIRES_IN` stands for. -/
structure SignOptions where
  expiresIn : Int
  issuer : String
  audience : String
deriving DecidableEq, Repr

/-- The options object of `jwt.verify` in the gate. -/
structure VerifyOptions where
  issuer : String
  audience : String
deriving DecidableEq, Repr

/-- The two functions of jsonwebtoken the module calls: `sign payload secret options now` and
`verify token secret options now`, `now` being the clock in milliseconds. -/
structure JwtLibrary where
  sign : TokenClaims → String → SignOptions → Int → String
  verify : String → String → VerifyOptions → Int → Except JsError TokenClaims

/-- The lifetime the default `'7d'` of `JWT_EXPIRES_IN` stands for, in seconds. -/
def defaultExpiresIn : Int := 7 * 24 * 60 * 60

/-- The options `generateToken` passes to `jwt.sign`. -/
def generateTokenOptions (expiresIn : Int) : SignOptions :=
  { expiresIn := expiresIn, issuer := "todo-app-auth-service", audience := "todo-app-users" }

/-- The options `verifyToken` and `optionalAuth` pass to `jwt.verify`. -/
def verifyTokenOptions : VerifyOptions :=
  { issuer := "todo-app-auth-service", audience := "todo-app-users" }

/-- The error jsonwebtoken raises for a token past its expiry. -/
def tokenExpiredError : JsError := { name := "TokenExpiredError", message := "jwt expired" }

/-- The fields `jwtSign` and `jwtVerify` of `env` are the calls the module makes: both use the
one module constant `JWT_SECRET`, the first the options of `generateToken` with the lifetime
`expiresIn`, the second the options of the gate. -/
def Env.usesJwt (env : Env) (lib : JwtLibrary) (secret : String) (expiresIn : Int) : Prop :=
  (∀ payload now, env.jwtSign payload now =
    lib.sign payload secret (generateTokenOptions expiresIn) now) ∧
  (∀ token now, env.jwtVerify token now = lib.verify token secret verifyTokenOptions now)

/-- The contract of jsonwebtoken for a payload signed at `t0` with lifetime `expiresIn`:
verified with the secret it was signed with and with the issuer and audience it was signed
for, the token yields the payload while the clock, in whole seconds, is below the expiry
`floor(t0 / 1000) + expiresIn`, and the expired error from then on. -/
def JwtLibrary.honours (lib : JwtLibrary) (payload : TokenClaims) (t0 expiresIn : Int) : Prop :=
  ∀ (secret : String) (signed : SignOptions) (checked : VerifyOptions) (t1 : Int),
    signed.expiresIn = expiresIn → checked.issuer = signed.issuer →
    checked.audience = signed.audience →
    lib.verify (lib.sign payload secret signed t0) secret checked t1 =
      if t1 / 1000 < t0 / 1000 + expiresIn then .ok payload else .error tokenExpiredError

/-! ## The handlers behind the gate (`server.js`) -/

/-- What `GET /auth/me` sends: a rejection, or `success: true, data: user` with status 200
(that body has no `message`). -/
inductive MeOut where
  | rejected (response : Response)
  | user (user : List (String × JsValue))
deriving DecidableEq, Repr

/-- The route `GET /auth/me`: the middleware `verifyToken`, then the handler, which serialises
`req.user`; its `catch` answers 500 when that throws. -/
def authMe (env : Env) (db : Db) (cache : UserCache User) (req : Request) (now : Int) :
    MeOut × UserCache User :=
  let out := verifyToken env db cache req now
  match out.response with
  | some response => (.rejected response, out.cache)
  | none =>
    match out.req.user with
    | some user => (.user user.toJSON, out.cache)
    | none => (.rejected (Response.reject 500 "Internal server error"), out.cache)

/-- The handler of `POST /auth/verify` for the `token` of the body (`none` when the body has
none): a falsy token is answered 400; otherwise the header is set to `'Bearer ' + token` and
`verifyToken` runs with a `next` that sends the serialised `req.user`. A throw inside that
`next` lands in the `catch` of `verifyToken`. -/
def authVerify (env : Env) (db : Db) (cache : UserCache User) (token : Option String)
    (now : Int) : Response × UserCache User :=
  match token with
  | none => (Response.reject 400 "Token is required", cache)
  | some token =>
    if token = "" then
      (Response.reject 400 "Token is required", cache)
    else
      let out := verifyToken env db cache
        { authorization := some ("Bearer " ++ token), user := none, token := none } now
      match out.response with
      | some response => (response, out.cache)
      | none =>
        match out.req.user with
        | some user =>
          ({ status := 200, success := true, message := "Token is valid", details := none,
             data := some { user := user.toJSON, token := none } }, out.cache)
        | none =>
          (Response.reject 500 "Internal server error during token verification.", out.cache)

/-! ## The hook `beforeUpdate` (`models/User.js`) -/

/-- The hook `beforeUpdate` on the instance `user` that is about to be written;
`passwordChanged` is what `user.changed('password')` returns. When it holds the password of
the instance is replaced by its salted hash. No code of the service saves an instance: its two
updates are the bulk query `Db.update`, which runs no hook. -/
def beforeUpdate (env : RegisterEnv) (passwordChanged : Bool) (user : User) (now : Int) : User :=
  if passwordChanged then
    { user with password := env.bcryptHash user.password (env.bcryptGenSalt 10 now) }
  else user

/-- The columns the login-state updates must leave alone. -/
def User.credentials (u : User) : Int × String × String × String × Bool :=
  (u.id, u.username, u.email, u.password, u.isActive)

/-! ## The ownership check (`middleware/auth.js`) -/

/-- The white space `parseInt` skips at the start of its argument. -/
def isJsWhiteSpace (c : Char) : Bool :=
  let n := c.toNat
  n = 0x20 || n = 0x09 || n = 0x0A || n = 0x0D || n = 0x0B || n = 0x0C || n = 0xA0 ||
  n = 0xFEFF || n = 0x1680 || (0x2000 ≤ n && n ≤ 0x200A) || n = 0x2028 || n = 0x2029 ||
  n = 0x202F || n = 0x205F || n = 0x3000

/-- The value of a character as a digit of the given radix (10 or 16), if it is one. -/
def digitValue (radix : Nat) (c : Char) : Option Nat :=
  let n := c.toNat
  if 0x30 ≤ n ∧ n ≤ 0x39 then some (n - 0x30)
  else if radix = 16 ∧ 0x61 ≤ n ∧ n ≤ 0x66 then some (n - 0x61 + 10)
  else if radix = 16 ∧ 0x41 ≤ n ∧ n ≤ 0x46 then some (n - 0x41 + 10)
  else none

/-- The number the digits at the start of `cs` spell in the given radix, reading up to the
first character that is not a digit; `acc` is the value read so far and `seen` tells whether a
digit was read. No digit at all gives `none` (NaN). -/
def parseDigits (radix : Nat) : List Char → Nat → Bool → Option Nat
  | [], acc, seen => if seen then some acc else none
  | c :: cs, acc, seen =>
    match digitValue radix c with
    | some d => parseDigits radix cs (acc * radix + d) true
    | none => if seen then some acc else none

/-- The sign `parseInt` reads at the start of the trimmed string, as a factor, and the
characters after it. -/
def readSign (cs : List Char) : Int × List Char :=
  match cs with
  | c :: rest =>
    if c = Char.ofNat 0x2D then (-1, rest)
    else if c = Char.ofNat 0x2B then (1, rest) else (1, cs)
  | [] => (1, cs)

/-- The radix `parseInt` settles on without a radix argument, and the characters the digits
are read from: a prefix `0x`/`0X` is dropped and selects 16, otherwise the radix is 10. -/
def readRadix (cs : List Char) : Nat × List Char :=
  match cs with
  | c0 :: c1 :: rest =>
    if c0 = Char.ofNat 0x30 ∧ (c1 = Char.ofNat 0x78 ∨ c1 = Char.ofNat 0x58) then (16, rest)
    else (10, cs)
  | _ => (10, cs)

/-- The mathematical integer `parseInt` reads from a string, without a radix argument: leading
white space is skipped, a sign is read, a prefix `0x`/`0X` selects radix 16, and the digits up
to the first other character are read; `none` when there is no digit. -/
def leadingInteger (s : String) : Option Int :=
  let signed := readSign (s.data.dropWhile isJsWhiteSpace)
  let based := readRadix signed.2
  match parseDigits based.1 based.2 0 false with
  | some n => some (signed.1 * (n : Int))
  | none => none

/-- A number as `parseInt` returns one: NaN, an integer that is a double, or an infinity.
The two zeros are one value, as they are for `===`. -/
inductive JsNumber where
  | nan
  | finite (n : Int)
  | infinity (negative : Bool)
deriving DecidableEq, Repr

/-- The binary exponent at which a natural number is rounded to a double: the least `e` from
`e` on with `v < 2 ^ (53 + e)`, searched for `fuel` steps (`v` steps always suffice). -/
def doubleExponent : Nat → Nat → Nat → Nat
  | 0, _, e => e
  | fuel + 1, v, e => if v < 2 ^ (53 + e) then e else doubleExponent fuel v (e + 1)

/-- The number 2^1024, the least power of two that is not a double. -/
def doubleLimit : Nat := 2 ^ 256 * 2 ^ 256 * 2 ^ 256 * 2 ^ 256

/-- The double nearest to a natural number, ties to the even significand; `none` when that is
beyond the largest double (the number becomes Infinity). -/
def roundToDouble (v : Nat) : Option Nat :=
  let e := doubleExponent v v 0
  let q := v / 2 ^ e
  let r := v % 2 ^ e
  let m := if 2 ^ e < 2 * r ∨ (2 * r = 2 ^ e ∧ q % 2 = 1) then q + 1 else q
  if m * 2 ^ e < doubleLimit then some (m * 2 ^ e) else none

/-- The function `parseInt` on a string: the integer read, as the Number nearest to it; NaN
when there is no digit. -/
def parseIntString (s : String) : JsNumber :=
  match leadingInteger s with
  | none => .nan
  | some n =>
    match roundToDouble n.natAbs with
    | some m => .finite (if n < 0 then -(m : Int) else (m : Int))
    | none => .infinity (decide (n < 0))

/-- A JavaScript value as far as `checkOwnership` looks at it: `truthy` is what `||` tests
(ToBoolean) and `text` is the string `parseInt` turns the value into (ToString). -/
structure Coerced where
  truthy : Bool
  text : String
deriving DecidableEq, Repr

/-- The value `undefined`, which a missing field reads as. -/
def Coerced.undefined : Coerced := { truthy := false, text := "undefined" }

/-- A string: the empty one is falsy, the text is the string. -/
def Coerced.ofString (s : String) : Coerced := { truthy := decide (s ≠ ""), text := s }

/-- An integer Number below 10^21 in magnitude: zero is falsy, the text is the decimal
numeral. -/
def Coerced.ofInteger (n : Int) : Coerced := { truthy := decide (n ≠ 0), text := toString n }

/-- The function `parseInt` on a value: the value is turned into a string, which is parsed. -/
def parseInt (v : Coerced) : JsNumber :=
  parseIntString v.text

/-- The operator `a || b`. -/
def jsOr (a b : Coerced) : Coerced :=
  if a.truthy then a else b

/-- The operator `a !== b` on the results of `parseInt`: NaN differs from everything. -/
def strictNotEqual : JsNumber → JsNumber → Bool
  | .finite a, .finite b => decide (a ≠ b)
  | .infinity a, .infinity b => decide (a ≠ b)
  | _, _ => true

/-- What `checkOwnership` reads of the request: `req.user.id` and the field named
`resourceUserIdField` of `req.params`, `req.body` and `req.query`. Express always provides
`req.params` and `req.query`; `body` is `none` when `req.body` is undefined (no body parser
ran for the request). -/
structure OwnershipRequest where
  userId : Coerced
  params : Coerced
  body : Option Coerced
  query : Coerced
deriving DecidableEq, Repr

/-- The constant `resourceUserId` of `checkOwnership`: the first truthy one of the three
fields, the last one when none is. Reading the field of an undefined `req.body` throws a
TypeError (`none`); `||` does not get there when the field of `req.params` is truthy. -/
def resourceUserId (req : OwnershipRequest) : Option Coerced :=
  if req.params.truthy then some req.params
  else
    match req.body with
    | none => none
    | some body => some (jsOr body req.query)

/-- The middleware `checkOwnership(resourceUserIdField)`: the response sent (if any) and how
often `next` was called; `none` when the middleware throws. -/
def checkOwnership (req : OwnershipRequest) : Option (Option Response × Nat) :=
  match resourceUserId req with
  | none => none
  | some resourceUserId =>
    let userIdNum := parseInt req.userId
    let resourceUserIdNum := parseInt resourceUserId
    if strictNotEqual userIdNum resourceUserIdNum then
      some (some (Response.reject 403 "Access denied. You can only access your own resources."),
        0)
    else
      some (none, 1)

/-- The integer an id denotes, in the words of the specification: the id, as a number or as a
string, is a decimal numeral (digits, with an optional minus sign) and nothing else; anything
else denotes none. -/
def integerDenoted (v : Coerced) : Option Int :=
  match v.text.data with
  | [] => none
  | c :: rest =>
    if c = Char.ofNat 0x2D then
      if rest ≠ [] ∧ rest.all Char.isDigit then leadingInteger v.text else none
    else if (c :: rest).all Char.isDigit then leadingInteger v.text else none

/-! ## Completed calls of the breaker -/

/-- An operation that settles with the given outcome when it is invoked. -/
def settling (outcome : Except JsError Unit) (s : Unit) : Except JsError Unit × Unit :=
  (outcome, s)

/-- The breaker after a completed call of `execute`, entered at `call.1`, whose operation
settles at `call.2.1` with the outcome `call.2.2`. -/
def CircuitBreaker.executeSettling (b : CircuitBreaker) (call : Int × Int × Except JsError Unit) :
    CircuitBreaker :=
  (b.execute call.1 call.2.1 (settling call.2.2) ()).2.2

/-- The invariant of the breaker between completed calls. -/
def CircuitBreaker.consistent (b : CircuitBreaker) : Prop :=
  0 ≤ b.failureCount ∧
  ((b.state = .CLOSED ∧ b.failureCount < b.failureThreshold) ∨
   (b.state = .OPEN ∧ b.failureThreshold ≤ b.failureCount ∧ b.lastFailureTime ≠ none))

/-! ## The health monitor (`terraform/functions/health-monitor.js`) -/

/-- What the monitor reads of a response of `axios.get`: `response.status` and
`response.data?.message`. -/
structure HealthResponse where
  status : Nat
  message : Option String
deriving DecidableEq, Repr

/-- The environment of the function: the three service URLs and `NODE_ENV` (`none` when
unset), and `axiosGet url start`, the call `axios.get(url, timeout: 5000, validateStatus:
status < 500)` started at `start`: how it settles (it throws on a timeout, a connection error
or a status of 500 and above) and the time at which it does. -/
structure HealthEnv where
  authServiceUrl : Option String
  todoServiceUrl : Option String
  frontendUrl : Option String
  nodeEnv : Option String
  axiosGet : String → Int → Except JsError HealthResponse × Int

/-- An entry of `results`. -/
structure ServiceResult where
  status : String
  message : String
  responseTime : Int
  statusCode : Option Nat
  url : Option String
deriving DecidableEq, Repr

/-- The error thrown by reading the identifier `serviceStartTime` where no such binding is in
scope. -/
def serviceStartTimeError : JsError :=
  { name := "ReferenceError", message := "serviceStartTime is not defined" }

/-- One round of the loop over the services, started at `now`: the entry recorded, or the
error thrown out of the round, and the time afterwards. `serviceStartTime` is declared with
`const` inside the `try` block, so it is not in scope in the `catch` block: when `axios.get`
throws, the first statement of the `catch` block reads it and throws a ReferenceError before
anything is recorded. -/
def checkService (env : HealthEnv) (url : Option String) (now : Int) :
    Except JsError ServiceResult × Int :=
  let notConfigured : ServiceResult :=
    { status := "error", message := "Service URL not configured", responseTime := 0,
      statusCode := none, url := none }
  match url with
  | none => (.ok notConfigured, now)
  | some url =>
    if url = "" then (.ok notConfigured, now)
    else
      let serviceStartTime := now
      match env.axiosGet (url ++ "/health") serviceStartTime with
      | (.ok response, settled) =>
        (.ok { status := if response.status = 200 then "healthy" else "warning",
               message :=
                 match response.message with
                 | some m => if m = "" then "Service responded" else m
                 | none => "Service responded",
               responseTime := settled - serviceStartTime,
               statusCode := some response.status, url := some url }, settled)
      | (.error _, settled) => (.error serviceStartTimeError, settled)

/-- The loop over the entries of `services`, in order: the entries recorded so far are
extended until a round throws. -/
def checkServices (env : HealthEnv) :
    List (String × Option String) → List (String × ServiceResult) → Int →
      Except JsError (List (String × ServiceResult)) × Int
  | [], results, now => (.ok results, now)
  | (name, url) :: rest, results, now =>
    match checkService env url now with
    | (.ok result, settled) => checkServices env rest (results ++ [(name, result)]) settled
    | (.error err, settled) => (.error err, settled)

/-- The object `healthReport.overall`. -/
structure OverallHealth where
  status : String
  totalServices : Nat
  healthyServices : Nat
  warningServices : Nat
  errorServices : Nat
  healthPercentage : Nat
deriving DecidableEq, Repr

/-- The object `healthReport`; `timestamp` is the clock in milliseconds. -/
structure HealthReport where
  timestamp : Int
  overall : OverallHealth
  services : List (String × ServiceResult)
  checkDuration : Int
  environment : String
  version : String
deriving DecidableEq, Repr

/-- What the function sends: the HTTP status and the report (none for the empty body of the
answer to OPTIONS). -/
structure HealthOut where
  httpStatus : Nat
  report : Option HealthReport
deriving DecidableEq, Repr

/-- How many entries of `results` have the given status. -/
def countStatus (results : List (String × ServiceResult)) (status : String) : Nat :=
  (results.filter (fun r => r.2.status = status)).length

/-- The function `healthMonitor` for a request of the given method, started at `now`: what it
sends, or the error its promise rejects with when a statement throws outside a `try`.
`Math.round(healthy / total * 100)` is computed on integers. -/
def healthMonitor (env : HealthEnv) (method : String) (now : Int) : Except JsError HealthOut :=
  if method = "OPTIONS" then .ok { httpStatus := 204, report := none }
  else
    let services := [("auth", env.authServiceUrl), ("todo", env.todoServiceUrl),
                     ("frontend", env.frontendUrl)]
    let startTime := now
    match checkServices env services [] now with
    | (.error err, _) => .error err
    | (.ok results, finished) =>
      let totalServices := results.length
      let healthyServices := countStatus results "healthy"
      let warningServices := countStatus results "warning"
      let errorServices := countStatus results "error"
      let overallStatus :=
        if errorServices > 0 then "critical"
        else if warningServices > 0 then "warning" else "healthy"
      let httpStatus :=
        if overallStatus = "critical" then 503
        else if overallStatus = "warning" then 207 else 200
      .ok { httpStatus := httpStatus,
            report := some
              { timestamp := finished,
                overall :=
                  { status := overallStatus, totalServices := totalServices,
                    healthyServices := healthyServices, warningServices := warningServices,
                    errorServices := errorServices,
                    healthPercentage :=
                      (200 * healthyServices + totalServices) / (2 * totalServices) },
                services := results,
                checkDuration := finished - startTime,
                environment :=
                  match env.nodeEnv with
                  | some e => if e = "" then "unknown" else e
                  | none => "unknown",
                version := "1.0.0" } }

/-! ## Sample data -/

/-- A new account as registration leaves it. -/
def sampleUser : User :=
  { id := 7, username := "alice", email := "a@x.com", password := "hash:secret1",
    firstName := none, lastName := none, isActive := true, emailVerified := false,
    lastLoginAt := none, loginAttempts := 0, lockedUntil := none,
    createdAt := 0, updatedAt := 0, deletedAt := none }

/-- The account after five failed logins, the fifth at time 0. -/
def lockedUser : User :=
  { sampleUser with loginAttempts := 5, lockedUntil := some 900000 }

/-- The account after four failed logins. -/
def almostLockedUser : User :=
  { sampleUser with loginAttempts := 4 }

/-- A deactivated account that also carries a lock. -/
def inactiveUser : User :=
  { sampleUser with isActive := false, loginAttempts := 5, lockedUntil := some 900000 }

/-- A reachable store holding the new account. -/
def sampleDb : Db := { users := [sampleUser], failure := none }

/-- A reachable store holding the locked account. -/
def lockedDb : Db := { users := [lockedUser], failure := none }

/-- The module cache holding a snapshot of the deactivated account, taken at time 0. -/
def staleCache : UserCache User :=
  (UserCache.new User defaultTtl).set 7 inactiveUser 0

/-- Library stand-ins: one token is valid and belongs to user 7, a hash is the text `hash:`
followed by the password, every body validates to the same credentials. -/
def sampleEnv : Env :=
  { jwtVerify := fun token _ =>
      if token = "token-7" then .ok { userId := 7, email := "a@x.com", username := "alice" }
      else .error { name := "JsonWebTokenError", message := "invalid token" },
    jwtSign := fun _ _ => "token-7",
    bcryptCompare := fun candidate hash => decide (hash = "hash:" ++ candidate),
    loginSchemaValidate := fun _ => .ok { email := "a@x.com", password := "secret1" },
    toLowerCase := fun s => s }

/-- Library stand-ins for registration on top of `sampleEnv`. -/
def sampleRegisterEnv : RegisterEnv :=
  { toEnv := sampleEnv,
    registerSchemaValidate := fun _ =>
      .ok { username := "bob", email := "b@x.com", password := "secret2",
            firstName := none, lastName := none },
    modelValidate := fun _ => none,
    bcryptGenSalt := fun _ _ => "salt",
    bcryptHash := fun password _ => "hash:" ++ password }

/-- The stand-ins of `sampleEnv` with a body that carries a wrong password. -/
def guessEnv : Env :=
  { sampleEnv with
    loginSchemaValidate := fun _ => .ok { email := "a@x.com", password := "guess" } }

/-- The breaker of the service after five failures in a row, the last at time 0. -/
def trippedBreaker : CircuitBreaker :=
  { failureThreshold := 5, timeout := 30000, failureCount := 5, lastFailureTime := some 0,
    state := .OPEN }

/-- The tripped breaker after a call has entered past the timeout and is in flight. -/
def probingBreaker : CircuitBreaker :=
  { trippedBreaker with state := .HALF_OPEN }

/-- An operation that counts its invocations and resolves. -/
def countingOp (s : Nat) : Except JsError Unit × Nat :=
  (.ok (), s + 1)

/-- The service while the account has four failed logins and the gate has cached its record,
at time 0. -/
def cachedService : AuthService :=
  { db := { users := [almostLockedUser], failure := none },
    userCache := (UserCache.new User defaultTtl).set 7 almostLockedUser 0,
    dbCircuitBreaker := dbCircuitBreaker }

/-- A reachable store in which the account has been deactivated. -/
def inactiveDb : Db := { users := [inactiveUser], failure := none }

/-- The claims of user 7. -/
def sampleClaims : TokenClaims := { userId := 7, email := "a@x.com", username := "alice" }

/-- A stand-in for jsonwebtoken that honours its contract for the claims of user 7 signed at
time 0 for seven days: the token names the secret, the issuer and the audience. -/
def sampleJwt : JwtLibrary :=
  { sign := fun _ secret signed _ => secret ++ "|" ++ signed.issuer ++ "|" ++ signed.audience,
    verify := fun token secret checked t1 =>
      if token = secret ++ "|" ++ checked.issuer ++ "|" ++ checked.audience then
        if t1 / 1000 < 0 / 1000 + defaultExpiresIn then .ok sampleClaims
        else .error tokenExpiredError
      else .error { name := "JsonWebTokenError", message := "invalid signature" } }

/-- The stand-ins of `sampleEnv` with tokens signed and verified through `sampleJwt`. -/
def sampleJwtEnv : Env :=
  { sampleEnv with
    jwtSign := fun payload now =>
      sampleJwt.sign payload "secret" (generateTokenOptions defaultExpiresIn) now,
    jwtVerify := fun token now => sampleJwt.verify token "secret" verifyTokenOptions now }

/-- The validated body of the registration of a second user. -/
def bobValues : RegisterValue :=
  { username := "bob", email := "b@x.com", password := "secret2",
    firstName := none, lastName := none }

/-- A request of user 7 for the resource id `'7abc'`, given in the route parameters. -/
def looseOwnershipRequest : OwnershipRequest :=
  { userId := Coerced.ofInteger 7, params := Coerced.ofString "7abc",
    body := some Coerced.undefined, query := Coerced.undefined }

/-- A request of user `uid` with the resource id `text`, a string, in the route parameters
and nothing in body and query. -/
def paramsRequest (uid : Int) (text : String) : OwnershipRequest :=
  { userId := Coerced.ofInteger uid, params := Coerced.ofString text,
    body := some Coerced.undefined, query := Coerced.undefined }

/-- A request of user `uid` with a non-zero number in the body that is written `text`, and
nothing in the route parameters and the query. -/
def bodyNumberRequest (uid : Int) (text : String) : OwnershipRequest :=
  { userId := Coerced.ofInteger uid, params := Coerced.undefined,
    body := some { truthy := true, text := text }, query := Coerced.undefined }

/-- A request of user 7 that names no resource id at all. -/
def bareOwnershipRequest : OwnershipRequest :=
  { userId := Coerced.ofInteger 7, params := Coerced.undefined,
    body := some Coerced.undefined, query := Coerced.undefined }

/-- The error `axios` throws when a request runs into its timeout. -/
def timeoutError : JsError := { name := "AxiosError", message := "timeout of 5000ms exceeded" }

/-- A deployment in which the three URLs are set, the auth service does not answer within the
timeout and the other two answer 200 after 20 ms. -/
def sampleHealthEnv : HealthEnv :=
  { authServiceUrl := some "http://auth", todoServiceUrl := some "http://todo",
    frontendUrl := some "http://frontend", nodeEnv := none,
    axiosGet := fun url start =>
      if url = "http://auth/health" then (.error timeoutError, start + 5000)
      else (.ok { status := 200, message := some "ok" }, start + 20) }

/-- The same deployment with the auth service answering 200 and its URL for the todo service
unset. -/
def partialHealthEnv : HealthEnv :=
  { sampleHealthEnv with
    todoServiceUrl := none,
    axiosGet := fun _ start => (.ok { status := 200, message := some "ok" }, start + 20) }

/-! ### Lemmas on the cache -/

section CacheLemmas

variable {α : Type}

theorem UserCache.cleanupStep_ttl (now : Int) (acc : UserCache α)
    (e : Sigma (fun _ : Int => CacheEntry α)) : (UserCache.cleanupStep now acc e).ttl = acc.ttl := by
  unfold UserCache.cleanupStep
  split <;> rfl

theorem UserCache.foldl_cleanupStep_ttl (now : Int)
    (l : List (Sigma (fun _ : Int => CacheEntry α))) (acc : UserCache α) :
    (l.foldl (UserCache.cleanupStep now) acc).ttl = acc.ttl := by
  induction l generalizing acc with
  | nil => rfl
  | cons e l ih => rw [List.foldl_cons, ih, UserCache.cleanupStep_ttl]

/-- What a run of the loop of `cleanup` over the entries `l` leaves under key `k`: nothing when
`l` holds an expired entry of key `k`, the entry from before otherwise. -/
theorem UserCache.lookup_foldl_cleanupStep (now : Int) (k : Int)
    (l : List (Sigma (fun _ : Int => CacheEntry α))) (acc : UserCache α) :
    (l.foldl (UserCache.cleanupStep now) acc).cache.lookup k =
      if l.any (fun e => decide (e.1 = k) && decide (now - e.2.timestamp > acc.ttl)) then none
      else acc.cache.lookup k := by
  induction l generalizing acc with
  | nil => simp
  | cons e l ih =>
    rw [List.foldl_cons, ih, UserCache.cleanupStep_ttl, List.any_cons]
    by_cases hexp : now - e.2.timestamp > acc.ttl
    · by_cases hk : e.1 = k
      · rw [decide_eq_true hk, decide_eq_true hexp, Bool.and_self, Bool.true_or, if_pos rfl]
        unfold UserCache.cleanupStep
        rw [if_pos hexp]
        have hgone : AList.lookup k (acc.cache.erase e.1) = none := by
          rw [← hk]
          exact AList.lookup_erase _ _
        split
        · rfl
        · exact hgone
      · have hk2 : k ≠ e.1 := fun h => hk h.symm
        rw [decide_eq_false hk, Bool.false_and, Bool.false_or]
        unfold UserCache.cleanupStep
        rw [if_pos hexp]
        show (if _ then none else AList.lookup k (acc.cache.erase e.1)) = _
        rw [AList.lookup_erase_ne hk2]
    · rw [decide_eq_false hexp, Bool.and_false, Bool.false_or]
      unfold UserCache.cleanupStep
      rw [if_neg hexp]

/-- What `cleanup` leaves under a key: the entry from before when it is not expired. -/
theorem UserCache.lookup_cleanup (c : UserCache α) (now : Int) (k : Int) :
    (c.cleanup now).cache.lookup k =
      match c.cache.lookup k with
      | none => none
      | some e => if now - e.timestamp > c.ttl then none else some e := by
  unfold UserCache.cleanup
  rw [UserCache.lookup_foldl_cleanupStep]
  cases hl : c.cache.lookup k with
  | none =>
    show (if _ then none else none) = none
    split <;> rfl
  | some e =>
    show _ = if now - e.timestamp > c.ttl then none else some e
    have hmem : (Sigma.mk k e : Sigma (fun _ : Int => CacheEntry α)) ∈ c.cache.entries :=
      AList.mem_lookup_iff.1 (by rw [hl]; exact rfl)
    by_cases hexp : now - e.timestamp > c.ttl
    · rw [if_pos hexp, if_pos]
      refine List.any_eq_true.2 ⟨⟨k, e⟩, hmem, ?_⟩
      simp only [decide_True, Bool.true_and, decide_eq_true_eq]
      exact hexp
    · rw [if_neg hexp, if_neg]
      intro hany
      rcases List.any_eq_true.1 hany with ⟨x, hx, hcond⟩
      rw [Bool.and_eq_true, decide_eq_true_eq, decide_eq_true_eq] at hcond
      rcases x with ⟨k1, e1⟩
      have hk : k1 = k := hcond.1
      subst hk
      have h1 : e1 ∈ c.cache.lookup k1 := AList.mem_lookup_iff.2 hx
      rw [hl] at h1
      have he : e = e1 := Option.some.inj h1
      subst he
      exact hexp hcond.2

theorem UserCache.cleanup_ttl (c : UserCache α) (now : Int) : (c.cleanup now).ttl = c.ttl :=
  UserCache.foldl_cleanupStep_ttl now _ c

theorem UserCache.get_snd_ttl (c : UserCache α) (k now : Int) : (c.get k now).2.ttl = c.ttl := by
  unfold UserCache.get
  split
  · rfl
  · split <;> rfl

theorem UserCache.step_ttl (c : UserCache α) (call : CacheOp α × Int) :
    (c.step call).ttl = c.ttl := by
  rcases call with ⟨op, now⟩
  cases op with
  | set k v => rfl
  | get k => exact UserCache.get_snd_ttl c k now
  | delete k => rfl
  | clear => rfl
  | cleanup => exact UserCache.cleanup_ttl c now

theorem UserCache.run_ttl (calls : List (CacheOp α × Int)) (c : UserCache α) :
    (c.run calls).ttl = c.ttl := by
  unfold UserCache.run
  induction calls generalizing c with
  | nil => rfl
  | cons call calls ih => rw [List.foldl_cons, ih, UserCache.step_ttl]

/-- What the read `get(j)` leaves under key `k`. -/
theorem UserCache.lookup_get_snd (c : UserCache α) (j now k : Int) :
    (c.get j now).2.cache.lookup k = c.cache.lookup k ∨
      ((c.get j now).2.cache.lookup k = none ∧ j = k ∧
        ∃ e, c.cache.lookup k = some e ∧ now - e.timestamp > c.ttl) := by
  unfold UserCache.get
  cases hl : c.cache.lookup j with
  | none => exact Or.inl rfl
  | some e =>
    by_cases hexp : now - e.timestamp > c.ttl
    · simp only [if_pos hexp]
      by_cases hjk : j = k
      · subst hjk
        exact Or.inr ⟨AList.lookup_erase _ _, rfl, e, hl, hexp⟩
      · exact Or.inl (AList.lookup_erase_ne (fun h => hjk h.symm))
    · simp only [if_neg hexp, true_or]

/-- The value the read `get(k)` returns, from the entry under `k`. -/
theorem UserCache.get_fst (c : UserCache α) (k now : Int) :
    (c.get k now).1 =
      match c.cache.lookup k with
      | none => none
      | some e => if now - e.timestamp > c.ttl then none else some e.data := by
  unfold UserCache.get
  cases c.cache.lookup k with
  | none => rfl
  | some e =>
    by_cases hexp : now - e.timestamp > c.ttl
    · simp only [if_pos hexp]
    · simp only [if_neg hexp]

/-- A call other than `set(k, _)` leaves under `k` the entry from before or nothing. -/
theorem UserCache.step_lookup_of_not_set (c : UserCache α) (call : CacheOp α × Int) (k : Int)
    (hcall : CacheOp.setsKey k call.1 = false) :
    (c.step call).cache.lookup k = c.cache.lookup k ∨ (c.step call).cache.lookup k = none := by
  rcases call with ⟨op, now⟩
  cases op with
  | set j v =>
    have hjk : k ≠ j := by
      intro h
      simp [CacheOp.setsKey, h] at hcall
    exact Or.inl (AList.lookup_insert_ne hjk)
  | get j =>
    rcases UserCache.lookup_get_snd c j now k with h | h
    · exact Or.inl h
    · exact Or.inr h.1
  | delete j =>
    by_cases hjk : k = j
    · subst hjk
      exact Or.inr (AList.lookup_erase _ _)
    · exact Or.inl (AList.lookup_erase_ne hjk)
  | clear => exact Or.inr (AList.lookup_empty k)
  | cleanup =>
    show (c.cleanup now).cache.lookup k = _ ∨ (c.cleanup now).cache.lookup k = none
    rw [UserCache.lookup_cleanup]
    cases hl : c.cache.lookup k with
    | none => exact Or.inl rfl
    | some e =>
      by_cases hexp : now - e.timestamp > c.ttl
      · exact Or.inr (if_pos hexp)
      · exact Or.inl (if_neg hexp)

/-- A call that neither sets nor deletes `k`, made while the entry under `k` is not expired,
leaves that entry. -/
theorem UserCache.step_lookup_of_fresh (c : UserCache α) (call : CacheOp α × Int) (k : Int)
    (e : CacheEntry α) (hcall : CacheOp.setsOrDeletesKey k call.1 = false)
    (hl : c.cache.lookup k = some e) (hfresh : call.2 - e.timestamp ≤ c.ttl) :
    (c.step call).cache.lookup k = some e := by
  rcases call with ⟨op, now⟩
  have hnot : ¬ now - e.timestamp > c.ttl := not_lt.2 hfresh
  cases op with
  | set j v =>
    have hjk : k ≠ j := by
      intro h
      simp [CacheOp.setsOrDeletesKey, h] at hcall
    exact (AList.lookup_insert_ne hjk).trans hl
  | get j =>
    rcases UserCache.lookup_get_snd c j now k with h | ⟨_, _, e1, he1, hexp⟩
    · exact h.trans hl
    · rw [hl] at he1
      cases he1
      exact absurd hexp hnot
  | delete j =>
    have hjk : k ≠ j := by
      intro h
      simp [CacheOp.setsOrDeletesKey, h] at hcall
    exact (AList.lookup_erase_ne hjk).trans hl
  | clear => simp [CacheOp.setsOrDeletesKey] at hcall
  | cleanup =>
    show (c.cleanup now).cache.lookup k = some e
    rw [UserCache.lookup_cleanup, hl]
    exact if_neg hnot

/-- Calls none of which is `set(k, _)` leave under `k` the entry from before or nothing. -/
theorem UserCache.run_lookup_of_not_set (calls : List (CacheOp α × Int)) (c : UserCache α)
    (k : Int) (hcalls : ∀ call ∈ calls, CacheOp.setsKey k call.1 = false) :
    (c.run calls).cache.lookup k = c.cache.lookup k ∨ (c.run calls).cache.lookup k = none := by
  induction calls generalizing c with
  | nil => exact Or.inl rfl
  | cons call calls ih =>
    have hhead := UserCache.step_lookup_of_not_set c call k (hcalls call (List.mem_cons_self _ _))
    have htail := ih (c.step call) (fun x hx => hcalls x (List.mem_cons_of_mem _ hx))
    show ((c.step call).run calls).cache.lookup k = _ ∨ ((c.step call).run calls).cache.lookup k = _
    rcases htail with h | h
    · rcases hhead with h1 | h1
      · exact Or.inl (h.trans h1)
      · exact Or.inr (h.trans h1)
    · exact Or.inr h

/-- Calls that neither set nor delete `k`, all made while the entry under `k` is not expired,
leave that entry. -/
theorem UserCache.run_lookup_of_fresh (calls : List (CacheOp α × Int)) (c : UserCache α)
    (k : Int) (e : CacheEntry α)
    (hcalls : ∀ call ∈ calls, CacheOp.setsOrDeletesKey k call.1 = false)
    (hfresh : ∀ call ∈ calls, call.2 - e.timestamp ≤ c.ttl)
    (hl : c.cache.lookup k = some e) :
    (c.run calls).cache.lookup k = some e := by
  induction calls generalizing c with
  | nil => exact hl
  | cons call calls ih =>
    have hhead := UserCache.step_lookup_of_fresh c call k e
      (hcalls call (List.mem_cons_self _ _)) hl (hfresh call (List.mem_cons_self _ _))
    exact ih (c.step call) (fun x hx => hcalls x (List.mem_cons_of_mem _ hx))
      (fun x hx => by
        rw [UserCache.step_ttl]
        exact hfresh x (List.mem_cons_of_mem _ hx))
      hhead

end CacheLemmas


/-! ## Properties of the user cache -/

section CacheClaims

/-- C1. Cache TTL: after `set(userId, userData)` at `t0` and any later calls none of which is
another `set(userId, _)`, `get(userId)` at a time `t1` with `t1 - t0 > ttl` returns null. An id
that was never set (any calls on a new cache, none of them `set(userId, _)`) also reads as null
at every time, so the caller sees the same answer in both cases. The default ttl is 300000 ms. -/
theorem userCache_get_null_past_ttl {α : Type} (c : UserCache α) (userId : Int) (userData : α)
    (t0 t1 : Int) (calls : List (CacheOp α × Int))
    (hcalls : ∀ call ∈ calls, CacheOp.setsKey userId call.1 = false)
    (hexp : t1 - t0 > c.ttl) :
    (((c.set userId userData t0).run calls).get userId t1).1 = none ∧
    (∀ ttl t : Int, (((UserCache.new α ttl).run calls).get userId t).1 = none) ∧
    (UserCache.new α defaultTtl).ttl = 300000 := by
  refine ⟨?_, ?_, rfl⟩
  · rw [UserCache.get_fst, UserCache.run_ttl]
    rcases UserCache.run_lookup_of_not_set calls (c.set userId userData t0) userId hcalls
      with h | h
    · rw [h]
      have hset : (c.set userId userData t0).cache.lookup userId =
          some { data := userData, timestamp := t0 } := AList.lookup_insert _
      rw [hset]
      exact if_pos hexp
    · rw [h]
  · intro ttl t
    rw [UserCache.get_fst]
    rcases UserCache.run_lookup_of_not_set calls (UserCache.new α ttl) userId hcalls with h | h
    · rw [h]
      rfl
    · rw [h]

/-- Witness of C1: a record set at time 0 in the default cache, then a read, a sweep and a write
of another id, is read as null at 300001. -/
theorem userCache_get_null_past_ttl_witness :
    (300001 : Int) - 0 > (UserCache.new Nat defaultTtl).ttl ∧
    ((((UserCache.new Nat defaultTtl).set 7 42 0).run
        [(CacheOp.get 7, 100), (CacheOp.cleanup, 200), (CacheOp.set 8 1, 300)]).get 7 300001).1
      = none :=
  ⟨by decide,
   (userCache_get_null_past_ttl (UserCache.new Nat defaultTtl) 7 42 0 300001
      [(CacheOp.get 7, 100), (CacheOp.cleanup, 200), (CacheOp.set 8 1, 300)]
      (by simp [CacheOp.setsKey]) (by decide)).1⟩

/-- C2. Cache round trip: `set(userId, userData)` at `t`, then any calls that neither set nor
delete `userId` and are made no later than `t1`, then `get(userId)` at `t1` with
`t1 - t ≤ ttl`, returns `userData`; with a ttl that is not negative, in particular the
default one, this includes the read at the same time `t` right after the write. -/
theorem userCache_set_get_roundtrip {α : Type} (c : UserCache α) (userId : Int) (userData : α)
    (t t1 : Int) (calls : List (CacheOp α × Int))
    (hcalls : ∀ call ∈ calls, CacheOp.setsOrDeletesKey userId call.1 = false)
    (htimes : ∀ call ∈ calls, call.2 ≤ t1)
    (hfresh : t1 - t ≤ c.ttl) :
    (((c.set userId userData t).run calls).get userId t1).1 = some userData ∧
    (0 ≤ c.ttl → ((c.set userId userData t).get userId t).1 = some userData) ∧
    (c.ttl = defaultTtl → ((c.set userId userData t).get userId t).1 = some userData) := by
  have hset : (c.set userId userData t).cache.lookup userId =
      some { data := userData, timestamp := t } := AList.lookup_insert _
  have hsame : 0 ≤ c.ttl → ((c.set userId userData t).get userId t).1 = some userData := by
    intro httl
    rw [UserCache.get_fst, hset]
    have hnot : ¬ t - t > c.ttl := by
      rw [sub_self]
      exact not_lt.2 httl
    exact if_neg hnot
  refine ⟨?_, hsame, ?_⟩
  · rw [UserCache.get_fst, UserCache.run_ttl]
    have hrun := UserCache.run_lookup_of_fresh calls (c.set userId userData t) userId
      { data := userData, timestamp := t } hcalls
      (fun call hcall => le_trans (sub_le_sub_right (htimes call hcall) t) hfresh) hset
    rw [hrun]
    exact if_neg (not_lt.2 hfresh)
  · intro hdef
    apply hsame
    rw [hdef]
    decide

/-- Witness of C2: a record set at time 0 in the default cache is read back at 300000, the
last instant of its ttl, after a read, a sweep and a delete of another id. -/
theorem userCache_set_get_roundtrip_witness :
    (300000 : Int) - 0 ≤ (UserCache.new Nat defaultTtl).ttl ∧
    ((((UserCache.new Nat defaultTtl).set 7 42 0).run
        [(CacheOp.get 7, 100), (CacheOp.cleanup, 300000), (CacheOp.delete 8, 300000)]).get 7
          300000).1 = some 42 ∧
    (((UserCache.new Nat defaultTtl).set 7 42 0).get 7 0).1 = some 42 :=
  ⟨by decide,
   (userCache_set_get_roundtrip (UserCache.new Nat defaultTtl) 7 42 0 300000
      [(CacheOp.get 7, 100), (CacheOp.cleanup, 300000), (CacheOp.delete 8, 300000)]
      (by simp [CacheOp.setsOrDeletesKey]) (by simp) (by decide)).1,
   (userCache_set_get_roundtrip (UserCache.new Nat defaultTtl) 7 42 0 300000
      [(CacheOp.get 7, 100), (CacheOp.cleanup, 300000), (CacheOp.delete 8, 300000)]
      (by simp [CacheOp.setsOrDeletesKey]) (by simp) (by decide)).2.1 (by decide)⟩

/-- C16. Cache invalidate: after `delete(userId)`, which is what `clearUserCache` calls, and
any later calls none of which is `set(userId, _)`, `get(userId)` returns null at every time;
and for every other id `j` the read `get(j)` returns at every time what it returned without
the delete. -/
theorem userCache_delete_invalidates {α : Type} (c : UserCache α) (userId : Int)
    (calls : List (CacheOp α × Int))
    (hcalls : ∀ call ∈ calls, CacheOp.setsKey userId call.1 = false) :
    (∀ t : Int, (((c.delete userId).run calls).get userId t).1 = none) ∧
    (∀ j t : Int, j ≠ userId → ((c.delete userId).get j t).1 = (c.get j t).1) ∧
    (∀ (cache : UserCache User) (id : Int), clearUserCache cache id = cache.delete id) := by
  refine ⟨?_, ?_, fun _ _ => rfl⟩
  · intro t
    rw [UserCache.get_fst]
    have hgone : (c.delete userId).cache.lookup userId = none := AList.lookup_erase _ _
    rcases UserCache.run_lookup_of_not_set calls (c.delete userId) userId hcalls with h | h
    · rw [h, hgone]
    · rw [h]
  · intro j t hj
    rw [UserCache.get_fst, UserCache.get_fst]
    have hsame : (c.delete userId).cache.lookup j = c.cache.lookup j :=
      AList.lookup_erase_ne hj
    rw [hsame]
    rfl

/-- Witness of C16: the entry of id 7 is deleted, another id is written and the cache is swept;
id 7 reads as null. -/
theorem userCache_delete_invalidates_witness :
    (((((UserCache.new Nat defaultTtl).set 7 42 0).delete 7).run
        [(CacheOp.set 8 1, 10), (CacheOp.cleanup, 20)]).get 7 30).1 = none ∧
    (((((UserCache.new Nat defaultTtl).set 7 42 0).set 8 1 5).delete 7).get 8 30).1 =
      ((((UserCache.new Nat defaultTtl).set 7 42 0).set 8 1 5).get 8 30).1 :=
  ⟨(userCache_delete_invalidates ((UserCache.new Nat defaultTtl).set 7 42 0) 7
      [(CacheOp.set 8 1, 10), (CacheOp.cleanup, 20)] (by simp [CacheOp.setsKey])).1 30,
   (userCache_delete_invalidates (((UserCache.new Nat defaultTtl).set 7 42 0).set 8 1 5) 7
      [] (by simp)).2.1 8 30 (by decide)⟩

/-- C17. Sweep postcondition: after `cleanup()` at `now` a key holds an entry exactly when it
held that same entry (same data, same timestamp) before and `now - timestamp ≤ ttl`; so the
sweep only removes entries, removes every entry older than the ttl, keeps every other entry
as it was, and leaves the ttl. -/
theorem userCache_cleanup_postcondition {α : Type} (c : UserCache α) (now : Int) :
    (∀ (k : Int) (e : CacheEntry α),
      (c.cleanup now).cache.lookup k = some e ↔
        (c.cache.lookup k = some e ∧ now - e.timestamp ≤ c.ttl)) ∧
    (∀ x : Sigma (fun _ : Int => CacheEntry α),
      x ∈ (c.cleanup now).cache.entries ↔
        (x ∈ c.cache.entries ∧ now - x.2.timestamp ≤ c.ttl)) ∧
    (c.cleanup now).ttl = c.ttl := by
  have hkey : ∀ (k : Int) (e : CacheEntry α),
      (c.cleanup now).cache.lookup k = some e ↔
        (c.cache.lookup k = some e ∧ now - e.timestamp ≤ c.ttl) := by
    intro k e
    rw [UserCache.lookup_cleanup]
    cases hl : c.cache.lookup k with
    | none =>
      constructor
      · intro h
        cases h
      · intro h
        cases h.1
    | some e0 =>
      by_cases hexp : now - e0.timestamp > c.ttl
      · simp only [if_pos hexp]
        constructor
        · intro h
          cases h
        · intro h
          have he : e0 = e := Option.some.inj h.1
          subst he
          exact absurd hexp (not_lt.2 h.2)
      · simp only [if_neg hexp]
        constructor
        · intro h
          have he : e0 = e := Option.some.inj h
          subst he
          exact ⟨rfl, not_lt.1 hexp⟩
        · intro h
          exact h.1
  refine ⟨hkey, ?_, UserCache.cleanup_ttl c now⟩
  intro x
  rcases x with ⟨k, e⟩
  have h1 : (Sigma.mk k e : Sigma (fun _ : Int => CacheEntry α)) ∈ (c.cleanup now).cache.entries ↔
      (c.cleanup now).cache.lookup k = some e := by
    rw [← AList.mem_lookup_iff]
    exact Option.mem_def
  have h2 : (Sigma.mk k e : Sigma (fun _ : Int => CacheEntry α)) ∈ c.cache.entries ↔
      c.cache.lookup k = some e := by
    rw [← AList.mem_lookup_iff]
    exact Option.mem_def
  rw [h1, h2]
  exact hkey k e

/-- C18. The sweep is advisory: for times `s ≤ t`, `get(userId)` at `t` returns the same value
on the cache swept at `s` as on the cache that was not swept. -/
theorem userCache_cleanup_advisory {α : Type} (c : UserCache α) (userId : Int) (s t : Int)
    (hst : s ≤ t) :
    ((c.cleanup s).get userId t).1 = (c.get userId t).1 := by
  rw [UserCache.get_fst, UserCache.get_fst, UserCache.cleanup_ttl, UserCache.lookup_cleanup]
  cases c.cache.lookup userId with
  | none => rfl
  | some e =>
    by_cases hexp : s - e.timestamp > c.ttl
    · have hlater : t - e.timestamp > c.ttl :=
        lt_of_lt_of_le hexp (sub_le_sub_right hst e.timestamp)
      simp only [if_pos hexp, if_pos hlater]
    · simp only [if_neg hexp]

/-- Witness of C18: an entry written at 0 and read at 300001, with a sweep at 300001 or
without. -/
theorem userCache_cleanup_advisory_witness :
    (300001 : Int) ≤ 300001 ∧
    ((((UserCache.new Nat defaultTtl).set 7 42 0).cleanup 300001).get 7 300001).1 =
      (((UserCache.new Nat defaultTtl).set 7 42 0).get 7 300001).1 :=
  ⟨le_refl _,
   userCache_cleanup_advisory ((UserCache.new Nat defaultTtl).set 7 42 0) 7 300001 300001
     (le_refl _)⟩

end CacheClaims


/-! ## Properties of the lockout policy -/

section LockoutLemmas

/-- The rows a successful bulk update leaves: those of the given id that are not soft-deleted
carry the new values, the others are the rows from before. -/
theorem Db.update_ok (db : Db) (values : User → User) (id : Int) (hdb : db.failure = none) :
    db.update values id = .ok { db with users := db.users.map (fun r =>
      if r.id = id ∧ r.deletedAt = none then values r else r) } := by
  unfold Db.update
  rw [hdb]

theorem Db.update_failure (db db1 : Db) (values : User → User) (id : Int)
    (h : db.update values id = .ok db1) : db1.failure = db.failure := by
  unfold Db.update at h
  cases hf : db.failure with
  | some err => rw [hf] at h; cases h
  | none =>
    rw [hf] at h
    cases h
    rfl

/-- A row of an updated store that has the given id and is not soft-deleted is the image of a
row from before. -/
theorem Db.mem_update (db : Db) (values : User → User) (id : Int) (r : User)
    (hr : r ∈ db.users.map (fun x => if x.id = id ∧ x.deletedAt = none then values x else x))
    (hid : r.id = id) (hdel : r.deletedAt = none) :
    ∃ r0 ∈ db.users, r = values r0 := by
  rcases List.mem_map.1 hr with ⟨r0, hr0, himg⟩
  by_cases hc : r0.id = id ∧ r0.deletedAt = none
  · rw [if_pos hc] at himg
    exact ⟨r0, hr0, himg.symm⟩
  · rw [if_neg hc] at himg
    subst himg
    exact absurd ⟨hid, hdel⟩ hc

/-- A failed password check with the store reachable: the step the lockout makes. -/
theorem User.lockoutStep_failed (db : Db) (u : User) (t : Int) (hdb : db.failure = none) :
    User.lockoutStep (db, u) (.failed, t) =
      ({ db with users := db.users.map (fun r =>
          if r.id = u.id ∧ r.deletedAt = none then
            r.withLoginAttempts (u.loginAttempts + 1)
              (if u.loginAttempts + 1 ≥ maxLoginAttempts then some (t + lockWindow) else none)
          else r) },
       u.withLoginAttempts (u.loginAttempts + 1)
         (if u.loginAttempts + 1 ≥ maxLoginAttempts then some (t + lockWindow) else none)) := by
  simp only [User.lockoutStep, User.incrementLoginAttempts, Db.update_ok db _ u.id hdb]

/-- A successful login with the store reachable: the step the lockout makes. -/
theorem User.lockoutStep_succeeded (db : Db) (u : User) (t : Int) (hdb : db.failure = none) :
    User.lockoutStep (db, u) (.succeeded, t) =
      ({ db with users := db.users.map (fun r =>
          if r.id = u.id ∧ r.deletedAt = none then r.withLastLogin t else r) },
       u.withLastLogin t) := by
  simp only [User.lockoutStep, User.updateLastLogin, Db.update_ok db _ u.id hdb]

/-- With the store unreachable a lockout step changes nothing. -/
theorem User.lockoutStep_unreachable (db : Db) (u : User) (ev : LoginOutcome × Int)
    (err : JsError) (hdb : db.failure = some err) : User.lockoutStep (db, u) ev = (db, u) := by
  rcases ev with ⟨o, t⟩
  cases o <;>
    simp only [User.lockoutStep, User.incrementLoginAttempts, User.updateLastLogin, Db.update,
      hdb]

/-- What a failed password check leaves, with the store reachable: the store stays reachable,
the id stays, the counter goes up by one and the lock is set from the threshold on, on the
instance and on every stored row of that id. -/
theorem User.lockoutStep_failed_spec (st : Db × User) (t : Int) (hdb : st.1.failure = none) :
    (User.lockoutStep st (.failed, t)).1.failure = none ∧
    (User.lockoutStep st (.failed, t)).2.id = st.2.id ∧
    (User.lockoutStep st (.failed, t)).2.loginAttempts = st.2.loginAttempts + 1 ∧
    (User.lockoutStep st (.failed, t)).2.lockedUntil =
      (if st.2.loginAttempts + 1 ≥ 5 then some (t + 15 * 60 * 1000) else none) ∧
    ∀ r ∈ (User.lockoutStep st (.failed, t)).1.users, r.id = st.2.id → r.deletedAt = none →
      r.loginAttempts = st.2.loginAttempts + 1 ∧
      r.lockedUntil = (if st.2.loginAttempts + 1 ≥ 5 then some (t + 15 * 60 * 1000) else none) := by
  rcases st with ⟨db, u⟩
  rw [User.lockoutStep_failed db u t hdb]
  refine ⟨hdb, rfl, rfl, rfl, ?_⟩
  intro r hr hid hdel
  rcases Db.mem_update db
    (fun x => x.withLoginAttempts (u.loginAttempts + 1)
      (if u.loginAttempts + 1 ≥ maxLoginAttempts then some (t + lockWindow) else none))
    u.id r hr hid hdel with ⟨r0, _, h⟩
  subst h
  exact ⟨rfl, rfl⟩

/-- What a successful login leaves, with the store reachable. -/
theorem User.lockoutStep_succeeded_spec (st : Db × User) (t : Int)
    (hdb : st.1.failure = none) :
    (User.lockoutStep st (.succeeded, t)).1.failure = none ∧
    (User.lockoutStep st (.succeeded, t)).2.id = st.2.id ∧
    (User.lockoutStep st (.succeeded, t)).2.loginAttempts = 0 ∧
    (User.lockoutStep st (.succeeded, t)).2.lockedUntil = none ∧
    ∀ r ∈ (User.lockoutStep st (.succeeded, t)).1.users, r.id = st.2.id → r.deletedAt = none →
      r.loginAttempts = 0 ∧ r.lockedUntil = none := by
  rcases st with ⟨db, u⟩
  rw [User.lockoutStep_succeeded db u t hdb]
  refine ⟨hdb, rfl, rfl, rfl, ?_⟩
  intro r hr hid hdel
  rcases Db.mem_update db (fun x => x.withLastLogin t) u.id r hr hid hdel with ⟨r0, _, h⟩
  subst h
  exact ⟨rfl, rfl⟩

/-- A row of the store after a lockout step is a row from before or carries the lockout state
of the instance after the step. -/
theorem User.lockoutStep_rows (st : Db × User) (ev : LoginOutcome × Int) (r : User)
    (hr : r ∈ (User.lockoutStep st ev).1.users) :
    r ∈ st.1.users ∨
      (r.loginAttempts = (User.lockoutStep st ev).2.loginAttempts ∧
       r.lockedUntil = (User.lockoutStep st ev).2.lockedUntil) := by
  rcases st with ⟨db, u⟩
  cases hf : db.failure with
  | some err =>
    rw [User.lockoutStep_unreachable db u ev err hf] at hr
    exact Or.inl hr
  | none =>
    rcases ev with ⟨o, t⟩
    cases o with
    | failed =>
      rw [User.lockoutStep_failed db u t hf] at hr ⊢
      rcases List.mem_map.1 hr with ⟨r0, hr0, himg⟩
      by_cases hc : r0.id = u.id ∧ r0.deletedAt = none
      · rw [if_pos hc] at himg
        subst himg
        exact Or.inr ⟨rfl, rfl⟩
      · rw [if_neg hc] at himg
        subst himg
        exact Or.inl hr0
    | succeeded =>
      rw [User.lockoutStep_succeeded db u t hf] at hr ⊢
      rcases List.mem_map.1 hr with ⟨r0, hr0, himg⟩
      by_cases hc : r0.id = u.id ∧ r0.deletedAt = none
      · rw [if_pos hc] at himg
        subst himg
        exact Or.inr ⟨rfl, rfl⟩
      · rw [if_neg hc] at himg
        subst himg
        exact Or.inl hr0

/-- A lockout step keeps the invariant of the instance. -/
theorem User.lockoutStep_inv (st : Db × User) (ev : LoginOutcome × Int)
    (hinv : st.2.lockoutInv) : (User.lockoutStep st ev).2.lockoutInv := by
  rcases st with ⟨db, u⟩
  cases hf : db.failure with
  | some err =>
    rw [User.lockoutStep_unreachable db u ev err hf]
    exact hinv
  | none =>
    rcases ev with ⟨o, t⟩
    cases o with
    | failed =>
      have p := User.lockoutStep_failed_spec (db, u) t hf
      unfold User.lockoutInv at hinv ⊢
      rw [p.2.2.1, p.2.2.2.1]
      have h0 : 0 ≤ u.loginAttempts := hinv.1
      refine ⟨by omega, ?_⟩
      intro hset
      by_cases h5 : u.loginAttempts + 1 ≥ 5
      · exact h5
      · exact absurd (if_neg h5) hset
    | succeeded =>
      have p := User.lockoutStep_succeeded_spec (db, u) t hf
      unfold User.lockoutInv
      rw [p.2.2.1, p.2.2.2.1]
      exact ⟨le_refl 0, fun h => absurd rfl h⟩

/-- A row `findOne` yields is a row of the store that meets the condition. -/
theorem Db.findOne_some (db : Db) (cond : User → Bool) (u : User)
    (h : db.findOne cond = .ok (some u)) : u ∈ db.users ∧ cond u = true := by
  unfold Db.findOne at h
  cases hf : db.failure with
  | some err =>
    rw [hf] at h
    cases h
  | none =>
    rw [hf] at h
    simp only [Except.ok.injEq] at h
    have hmem := List.mem_of_find?_eq_some h
    have hcond := List.find?_some h
    rw [Bool.and_eq_true] at hcond
    exact ⟨hmem, hcond.1⟩

/-- A row `findOne` yields is not soft-deleted. -/
theorem Db.findOne_some_live (db : Db) (cond : User → Bool) (u : User)
    (h : db.findOne cond = .ok (some u)) : u.deletedAt = none := by
  unfold Db.findOne at h
  cases hf : db.failure with
  | some err =>
    rw [hf] at h
    cases h
  | none =>
    rw [hf] at h
    simp only [Except.ok.injEq] at h
    have hcond := List.find?_some h
    rw [Bool.and_eq_true, Option.isNone_iff_eq_none] at hcond
    exact hcond.2

end LockoutLemmas

section LoginLemmas

/-- The operation of the login handler on a locked account: the 423 result, store untouched. -/
theorem loginOperation_locked (env : Env) (value : LoginValue) (now : Int) (db : Db) (u : User)
    (hfind : db.findOne (fun r => r.email = env.toLowerCase value.email && r.isActive)
      = .ok (some u))
    (hlocked : u.isLocked now = true) :
    loginOperation env value now db =
      (.ok (.error "Account temporarily locked due to failed login attempts" 423), db) := by
  unfold loginOperation
  rw [hfind]
  simp only [hlocked, if_true]

/-- The operation of the login handler leaves the store as it was when it resolves to a
user. -/
theorem loginOperation_user (env : Env) (value : LoginValue) (now : Int) (db : Db) (u : User)
    (h : (loginOperation env value now db).1 = .ok (.user u)) :
    loginOperation env value now db = (.ok (.user u), db) := by
  unfold loginOperation at h ⊢
  split at h
  · cases h
  · cases h
  · rename_i user hfind
    split at h
    · cases h
    · split at h
      · cases h
      · rename_i hnl hpw
        simp only at h
        cases h
        simp only [hnl, hpw]
        rfl

/-- A call of `execute` that resolves ran the operation on the given state: the result and the
state are those of the operation. -/
theorem CircuitBreaker.execute_ok {σ ρ : Type} (b : CircuitBreaker) (now settled : Int)
    (operation : σ → Except JsError ρ × σ) (s : σ) (result : ρ)
    (h : (b.execute now settled operation s).1 = .ok result) :
    operation s = (.ok result, (operation s).2) ∧
      ∃ b1, b.execute now settled operation s = (.ok result, (operation s).2, b1) := by
  unfold CircuitBreaker.execute at h ⊢
  cases hb : b.enter now with
  | error err =>
    rw [hb] at h
    cases h
  | ok b1 =>
    rw [hb] at h
    simp only at h ⊢
    rcases hop : operation s with ⟨r, s1⟩
    rw [hop] at h
    cases r with
    | error err => cases h
    | ok res =>
      simp only at h ⊢
      cases h
      exact ⟨rfl, _, rfl⟩

/-- The fifth and later failures as `incrementLoginAttempts` stores them, with the store
reachable: the call resolves to the updated store, every row of the id carrying the new
counter and lock. -/
theorem incrementLoginAttempts_step (db : Db) (self : User) (now : Int)
    (hdb : db.failure = none) :
    self.incrementLoginAttempts db now =
      .ok ({ db with users := db.users.map (fun r =>
              if r.id = self.id ∧ r.deletedAt = none then
                r.withLoginAttempts (self.loginAttempts + 1)
                  (if self.loginAttempts + 1 ≥ maxLoginAttempts then some (now + lockWindow)
                   else none)
              else r) },
           self.withLoginAttempts (self.loginAttempts + 1)
             (if self.loginAttempts + 1 ≥ maxLoginAttempts then some (now + lockWindow)
              else none)) ∧
    ∀ r ∈ db.users.map (fun r =>
        if r.id = self.id ∧ r.deletedAt = none then
          r.withLoginAttempts (self.loginAttempts + 1)
            (if self.loginAttempts + 1 ≥ maxLoginAttempts then some (now + lockWindow)
             else none)
        else r),
      r.id = self.id → r.deletedAt = none →
      r.loginAttempts = self.loginAttempts + 1 ∧
      r.lockedUntil =
        (if self.loginAttempts + 1 ≥ maxLoginAttempts then some (now + 15 * 60 * 1000)
         else none) := by
  constructor
  · unfold User.incrementLoginAttempts
    simp only [Db.update_ok db _ self.id hdb]
  · intro r hr hid hdel
    rcases Db.mem_update db
      (fun x => x.withLoginAttempts (self.loginAttempts + 1)
        (if self.loginAttempts + 1 ≥ maxLoginAttempts then some (now + lockWindow) else none))
      self.id r hr hid hdel with ⟨r0, _, h⟩
    subst h
    exact ⟨rfl, rfl⟩

end LoginLemmas

section LockoutClaims

/-- C3. Failure transition: with the store reachable, `incrementLoginAttempts` at `now` on an
instance with `loginAttempts = n` resolves and leaves `loginAttempts = n + 1` and
`lockedUntil = now + 15 minutes` when `n + 1 ≥ 5`, null otherwise, on the instance and on
every stored row of that id. -/
theorem incrementLoginAttempts_transition (db : Db) (self : User) (now : Int)
    (hdb : db.failure = none) :
    ∃ db1 u1, self.incrementLoginAttempts db now = .ok (db1, u1) ∧
      u1.loginAttempts = self.loginAttempts + 1 ∧
      u1.lockedUntil =
        (if self.loginAttempts + 1 ≥ 5 then some (now + 15 * 60 * 1000) else none) ∧
      ∀ r ∈ db1.users, r.id = self.id → r.deletedAt = none →
        r.loginAttempts = self.loginAttempts + 1 ∧
        r.lockedUntil =
          (if self.loginAttempts + 1 ≥ 5 then some (now + 15 * 60 * 1000) else none) := by
  unfold User.incrementLoginAttempts
  simp only [Db.update_ok db _ self.id hdb]
  refine ⟨_, _, rfl, rfl, rfl, ?_⟩
  intro r hr hid hdel
  rcases Db.mem_update db
    (fun x => x.withLoginAttempts (self.loginAttempts + 1)
      (if self.loginAttempts + 1 ≥ maxLoginAttempts then some (now + lockWindow) else none))
    self.id r hr hid hdel with ⟨r0, _, h⟩
  subst h
  exact ⟨rfl, rfl⟩

/-- Witness of C3: the fifth failure, at time 1000, sets the lock to 901000. -/
theorem incrementLoginAttempts_transition_witness :
    sampleDb.failure = none ∧
    ∃ db1 u1, almostLockedUser.incrementLoginAttempts sampleDb 1000 = .ok (db1, u1) ∧
      u1.loginAttempts = 5 ∧ u1.lockedUntil = some 901000 :=
  ⟨rfl, by
    obtain ⟨db1, u1, hrun, hcount, hlock, _⟩ :=
      incrementLoginAttempts_transition sampleDb almostLockedUser 1000 rfl
    exact ⟨db1, u1, hrun, hcount.trans (by decide), hlock.trans (by decide)⟩⟩

/-- C4. Five consecutive failures lock a new account: starting from `loginAttempts = 0`,
`lockedUntil = null` with the store reachable, after failed password checks at `t1 ... t5`
`isLocked()` is true at every `t < t5 + 15 minutes` (so at every `t` with
`t5 ≤ t < t5 + 15 minutes`), on the instance and on every stored row of that id; after the
first four failures only, `isLocked()` is false at every time. -/
theorem isLocked_after_five_failures (db : Db) (u : User) (t1 t2 t3 t4 t5 t : Int)
    (hdb : db.failure = none) (hnew : u.isFresh) (hhi : t < t5 + 15 * 60 * 1000) :
    (User.lockoutRun (db, u)
        [(.failed, t1), (.failed, t2), (.failed, t3), (.failed, t4), (.failed, t5)]).2.isLocked t
      = true ∧
    (∀ r ∈ (User.lockoutRun (db, u)
        [(.failed, t1), (.failed, t2), (.failed, t3), (.failed, t4), (.failed, t5)]).1.users,
      r.id = u.id → r.deletedAt = none → r.isLocked t = true) ∧
    (∀ s : Int, (User.lockoutRun (db, u)
        [(.failed, t1), (.failed, t2), (.failed, t3), (.failed, t4)]).2.isLocked s = false) := by
  obtain ⟨h0, _⟩ := hnew
  simp only [User.lockoutRun, List.foldl]
  have p1 := User.lockoutStep_failed_spec (db, u) t1 hdb
  generalize User.lockoutStep (db, u) (.failed, t1) = s1 at p1 ⊢
  have p2 := User.lockoutStep_failed_spec s1 t2 p1.1
  generalize User.lockoutStep s1 (.failed, t2) = s2 at p2 ⊢
  have p3 := User.lockoutStep_failed_spec s2 t3 p2.1
  generalize User.lockoutStep s2 (.failed, t3) = s3 at p3 ⊢
  have p4 := User.lockoutStep_failed_spec s3 t4 p3.1
  generalize User.lockoutStep s3 (.failed, t4) = s4 at p4 ⊢
  have p5 := User.lockoutStep_failed_spec s4 t5 p4.1
  generalize User.lockoutStep s4 (.failed, t5) = s5 at p5 ⊢
  have a4 : s4.2.loginAttempts = 4 := by
    rw [p4.2.2.1, p3.2.2.1, p2.2.2.1, p1.2.2.1]
    show u.loginAttempts + 1 + 1 + 1 + 1 = 4
    rw [h0]
    rfl
  have a3 : s3.2.loginAttempts = 3 := by
    rw [p3.2.2.1, p2.2.2.1, p1.2.2.1]
    show u.loginAttempts + 1 + 1 + 1 = 3
    rw [h0]
    rfl
  have hid4 : s4.2.id = u.id := by
    rw [p4.2.1, p3.2.1, p2.2.1, p1.2.1]
  have hgt : t5 + 15 * 60 * 1000 > t := hhi
  refine ⟨?_, ?_, ?_⟩
  · unfold User.isLocked
    rw [p5.2.2.2.1, a4, if_pos (by decide)]
    exact decide_eq_true hgt
  · intro r hr hid hdel
    have hrow := (p5.2.2.2.2 r hr (hid.trans hid4.symm) hdel).2
    unfold User.isLocked
    rw [hrow, a4, if_pos (by decide)]
    exact decide_eq_true hgt
  · intro s
    unfold User.isLocked
    rw [p4.2.2.2.1, a3, if_neg (by decide)]

/-- Witness of C4: failures at times 1 to 5 lock the new account at time 6, four do not. -/
theorem isLocked_after_five_failures_witness :
    sampleDb.failure = none ∧ sampleUser.isFresh ∧ (6 : Int) < 5 + 15 * 60 * 1000 ∧
    (User.lockoutRun (sampleDb, sampleUser)
        [(.failed, 1), (.failed, 2), (.failed, 3), (.failed, 4), (.failed, 5)]).2.isLocked 6
      = true ∧
    (User.lockoutRun (sampleDb, sampleUser)
        [(.failed, 1), (.failed, 2), (.failed, 3), (.failed, 4)]).2.isLocked 6 = false :=
  ⟨rfl, ⟨rfl, rfl⟩, by decide,
   (isLocked_after_five_failures sampleDb sampleUser 1 2 3 4 5 6 rfl ⟨rfl, rfl⟩ (by decide)).1,
   (isLocked_after_five_failures sampleDb sampleUser 1 2 3 4 5 6 rfl ⟨rfl, rfl⟩
      (by decide)).2.2 6⟩

/-- C6. Success transition: with the store reachable, `updateLastLogin` at `now` resolves
whatever `loginAttempts` and `lockedUntil` were and leaves `loginAttempts = 0`,
`lockedUntil = null` and `lastLoginAt = now`, on the instance and on every stored row of that
id, so `isLocked()` is false afterwards at every time; and a login that succeeds leaves the
store `updateLastLogin` leaves for the account it found. -/
theorem updateLastLogin_transition (db : Db) (self : User) (now : Int)
    (hdb : db.failure = none) :
    ∃ db1 u1, self.updateLastLogin db now = .ok (db1, u1) ∧
      u1.loginAttempts = 0 ∧ u1.lockedUntil = none ∧ u1.lastLoginAt = some now ∧
      (∀ t : Int, u1.isLocked t = false) ∧
      (∀ r ∈ db1.users, r.id = self.id → r.deletedAt = none →
        r.loginAttempts = 0 ∧ r.lockedUntil = none ∧ r.lastLoginAt = some now ∧
        ∀ t : Int, r.isLocked t = false) ∧
      (∀ (env : Env) (breaker : CircuitBreaker) (body : String) (value : LoginValue),
        env.loginSchemaValidate body = .ok value →
        (breaker.execute now now (loginOperation env value now) db).1 = .ok (.user self) →
        (login env db breaker body now).response.status = 200 ∧
        (login env db breaker body now).db = db1) := by
  unfold User.updateLastLogin
  simp only [Db.update_ok db _ self.id hdb]
  refine ⟨_, _, rfl, rfl, rfl, rfl, fun t => rfl, ?_, ?_⟩
  · intro r hr hid hdel
    rcases Db.mem_update db (fun x => x.withLastLogin now) self.id r hr hid hdel with ⟨r0, _, h⟩
    subst h
    exact ⟨rfl, rfl, rfl, fun t => rfl⟩
  · intro env breaker body value hval hop
    rcases CircuitBreaker.execute_ok breaker now now (loginOperation env value now) db
      (.user self) hop with ⟨hres, b1, hexec⟩
    rw [loginOperation_user env value now db self (by rw [hres])] at hexec
    unfold login
    rw [hval]
    simp only [hexec]
    unfold User.updateLastLogin
    simp only [Db.update_ok db _ self.id hdb, detached, and_self]

/-- Witness of C6: a successful login at time 1000 clears the lock of the locked account. -/
theorem updateLastLogin_transition_witness :
    lockedDb.failure = none ∧
    ∃ db1 u1, lockedUser.updateLastLogin lockedDb 1000 = .ok (db1, u1) ∧
      u1.loginAttempts = 0 ∧ u1.lockedUntil = none ∧ u1.lastLoginAt = some 1000 ∧
      u1.isLocked 1000 = false :=
  ⟨rfl, by
    obtain ⟨db1, u1, hrun, hcount, hlock, hlast, hfree, _⟩ :=
      updateLastLogin_transition lockedDb lockedUser 1000 rfl
    exact ⟨db1, u1, hrun, hcount, hlock, hlast, hfree 1000⟩⟩

/-- C8. Lockout invariant: in every state reached from a new account (`loginAttempts = 0`,
`lockedUntil = null`) by any sequence of `incrementLoginAttempts` and `updateLastLogin` calls,
whether the store can be reached or not, `loginAttempts` is not negative and a set
`lockedUntil` comes with `loginAttempts ≥ 5`; the same holds of every stored row when it held
of the rows at the start. -/
theorem lockout_invariant (db : Db) (u : User) (evs : List (LoginOutcome × Int))
    (hnew : u.isFresh) :
    (0 ≤ (User.lockoutRun (db, u) evs).2.loginAttempts ∧
      ((User.lockoutRun (db, u) evs).2.lockedUntil ≠ none →
        5 ≤ (User.lockoutRun (db, u) evs).2.loginAttempts)) ∧
    ((∀ r ∈ db.users,
        0 ≤ r.loginAttempts ∧ (r.lockedUntil ≠ none → 5 ≤ r.loginAttempts)) →
      ∀ r ∈ (User.lockoutRun (db, u) evs).1.users,
        0 ≤ r.loginAttempts ∧ (r.lockedUntil ≠ none → 5 ≤ r.loginAttempts)) := by
  have hstart : u.lockoutInv := by
    unfold User.lockoutInv
    rw [hnew.1, hnew.2]
    exact ⟨le_refl 0, fun h => absurd rfl h⟩
  have key : ∀ (evs : List (LoginOutcome × Int)) (st : Db × User),
      st.2.lockoutInv →
      (User.lockoutRun st evs).2.lockoutInv ∧
        ((∀ r ∈ st.1.users, r.lockoutInv) →
          ∀ r ∈ (User.lockoutRun st evs).1.users, r.lockoutInv) := by
    intro evs
    induction evs with
    | nil => exact fun st h1 => ⟨h1, fun h2 => h2⟩
    | cons ev evs ih =>
      intro st h1
      have hstep := User.lockoutStep_inv st ev h1
      have htail := ih (User.lockoutStep st ev) hstep
      refine ⟨htail.1, fun h2 => htail.2 ?_⟩
      intro r hr
      rcases User.lockoutStep_rows st ev r hr with h | h
      · exact h2 r h
      · unfold User.lockoutInv at hstep ⊢
        rw [h.1, h.2]
        exact hstep
  exact key evs (db, u) hstart

/-- Witness of C8: two failures, a success and one more failure on the new account. -/
theorem lockout_invariant_witness :
    sampleUser.isFresh ∧
    0 ≤ (User.lockoutRun (sampleDb, sampleUser)
      [(.failed, 1), (.failed, 2), (.succeeded, 3), (.failed, 4)]).2.loginAttempts ∧
    ∀ r ∈ (User.lockoutRun (sampleDb, sampleUser)
      [(.failed, 1), (.failed, 2), (.succeeded, 3), (.failed, 4)]).1.users,
      0 ≤ r.loginAttempts ∧ (r.lockedUntil ≠ none → 5 ≤ r.loginAttempts) :=
  ⟨⟨rfl, rfl⟩,
   (lockout_invariant sampleDb sampleUser
      [(.failed, 1), (.failed, 2), (.succeeded, 3), (.failed, 4)] ⟨rfl, rfl⟩).1.1,
   (lockout_invariant sampleDb sampleUser
      [(.failed, 1), (.failed, 2), (.succeeded, 3), (.failed, 4)] ⟨rfl, rfl⟩).2
      (by decide)⟩

/-- C5. No extension of a lock: when the account the handler finds for the submitted email is
locked at `now` (`lockedUntil > now`), the login handler leaves the store as it was, whatever
the password and the breaker state: the account found afterwards is the same record, with
the same `lockedUntil` and `loginAttempts`. -/
theorem login_locked_keeps_lock (env : Env) (db : Db) (breaker : CircuitBreaker)
    (body : String) (now : Int) (value : LoginValue) (u : User) (lockedUntil : Int)
    (hval : env.loginSchemaValidate body = .ok value)
    (hfind : db.findOne (fun r => r.email = env.toLowerCase value.email && r.isActive)
      = .ok (some u))
    (hlock : u.lockedUntil = some lockedUntil) (hgt : lockedUntil > now) :
    (login env db breaker body now).db = db ∧
    (login env db breaker body now).db.findOne
        (fun r => r.email = env.toLowerCase value.email && r.isActive) = .ok (some u) := by
  have hlocked : u.isLocked now = true := by
    unfold User.isLocked
    rw [hlock]
    exact decide_eq_true hgt
  have hop := loginOperation_locked env value now db u hfind hlocked
  have hdb : (login env db breaker body now).db = db := by
    unfold login
    rw [hval]
    unfold CircuitBreaker.execute
    cases hb : breaker.enter now with
    | error err =>
      simp only
      split <;> rfl
    | ok b1 =>
      simp only [hop]
  rw [hdb]
  exact ⟨rfl, hfind⟩

/-- Witness of C5: a login at time 1000 for the account locked until 900000. -/
theorem login_locked_keeps_lock_witness :
    sampleEnv.loginSchemaValidate "body" = .ok { email := "a@x.com", password := "secret1" } ∧
    lockedDb.findOne (fun r => r.email = sampleEnv.toLowerCase "a@x.com" && r.isActive)
      = .ok (some lockedUser) ∧
    lockedUser.lockedUntil = some 900000 ∧ (900000 : Int) > 1000 ∧
    (login sampleEnv lockedDb dbCircuitBreaker "body" 1000).db = lockedDb :=
  ⟨rfl, rfl, rfl, by decide,
   (login_locked_keeps_lock sampleEnv lockedDb dbCircuitBreaker "body" 1000
      { email := "a@x.com", password := "secret1" } lockedUser 900000 rfl rfl rfl
      (by decide)).1⟩

/-- C7. Scenario B: when the body validates, the breaker lets the call through and the account
found for the submitted email is locked at `now`, the login handler answers 423 with the
account-locked message and no data (so no token), whatever the password, the correct one
included, and leaves the store, so the lockout counters, as they were. -/
theorem login_locked_rejects (env : Env) (db : Db) (breaker : CircuitBreaker)
    (body : String) (now : Int) (value : LoginValue) (u : User) (lockedUntil : Int)
    (hval : env.loginSchemaValidate body = .ok value)
    (hbreaker : breaker.state = .OPEN → now - breaker.lastFailureTime.getD 0 > breaker.timeout)
    (hfind : db.findOne (fun r => r.email = env.toLowerCase value.email && r.isActive)
      = .ok (some u))
    (hlock : u.lockedUntil = some lockedUntil) (hgt : lockedUntil > now) :
    (login env db breaker body now).response =
      Response.reject 423 "Account temporarily locked due to failed login attempts" ∧
    (login env db breaker body now).response.status = 423 ∧
    (login env db breaker body now).response.data = none ∧
    (login env db breaker body now).db = db := by
  have hlocked : u.isLocked now = true := by
    unfold User.isLocked
    rw [hlock]
    exact decide_eq_true hgt
  have hop := loginOperation_locked env value now db u hfind hlocked
  have henter : ∃ b1, breaker.enter now = .ok b1 := by
    unfold CircuitBreaker.enter
    by_cases hs : breaker.state = .OPEN
    · rw [if_pos hs, if_pos (hbreaker hs)]
      exact ⟨_, rfl⟩
    · rw [if_neg hs]
      exact ⟨_, rfl⟩
  rcases henter with ⟨b1, hb⟩
  have hlogin : login env db breaker body now =
      { response := Response.reject 423
          "Account temporarily locked due to failed login attempts",
        db := db, breaker := b1.onSuccess } := by
    unfold login
    rw [hval]
    unfold CircuitBreaker.execute
    simp only [hb, hop]
  rw [hlogin]
  exact ⟨rfl, rfl, rfl, rfl⟩

/-- Witness of C7: the correct password at time 1000 for the account locked until 900000. -/
theorem login_locked_rejects_witness :
    sampleEnv.loginSchemaValidate "body" = .ok { email := "a@x.com", password := "secret1" } ∧
    (dbCircuitBreaker.state = .OPEN →
      1000 - dbCircuitBreaker.lastFailureTime.getD 0 > dbCircuitBreaker.timeout) ∧
    lockedDb.findOne (fun r => r.email = sampleEnv.toLowerCase "a@x.com" && r.isActive)
      = .ok (some lockedUser) ∧
    lockedUser.lockedUntil = some 900000 ∧ (900000 : Int) > 1000 ∧
    lockedUser.comparePassword sampleEnv "secret1" = true ∧
    (login sampleEnv lockedDb dbCircuitBreaker "body" 1000).response.status = 423 :=
  ⟨rfl, fun h => absurd h (by decide), rfl, rfl, by decide, by decide,
   (login_locked_rejects sampleEnv lockedDb dbCircuitBreaker "body" 1000
      { email := "a@x.com", password := "secret1" } lockedUser 900000 rfl
      (fun h => absurd h (by decide)) rfl rfl (by decide)).2.1⟩

/-- C26. Re-lock after natural expiry: when the body validates, the breaker lets the call
through, and the account found for the email has `loginAttempts = n ≥ 5` and a lock that has
run out (`lockedUntil ≤ now`), a login with a wrong password at `now` is answered 401 (not
423) and stores `loginAttempts = n + 1` and `lockedUntil = now + 15 minutes` on every row of
that id, so the account is locked again at every time before `now + 15 minutes`. -/
theorem login_relocks_after_expiry (env : Env) (db : Db) (breaker : CircuitBreaker)
    (body : String) (now : Int) (value : LoginValue) (u : User) (lockedUntil : Int)
    (hval : env.loginSchemaValidate body = .ok value)
    (hbreaker : breaker.state = .OPEN → now - breaker.lastFailureTime.getD 0 > breaker.timeout)
    (hfind : db.findOne (fun r => r.email = env.toLowerCase value.email && r.isActive)
      = .ok (some u))
    (hattempts : 5 ≤ u.loginAttempts)
    (hlock : u.lockedUntil = some lockedUntil) (hexpired : lockedUntil ≤ now)
    (hwrong : u.comparePassword env value.password = false) :
    u.isLocked now = false ∧
    (login env db breaker body now).response = Response.reject 401 "Invalid credentials" ∧
    (∃ r ∈ (login env db breaker body now).db.users, r.id = u.id ∧ r.deletedAt = none) ∧
    ∀ r ∈ (login env db breaker body now).db.users, r.id = u.id → r.deletedAt = none →
      r.loginAttempts = u.loginAttempts + 1 ∧
      r.lockedUntil = some (now + 15 * 60 * 1000) ∧
      ∀ t : Int, t < now + 15 * 60 * 1000 → r.isLocked t = true := by
  have hfree : u.isLocked now = false := by
    unfold User.isLocked
    rw [hlock]
    exact decide_eq_false (not_lt.2 hexpired)
  have hreach : db.failure = none := by
    unfold Db.findOne at hfind
    cases hf : db.failure with
    | none => rfl
    | some err =>
      rw [hf] at hfind
      cases hfind
  have hrow := Db.findOne_some db _ u hfind
  have hlive := Db.findOne_some_live db _ u hfind
  have hinc := incrementLoginAttempts_step db u now hreach
  rcases hinc with ⟨hrun, hrows⟩
  have hop : loginOperation env value now db =
      (.ok (.error "Invalid credentials" 401),
        { db with users := db.users.map (fun r =>
            if r.id = u.id ∧ r.deletedAt = none then
              r.withLoginAttempts (u.loginAttempts + 1)
                (if u.loginAttempts + 1 ≥ maxLoginAttempts then some (now + lockWindow)
                 else none)
            else r) }) := by
    unfold loginOperation
    rw [hfind]
    simp only [hfree, hwrong, Bool.false_eq_true, if_false, Bool.not_false, if_true, hrun,
      detached]
  have henter : ∃ b1, breaker.enter now = .ok b1 := by
    unfold CircuitBreaker.enter
    by_cases hs : breaker.state = .OPEN
    · rw [if_pos hs, if_pos (hbreaker hs)]
      exact ⟨_, rfl⟩
    · rw [if_neg hs]
      exact ⟨_, rfl⟩
  rcases henter with ⟨b1, hb⟩
  have hlogin : login env db breaker body now =
      { response := Response.reject 401 "Invalid credentials",
        db := { db with users := db.users.map (fun r =>
            if r.id = u.id ∧ r.deletedAt = none then
              r.withLoginAttempts (u.loginAttempts + 1)
                (if u.loginAttempts + 1 ≥ maxLoginAttempts then some (now + lockWindow)
                 else none)
            else r) },
        breaker := b1.onSuccess } := by
    unfold login
    rw [hval]
    unfold CircuitBreaker.execute
    simp only [hb, hop]
  have hge : u.loginAttempts + 1 ≥ maxLoginAttempts := by
    unfold maxLoginAttempts
    omega
  rw [hlogin]
  refine ⟨hfree, rfl, ?_, ?_⟩
  · refine ⟨_, List.mem_map.2 ⟨u, hrow.1, rfl⟩, ?_⟩
    rw [if_pos ⟨rfl, hlive⟩]
    exact ⟨rfl, hlive⟩
  · intro r hr hid hdel
    have h := hrows r hr hid hdel
    rw [if_pos hge] at h
    refine ⟨h.1, h.2, ?_⟩
    intro t ht
    unfold User.isLocked
    rw [h.2]
    exact decide_eq_true ht

/-- Witness of C26: the account locked until 900000 with five attempts gets a wrong password
at time 900000. -/
theorem login_relocks_after_expiry_witness :
    guessEnv.loginSchemaValidate "body" = .ok { email := "a@x.com", password := "guess" } ∧
    lockedDb.findOne (fun r => r.email = guessEnv.toLowerCase "a@x.com" && r.isActive)
      = .ok (some lockedUser) ∧
    (5 : Int) ≤ lockedUser.loginAttempts ∧ lockedUser.lockedUntil = some 900000 ∧
    (900000 : Int) ≤ 900000 ∧ lockedUser.comparePassword guessEnv "guess" = false ∧
    (login guessEnv lockedDb dbCircuitBreaker "body" 900000).response =
      Response.reject 401 "Invalid credentials" ∧
    (login guessEnv lockedDb dbCircuitBreaker "body" 900000).db.users =
      [{ lockedUser with loginAttempts := 6, lockedUntil := some 1800000 }] :=
  ⟨rfl, rfl, by decide, rfl, le_refl _, by decide,
   (login_relocks_after_expiry guessEnv lockedDb dbCircuitBreaker "body" 900000
      { email := "a@x.com", password := "guess" } lockedUser 900000 rfl
      (fun h => absurd h (by decide)) rfl (by decide) rfl (le_refl _) (by decide)).2.1,
   rfl⟩

end LockoutClaims


/-! ## Properties of the request gate -/

section GateLemmas

/-- The calls `getCachedUser` makes go to the cache and the store only. -/
theorem getCachedUser_consulted (db : Db) (cache : UserCache User) (userId now : Int) :
    Collaborator.lockState ∉ (getCachedUser db cache userId now).2.2 ∧
    Collaborator.tokenVerifier ∉ (getCachedUser db cache userId now).2.2 := by
  unfold getCachedUser
  split
  · simp
  · split <;> simp

/-- The token cut out of the header `'Bearer ' + t` is `t`. -/
theorem extractToken_bearer (t : String) : extractToken ("Bearer " ++ t) = t := by
  unfold extractToken
  have hdata : ("Bearer " ++ t).data = "Bearer ".data ++ t.data := String.data_append _ _
  have hpre : "Bearer ".data.isPrefixOf ("Bearer " ++ t).data = true := by
    rw [hdata, List.isPrefixOf_iff_prefix]
    exact List.prefix_append _ _
  rw [if_pos hpre, hdata]
  have hdrop : ("Bearer ".data ++ t.data).drop 7 = t.data :=
    List.drop_left' (by decide)
  rw [hdrop]

/-- The header `'Bearer ' + t` is not the empty string. -/
theorem bearer_ne_empty (t : String) : "Bearer " ++ t ≠ "" := by
  intro h
  have hlen := congrArg String.length h
  rw [String.length_append] at hlen
  have h7 : "Bearer ".length = 7 := by decide
  have h0 : "".length = 0 := by decide
  omega

/-- A header with a non-empty token is not the empty string. -/
theorem header_ne_empty_of_token (authHeader : String) (htoken : extractToken authHeader ≠ "") :
    authHeader ≠ "" := by
  intro h
  apply htoken
  rw [h]
  decide

/-- The gate past token verification: what `verifyToken` does is decided by what
`getCachedUser` resolves. -/
theorem verifyToken_verified (env : Env) (db : Db) (cache : UserCache User) (req : Request)
    (now : Int) (authHeader : String) (decoded : TokenClaims)
    (hheader : req.authorization = some authHeader)
    (htoken : extractToken authHeader ≠ "")
    (hverify : env.jwtVerify (extractToken authHeader) now = .ok decoded) :
    verifyToken env db cache req now =
      match getCachedUser db cache decoded.userId now with
      | (.error err, cache1, calls) =>
        verifyTokenCatch req cache1 (.tokenVerifier :: calls) err
      | (.ok none, cache1, calls) =>
        GateOut.rejected req (cache1.delete decoded.userId)
          (.tokenVerifier :: calls ++ [.userCache]) 401
          "Access denied. User not found or inactive."
      | (.ok (some user), cache1, calls) =>
        if !user.isActive then
          GateOut.rejected req (cache1.delete decoded.userId)
            (.tokenVerifier :: calls ++ [.userCache]) 401
            "Access denied. User not found or inactive."
        else if user.isLocked now then
          GateOut.rejected req (cache1.delete decoded.userId)
            (.tokenVerifier :: calls ++ [.lockState, .userCache]) 401
            "Account is temporarily locked due to multiple failed login attempts."
        else
          { req := { req with user := some user, token := some (extractToken authHeader) },
            response := none, nextCalls := 1, cache := cache1,
            consulted := .tokenVerifier :: calls ++ [.lockState] } := by
  have hne := header_ne_empty_of_token authHeader htoken
  unfold verifyToken
  rw [hheader]
  simp only [if_neg hne, if_neg htoken, hverify]

/-- The `catch` block of `verifyToken` never calls `next` and leaves the request. -/
theorem verifyTokenCatch_out (req : Request) (cache : UserCache User)
    (consulted : List Collaborator) (err : JsError) :
    (verifyTokenCatch req cache consulted err).nextCalls = 0 ∧
    (verifyTokenCatch req cache consulted err).req = req := by
  unfold verifyTokenCatch
  split
  · exact ⟨rfl, rfl⟩
  · split <;> exact ⟨rfl, rfl⟩

end GateLemmas

section GateClaims

/-- C9. Missing or empty credential: without an Authorization header `verifyToken` sends the
401 response 'Access denied. No token provided.', and for the header 'Bearer ', whose token
is empty, the 401 response 'Access denied. Invalid token format.'; in both cases `next` is
not called, the request is left as it came (nothing attached), the cache is untouched and
neither `jwt.verify` nor the cache nor the store is called. -/
theorem verifyToken_missing_or_empty_token (env : Env) (db : Db) (cache : UserCache User)
    (now : Int) (user : Option User) (token : Option String) :
    ((verifyToken env db cache ⟨none, user, token⟩ now).response =
        some (Response.reject 401 "Access denied. No token provided.") ∧
      (verifyToken env db cache ⟨none, user, token⟩ now).nextCalls = 0 ∧
      (verifyToken env db cache ⟨none, user, token⟩ now).req = ⟨none, user, token⟩ ∧
      (verifyToken env db cache ⟨none, user, token⟩ now).cache = cache ∧
      (verifyToken env db cache ⟨none, user, token⟩ now).consulted = []) ∧
    ((verifyToken env db cache ⟨some "Bearer ", user, token⟩ now).response =
        some (Response.reject 401 "Access denied. Invalid token format.") ∧
      (verifyToken env db cache ⟨some "Bearer ", user, token⟩ now).nextCalls = 0 ∧
      (verifyToken env db cache ⟨some "Bearer ", user, token⟩ now).req =
        ⟨some "Bearer ", user, token⟩ ∧
      (verifyToken env db cache ⟨some "Bearer ", user, token⟩ now).cache = cache ∧
      (verifyToken env db cache ⟨some "Bearer ", user, token⟩ now).consulted = []) := by
  have hne : ¬ ("Bearer " : String) = "" := by decide
  have htok : extractToken "Bearer " = "" := by decide
  refine ⟨⟨rfl, rfl, rfl, rfl, rfl⟩, ?_⟩
  unfold verifyToken
  simp only [if_neg hne, htok, if_true]
  exact ⟨rfl, rfl, rfl, rfl, rfl⟩

/-- C10. Inactive account: when the token of the request verifies and the record
`getCachedUser` resolves for its `userId` has `isActive = false`, whatever its lock state,
`verifyToken` deletes the cache entry of that `userId`, sends the 401 response 'Access denied.
User not found or inactive.', does not call `next`, leaves the request as it came (no
`req.user` attached) and does not call `isLocked`. -/
theorem verifyToken_inactive_rejected (env : Env) (db : Db) (cache : UserCache User)
    (req : Request) (now : Int) (authHeader : String) (decoded : TokenClaims) (u : User)
    (hheader : req.authorization = some authHeader)
    (htoken : extractToken authHeader ≠ "")
    (hverify : env.jwtVerify (extractToken authHeader) now = .ok decoded)
    (hresolved : (getCachedUser db cache decoded.userId now).1 = .ok (some u))
    (hinactive : u.isActive = false) :
    (verifyToken env db cache req now).cache.cache.lookup decoded.userId = none ∧
    ((verifyToken env db cache req now).cache.get decoded.userId now).1 = none ∧
    (verifyToken env db cache req now).response =
      some (Response.reject 401 "Access denied. User not found or inactive.") ∧
    (verifyToken env db cache req now).nextCalls = 0 ∧
    (verifyToken env db cache req now).req = req ∧
    Collaborator.lockState ∉ (verifyToken env db cache req now).consulted := by
  have hne : ¬ authHeader = "" := by
    intro h
    apply htoken
    rw [h]
    decide
  have hlog := (getCachedUser_consulted db cache decoded.userId now).1
  have hout : verifyToken env db cache req now =
      GateOut.rejected req ((getCachedUser db cache decoded.userId now).2.1.delete decoded.userId)
        (.tokenVerifier :: (getCachedUser db cache decoded.userId now).2.2 ++ [.userCache]) 401
        "Access denied. User not found or inactive." := by
    unfold verifyToken
    rw [hheader]
    simp only [if_neg hne, if_neg htoken, hverify]
    rcases hg : getCachedUser db cache decoded.userId now with ⟨r, cache1, calls⟩
    rw [hg] at hresolved
    simp only at hresolved
    subst hresolved
    simp only [hinactive, Bool.not_false, if_true]
  have hcache : (verifyToken env db cache req now).cache =
      (getCachedUser db cache decoded.userId now).2.1.delete decoded.userId := by
    rw [hout]
    rfl
  have hgone : (verifyToken env db cache req now).cache.cache.lookup decoded.userId = none := by
    rw [hcache]
    exact AList.lookup_erase _ _
  refine ⟨hgone, ?_, ?_, ?_, ?_, ?_⟩
  · rw [UserCache.get_fst, hgone]
  · rw [hout]
    rfl
  · rw [hout]
    rfl
  · rw [hout]
    rfl
  · rw [hout]
    show Collaborator.lockState ∉
      Collaborator.tokenVerifier :: (getCachedUser db cache decoded.userId now).2.2 ++
        [Collaborator.userCache]
    simp only [List.cons_append, List.mem_cons, List.mem_append, List.mem_singleton, not_or]
    exact ⟨by decide, hlog, by decide, List.not_mem_nil _⟩

/-- Witness of C10: the valid token of user 7 while the cache holds the deactivated, locked
snapshot of that user. -/
theorem verifyToken_inactive_rejected_witness :
    extractToken "Bearer token-7" ≠ "" ∧
    sampleEnv.jwtVerify (extractToken "Bearer token-7") 1000
      = .ok { userId := 7, email := "a@x.com", username := "alice" } ∧
    (getCachedUser sampleDb staleCache 7 1000).1 = .ok (some inactiveUser) ∧
    inactiveUser.isActive = false ∧ inactiveUser.isLocked 1000 = true ∧
    (verifyToken sampleEnv sampleDb staleCache ⟨some "Bearer token-7", none, none⟩
      1000).response = some (Response.reject 401 "Access denied. User not found or inactive.") :=
  ⟨by decide, rfl, rfl, rfl, by decide,
   (verifyToken_inactive_rejected sampleEnv sampleDb staleCache
      ⟨some "Bearer token-7", none, none⟩ 1000 "Bearer token-7"
      { userId := 7, email := "a@x.com", username := "alice" } inactiveUser rfl (by decide)
      rfl rfl rfl).2.2.1⟩

/-- C11. Locked account: when the token of the request verifies and the record
`getCachedUser` resolves for its `userId` is active with `lockedUntil > now`, `verifyToken`
deletes the cache entry of that `userId`, sends the 401 response 'Account is temporarily
locked due to multiple failed login attempts.', does not call `next` and leaves the request
as it came (no `req.user` attached). -/
theorem verifyToken_locked_rejected (env : Env) (db : Db) (cache : UserCache User)
    (req : Request) (now : Int) (authHeader : String) (decoded : TokenClaims) (u : User)
    (lockedUntil : Int)
    (hheader : req.authorization = some authHeader)
    (htoken : extractToken authHeader ≠ "")
    (hverify : env.jwtVerify (extractToken authHeader) now = .ok decoded)
    (hresolved : (getCachedUser db cache decoded.userId now).1 = .ok (some u))
    (hactive : u.isActive = true)
    (hlock : u.lockedUntil = some lockedUntil) (hgt : lockedUntil > now) :
    (verifyToken env db cache req now).cache.cache.lookup decoded.userId = none ∧
    ((verifyToken env db cache req now).cache.get decoded.userId now).1 = none ∧
    (verifyToken env db cache req now).response =
      some (Response.reject 401
        "Account is temporarily locked due to multiple failed login attempts.") ∧
    (verifyToken env db cache req now).nextCalls = 0 ∧
    (verifyToken env db cache req now).req = req := by
  have hlocked : u.isLocked now = true := by
    unfold User.isLocked
    rw [hlock]
    exact decide_eq_true hgt
  have hout : verifyToken env db cache req now =
      GateOut.rejected req ((getCachedUser db cache decoded.userId now).2.1.delete decoded.userId)
        (.tokenVerifier :: (getCachedUser db cache decoded.userId now).2.2 ++
          [.lockState, .userCache]) 401
        "Account is temporarily locked due to multiple failed login attempts." := by
    rw [verifyToken_verified env db cache req now authHeader decoded hheader htoken hverify]
    rcases hg : getCachedUser db cache decoded.userId now with ⟨r, cache1, calls⟩
    rw [hg] at hresolved
    simp only at hresolved
    subst hresolved
    simp only [hactive, hlocked, Bool.not_true, if_true]
    rfl
  have hgone : (verifyToken env db cache req now).cache.cache.lookup decoded.userId = none := by
    rw [hout]
    exact AList.lookup_erase _ _
  refine ⟨hgone, ?_, ?_, ?_, ?_⟩
  · rw [UserCache.get_fst, hgone]
  · rw [hout]
    rfl
  · rw [hout]
    rfl
  · rw [hout]
    rfl

/-- Witness of C11: the valid token of user 7 while the store holds the account locked until
900000 and the cache is empty. -/
theorem verifyToken_locked_rejected_witness :
    extractToken "Bearer token-7" ≠ "" ∧
    sampleEnv.jwtVerify (extractToken "Bearer token-7") 1000
      = .ok { userId := 7, email := "a@x.com", username := "alice" } ∧
    (getCachedUser lockedDb (UserCache.new User defaultTtl) 7 1000).1 = .ok (some lockedUser) ∧
    lockedUser.isActive = true ∧ lockedUser.lockedUntil = some 900000 ∧
    (900000 : Int) > 1000 ∧
    (verifyToken sampleEnv lockedDb (UserCache.new User defaultTtl)
      ⟨some "Bearer token-7", none, none⟩ 1000).response =
      some (Response.reject 401
        "Account is temporarily locked due to multiple failed login attempts.") :=
  ⟨by decide, rfl, rfl, rfl, rfl, by decide,
   (verifyToken_locked_rejected sampleEnv lockedDb (UserCache.new User defaultTtl)
      ⟨some "Bearer token-7", none, none⟩ 1000 "Bearer token-7"
      { userId := 7, email := "a@x.com", username := "alice" } lockedUser 900000 rfl
      (by decide) rfl rfl rfl rfl (by decide)).2.2.1⟩

/-- C12. Gate success: for the header `'Bearer ' + t` with a non-empty `t` that verifies, when
`getCachedUser` resolves (from the cache or the store) an active record `u` that is not locked
at `now`, `verifyToken` sets `req.user = u` and `req.token = t`, calls `next` once and sends
no response. -/
theorem verifyToken_success (env : Env) (db : Db) (cache : UserCache User)
    (req : Request) (now : Int) (t : String) (decoded : TokenClaims) (u : User)
    (hheader : req.authorization = some ("Bearer " ++ t))
    (htoken : t ≠ "")
    (hverify : env.jwtVerify t now = .ok decoded)
    (hresolved : (getCachedUser db cache decoded.userId now).1 = .ok (some u))
    (hactive : u.isActive = true)
    (hfree : u.isLocked now = false) :
    (verifyToken env db cache req now).req = { req with user := some u, token := some t } ∧
    (verifyToken env db cache req now).req.user = some u ∧
    (verifyToken env db cache req now).req.token = some t ∧
    (verifyToken env db cache req now).nextCalls = 1 ∧
    (verifyToken env db cache req now).response = none := by
  have hext := extractToken_bearer t
  have hout : verifyToken env db cache req now =
      { req := { req with user := some u, token := some t },
        response := none, nextCalls := 1,
        cache := (getCachedUser db cache decoded.userId now).2.1,
        consulted := .tokenVerifier :: (getCachedUser db cache decoded.userId now).2.2 ++
          [.lockState] } := by
    rw [verifyToken_verified env db cache req now ("Bearer " ++ t) decoded hheader
      (by rw [hext]; exact htoken) (by rw [hext]; exact hverify)]
    rcases hg : getCachedUser db cache decoded.userId now with ⟨r, cache1, calls⟩
    rw [hg] at hresolved
    simp only at hresolved
    subst hresolved
    simp only [hactive, hfree, hext, Bool.not_true, if_false]
    rfl
  rw [hout]
  exact ⟨rfl, rfl, rfl, rfl, rfl⟩

/-- Witness of C12: the valid token of user 7, resolved from the store. -/
theorem verifyToken_success_witness :
    ("token-7" : String) ≠ "" ∧
    sampleEnv.jwtVerify "token-7" 1000
      = .ok { userId := 7, email := "a@x.com", username := "alice" } ∧
    (getCachedUser sampleDb (UserCache.new User defaultTtl) 7 1000).1 = .ok (some sampleUser) ∧
    sampleUser.isActive = true ∧ sampleUser.isLocked 1000 = false ∧
    (verifyToken sampleEnv sampleDb (UserCache.new User defaultTtl)
      ⟨some ("Bearer " ++ "token-7"), none, none⟩ 1000).req =
      ⟨some ("Bearer " ++ "token-7"), some sampleUser, some "token-7"⟩ :=
  ⟨by decide, rfl, rfl, rfl, rfl,
   (verifyToken_success sampleEnv sampleDb (UserCache.new User defaultTtl)
      ⟨some ("Bearer " ++ "token-7"), none, none⟩ 1000 "token-7"
      { userId := 7, email := "a@x.com", username := "alice" } sampleUser rfl
      (by decide) rfl rfl rfl rfl).1⟩

/-- C13. The optional gate never rejects: for every request, store, cache and time
`optionalAuth` calls `next` once and sends no response; and it leaves the request as it came
(`req.user` and `req.token` unattached) unless there is a header with a non-empty token that
verifies and resolves to an active record that is not locked, so on a missing header, an empty
token, a failed verification, a store error, an unknown, an inactive or a locked user nothing
is attached. -/
theorem optionalAuth_never_rejects (env : Env) (db : Db) (cache : UserCache User)
    (req : Request) (now : Int) :
    (optionalAuth env db cache req now).nextCalls = 1 ∧
    (optionalAuth env db cache req now).response = none ∧
    ((optionalAuth env db cache req now).req = req ∨
      ∃ authHeader decoded u,
        req.authorization = some authHeader ∧ extractToken authHeader ≠ "" ∧
        env.jwtVerify (extractToken authHeader) now = .ok decoded ∧
        (getCachedUser db cache decoded.userId now).1 = .ok (some u) ∧
        u.isActive = true ∧ u.isLocked now = false ∧
        (optionalAuth env db cache req now).req =
          { req with user := some u, token := some (extractToken authHeader) }) := by
  unfold optionalAuth
  cases hh : req.authorization with
  | none => exact ⟨rfl, rfl, Or.inl rfl⟩
  | some authHeader =>
    simp only
    by_cases hne : authHeader = ""
    · rw [if_pos hne]
      exact ⟨rfl, rfl, Or.inl rfl⟩
    · rw [if_neg hne]
      by_cases htoken : extractToken authHeader = ""
      · rw [if_pos htoken]
        exact ⟨rfl, rfl, Or.inl rfl⟩
      · rw [if_neg htoken]
        cases hv : env.jwtVerify (extractToken authHeader) now with
        | error err => exact ⟨rfl, rfl, Or.inl rfl⟩
        | ok decoded =>
          simp only
          rcases hg : getCachedUser db cache decoded.userId now with ⟨r, cache1, calls⟩
          cases r with
          | error err => exact ⟨rfl, rfl, Or.inl rfl⟩
          | ok found =>
            cases found with
            | none => exact ⟨rfl, rfl, Or.inl rfl⟩
            | some u =>
              simp only
              cases hact : u.isActive with
              | false => exact ⟨rfl, rfl, Or.inl rfl⟩
              | true =>
                cases hlocked : u.isLocked now with
                | true => exact ⟨rfl, rfl, Or.inl rfl⟩
                | false =>
                  exact ⟨rfl, rfl, Or.inr ⟨authHeader, decoded, u, rfl, htoken, hv,
                    by rw [hg], hact, hlocked, rfl⟩⟩

/-- C15. Scenario C: when the token of the request verifies for `userId`, the store is
reachable and holds no active row of that id (the user was deactivated), and
`clearUserCache(userId)` has been called, `verifyToken` sends the 401 response 'Access denied.
User not found or inactive.', does not call `next` and leaves the request as it came, whatever
the cache held before and although the token is valid. -/
theorem verifyToken_after_deactivation (env : Env) (db : Db) (cache : UserCache User)
    (req : Request) (now : Int) (authHeader : String) (decoded : TokenClaims)
    (hheader : req.authorization = some authHeader)
    (htoken : extractToken authHeader ≠ "")
    (hverify : env.jwtVerify (extractToken authHeader) now = .ok decoded)
    (hreach : db.failure = none)
    (hdeactivated : ∀ r ∈ db.users, r.id = decoded.userId → r.deletedAt = none →
      r.isActive = false) :
    (verifyToken env db (clearUserCache cache decoded.userId) req now).response =
      some (Response.reject 401 "Access denied. User not found or inactive.") ∧
    (verifyToken env db (clearUserCache cache decoded.userId) req now).nextCalls = 0 ∧
    (verifyToken env db (clearUserCache cache decoded.userId) req now).req = req ∧
    ((verifyToken env db (clearUserCache cache decoded.userId) req now).cache.get
      decoded.userId now).1 = none := by
  have hmiss : (clearUserCache cache decoded.userId).get decoded.userId now =
      (none, clearUserCache cache decoded.userId) := by
    unfold UserCache.get
    have hl : (clearUserCache cache decoded.userId).cache.lookup decoded.userId = none :=
      AList.lookup_erase _ _
    rw [hl]
  have hfind : db.findOne (fun r => r.id = decoded.userId && r.isActive) = .ok none := by
    unfold Db.findOne
    rw [hreach]
    simp only
    congr 1
    rw [List.find?_eq_none]
    intro r hr hcond
    simp only [Bool.and_eq_true, decide_eq_true_eq, Option.isNone_iff_eq_none] at hcond
    have := hdeactivated r hr hcond.1.1 hcond.2
    rw [this] at hcond
    exact Bool.false_ne_true hcond.1.2
  have hg : getCachedUser db (clearUserCache cache decoded.userId) decoded.userId now =
      (.ok none, clearUserCache cache decoded.userId, [.userCache, .userStore]) := by
    unfold getCachedUser
    rw [hmiss]
    simp only [hfind]
  have hout := verifyToken_verified env db (clearUserCache cache decoded.userId) req now
    authHeader decoded hheader htoken hverify
  rw [hg] at hout
  simp only at hout
  rw [hout]
  refine ⟨rfl, rfl, rfl, ?_⟩
  rw [UserCache.get_fst]
  have hl : (GateOut.rejected req ((clearUserCache cache decoded.userId).delete decoded.userId)
      (.tokenVerifier :: [Collaborator.userCache, Collaborator.userStore] ++ [.userCache]) 401
      "Access denied. User not found or inactive.").cache.cache.lookup decoded.userId = none :=
    AList.lookup_erase _ _
  rw [hl]

/-- Witness of C15: user 7 is deactivated in the store, the cached snapshot from before is
cleared, and the valid token of user 7 is presented. -/
theorem verifyToken_after_deactivation_witness :
    extractToken "Bearer token-7" ≠ "" ∧
    sampleEnv.jwtVerify (extractToken "Bearer token-7") 1000
      = .ok { userId := 7, email := "a@x.com", username := "alice" } ∧
    inactiveDb.failure = none ∧
    (cachedService.userCache.get 7 1000).1 = some almostLockedUser ∧
    (verifyToken sampleEnv inactiveDb (clearUserCache cachedService.userCache 7)
      ⟨some "Bearer token-7", none, none⟩ 1000).response =
      some (Response.reject 401 "Access denied. User not found or inactive.") :=
  ⟨by decide, rfl, rfl, rfl,
   (verifyToken_after_deactivation sampleEnv inactiveDb cachedService.userCache
      ⟨some "Bearer token-7", none, none⟩ 1000 "Bearer token-7"
      { userId := 7, email := "a@x.com", username := "alice" } rfl (by decide) rfl rfl
      (by decide)).1⟩

/-- C25. Gate error mapping: when `jwt.verify` throws, or the token verifies and the user
lookup throws, `verifyToken` answers 401 'Access denied. Invalid token.' for an error named
JsonWebTokenError, 401 'Access denied. Token has expired.' for one named TokenExpiredError and
otherwise 500 'Internal server error during token verification.', a body that does not depend
on the error; in each case `next` is not called and the request is left as it came. -/
theorem verifyToken_error_mapping (env : Env) (db : Db) (cache : UserCache User)
    (req : Request) (now : Int) (authHeader : String) (err : JsError)
    (hheader : req.authorization = some authHeader)
    (htoken : extractToken authHeader ≠ "")
    (hthrown : env.jwtVerify (extractToken authHeader) now = .error err ∨
      ∃ decoded, env.jwtVerify (extractToken authHeader) now = .ok decoded ∧
        (getCachedUser db cache decoded.userId now).1 = .error err) :
    (verifyToken env db cache req now).response =
      some (if err.name = "JsonWebTokenError" then
              Response.reject 401 "Access denied. Invalid token."
            else if err.name = "TokenExpiredError" then
              Response.reject 401 "Access denied. Token has expired."
            else Response.reject 500 "Internal server error during token verification.") ∧
    (verifyToken env db cache req now).nextCalls = 0 ∧
    (verifyToken env db cache req now).req = req := by
  have hcatch : ∀ (c : UserCache User) (l : List Collaborator),
      (verifyTokenCatch req c l err).response =
        some (if err.name = "JsonWebTokenError" then
                Response.reject 401 "Access denied. Invalid token."
              else if err.name = "TokenExpiredError" then
                Response.reject 401 "Access denied. Token has expired."
              else Response.reject 500 "Internal server error during token verification.") ∧
      (verifyTokenCatch req c l err).nextCalls = 0 ∧
      (verifyTokenCatch req c l err).req = req := by
    intro c l
    unfold verifyTokenCatch
    by_cases h1 : err.name = "JsonWebTokenError"
    · rw [if_pos h1, if_pos h1]
      exact ⟨rfl, rfl, rfl⟩
    · rw [if_neg h1, if_neg h1]
      by_cases h2 : err.name = "TokenExpiredError"
      · rw [if_pos h2, if_pos h2]
        exact ⟨rfl, rfl, rfl⟩
      · rw [if_neg h2, if_neg h2]
        exact ⟨rfl, rfl, rfl⟩
  rcases hthrown with hverify | ⟨decoded, hverify, hlookup⟩
  · have hne := header_ne_empty_of_token authHeader htoken
    have hout : verifyToken env db cache req now =
        verifyTokenCatch req cache [.tokenVerifier] err := by
      unfold verifyToken
      rw [hheader]
      simp only [if_neg hne, if_neg htoken, hverify]
    rw [hout]
    exact hcatch _ _
  · have hout := verifyToken_verified env db cache req now authHeader decoded hheader htoken
      hverify
    rcases hg : getCachedUser db cache decoded.userId now with ⟨r, cache1, calls⟩
    rw [hg] at hlookup hout
    simp only at hlookup
    subst hlookup
    simp only at hout
    rw [hout]
    exact hcatch _ _

/-- Witness of C25: a token the library rejects as invalid, and a valid token while the store
is unreachable. -/
theorem verifyToken_error_mapping_witness :
    (verifyToken sampleEnv sampleDb (UserCache.new User defaultTtl)
      ⟨some "Bearer forged", none, none⟩ 1000).response =
      some (Response.reject 401 "Access denied. Invalid token.") ∧
    (verifyToken sampleEnv { users := [], failure := some uniqueConstraintError }
      (UserCache.new User defaultTtl) ⟨some "Bearer token-7", none, none⟩ 1000).response =
      some (Response.reject 500 "Internal server error during token verification.") :=
  ⟨(verifyToken_error_mapping sampleEnv sampleDb (UserCache.new User defaultTtl)
      ⟨some "Bearer forged", none, none⟩ 1000 "Bearer forged"
      { name := "JsonWebTokenError", message := "invalid token" } rfl (by decide)
      (Or.inl rfl)).1,
   (verifyToken_error_mapping sampleEnv { users := [], failure := some uniqueConstraintError }
      (UserCache.new User defaultTtl) ⟨some "Bearer token-7", none, none⟩ 1000
      "Bearer token-7" uniqueConstraintError rfl (by decide)
      (Or.inr ⟨sampleClaims, rfl, rfl⟩)).1⟩

/-- C28. Gate equivalence: on the same request, store, cache and time `optionalAuth` leaves
the request exactly as `verifyToken` leaves it; `verifyToken` accepts (calls `next`) exactly
when there is a header with a non-empty token that verifies and resolves to an active record
that is not locked, and then both attach that record and that token; on a request that comes
without `req.user`, `optionalAuth` attaches a user exactly when `verifyToken` accepts. -/
theorem optionalAuth_attaches_iff_verifyToken_accepts (env : Env) (db : Db)
    (cache : UserCache User) (req : Request) (now : Int) :
    (optionalAuth env db cache req now).req = (verifyToken env db cache req now).req ∧
    ((verifyToken env db cache req now).nextCalls = 1 ↔
      ∃ authHeader decoded u,
        req.authorization = some authHeader ∧ extractToken authHeader ≠ "" ∧
        env.jwtVerify (extractToken authHeader) now = .ok decoded ∧
        (getCachedUser db cache decoded.userId now).1 = .ok (some u) ∧
        u.isActive = true ∧ u.isLocked now = false ∧
        (optionalAuth env db cache req now).req =
          { req with user := some u, token := some (extractToken authHeader) }) ∧
    ((verifyToken env db cache req now).nextCalls = 0 →
      (optionalAuth env db cache req now).req = req) ∧
    (req.user = none →
      ((optionalAuth env db cache req now).req.user ≠ none ↔
        (verifyToken env db cache req now).nextCalls = 1)) := by
  have fail : (verifyToken env db cache req now).nextCalls = 0 →
      (verifyToken env db cache req now).req = req →
      (optionalAuth env db cache req now).req = req →
      (¬ ∃ authHeader decoded u,
        req.authorization = some authHeader ∧ extractToken authHeader ≠ "" ∧
        env.jwtVerify (extractToken authHeader) now = .ok decoded ∧
        (getCachedUser db cache decoded.userId now).1 = .ok (some u) ∧
        u.isActive = true ∧ u.isLocked now = false ∧
        (optionalAuth env db cache req now).req =
          { req with user := some u, token := some (extractToken authHeader) }) →
      ((optionalAuth env db cache req now).req = (verifyToken env db cache req now).req ∧
      ((verifyToken env db cache req now).nextCalls = 1 ↔
        ∃ authHeader decoded u,
          req.authorization = some authHeader ∧ extractToken authHeader ≠ "" ∧
          env.jwtVerify (extractToken authHeader) now = .ok decoded ∧
          (getCachedUser db cache decoded.userId now).1 = .ok (some u) ∧
          u.isActive = true ∧ u.isLocked now = false ∧
          (optionalAuth env db cache req now).req =
            { req with user := some u, token := some (extractToken authHeader) }) ∧
      ((verifyToken env db cache req now).nextCalls = 0 →
        (optionalAuth env db cache req now).req = req) ∧
      (req.user = none →
        ((optionalAuth env db cache req now).req.user ≠ none ↔
          (verifyToken env db cache req now).nextCalls = 1))) := by
    intro hn hv ho hno
    refine ⟨by rw [ho, hv], ?_, fun _ => ho, ?_⟩
    · rw [hn]
      exact ⟨fun h => absurd h (by decide), fun h => absurd h hno⟩
    · intro hu
      rw [hn, ho, hu]
      exact ⟨fun h => absurd rfl h, fun h => absurd h (by decide)⟩
  have hcases : req.authorization = none ∨ ∃ a, req.authorization = some a := by
    cases req.authorization with
    | none => exact Or.inl rfl
    | some a => exact Or.inr ⟨a, rfl⟩
  rcases hcases with hh | ⟨authHeader, hh⟩
  · apply fail
    · unfold verifyToken
      rw [hh]
      rfl
    · unfold verifyToken
      rw [hh]
      rfl
    · unfold optionalAuth
      rw [hh]
      rfl
    · rintro ⟨a, _, _, ha, _⟩
      rw [hh] at ha
      cases ha
  · by_cases htoken : extractToken authHeader = ""
    · have hv : verifyToken env db cache req now =
          GateOut.rejected req cache [] 401
            (if authHeader = "" then "Access denied. No token provided."
             else "Access denied. Invalid token format.") := by
        unfold verifyToken
        rw [hh]
        simp only
        by_cases hne : authHeader = ""
        · rw [if_pos hne, if_pos hne]
        · rw [if_neg hne, if_neg hne, if_pos htoken]
      have ho : optionalAuth env db cache req now = GateOut.proceeded req cache [] := by
        unfold optionalAuth
        rw [hh]
        simp only
        by_cases hne : authHeader = ""
        · rw [if_pos hne]
        · rw [if_neg hne, if_pos htoken]
      apply fail
      · rw [hv]
        rfl
      · rw [hv]
        rfl
      · rw [ho]
        rfl
      · rintro ⟨a, _, _, ha, hnot, _⟩
        rw [hh] at ha
        cases ha
        exact hnot htoken
    · have hne := header_ne_empty_of_token authHeader htoken
      cases hverify : env.jwtVerify (extractToken authHeader) now with
      | error err =>
        have hv : verifyToken env db cache req now =
            verifyTokenCatch req cache [.tokenVerifier] err := by
          unfold verifyToken
          rw [hh]
          simp only [if_neg hne, if_neg htoken, hverify]
        have ho : optionalAuth env db cache req now =
            GateOut.proceeded req cache [.tokenVerifier] := by
          unfold optionalAuth
          rw [hh]
          simp only [if_neg hne, if_neg htoken, hverify]
        apply fail
        · rw [hv]
          exact (verifyTokenCatch_out _ _ _ _).1
        · rw [hv]
          exact (verifyTokenCatch_out _ _ _ _).2
        · rw [ho]
          rfl
        · rintro ⟨a, d, _, ha, _, hd, _⟩
          rw [hh] at ha
          cases ha
          rw [hverify] at hd
          cases hd
      | ok decoded =>
        have hv := verifyToken_verified env db cache req now authHeader decoded hh htoken
          hverify
        have ho : optionalAuth env db cache req now =
            match getCachedUser db cache decoded.userId now with
            | (.error _, cache1, calls) => GateOut.proceeded req cache1 (.tokenVerifier :: calls)
            | (.ok none, cache1, calls) => GateOut.proceeded req cache1 (.tokenVerifier :: calls)
            | (.ok (some user), cache1, calls) =>
              if !user.isActive then
                GateOut.proceeded req cache1 (.tokenVerifier :: calls)
              else if user.isLocked now then
                GateOut.proceeded req cache1 (.tokenVerifier :: calls ++ [.lockState])
              else
                GateOut.proceeded
                  { req with user := some user, token := some (extractToken authHeader) }
                  cache1 (.tokenVerifier :: calls ++ [.lockState]) := by
          unfold optionalAuth
          rw [hh]
          simp only [if_neg hne, if_neg htoken, hverify]
        have hsame : ∀ a d, req.authorization = some a →
            env.jwtVerify (extractToken a) now = .ok d → a = authHeader ∧ d = decoded := by
          intro a d ha hd
          rw [hh] at ha
          cases ha
          rw [hverify] at hd
          cases hd
          exact ⟨rfl, rfl⟩
        rcases hg : getCachedUser db cache decoded.userId now with ⟨r, cache1, calls⟩
        rw [hg] at hv ho
        cases r with
        | error err =>
          simp only at hv ho
          apply fail
          · rw [hv]
            exact (verifyTokenCatch_out _ _ _ _).1
          · rw [hv]
            exact (verifyTokenCatch_out _ _ _ _).2
          · rw [ho]
            rfl
          · rintro ⟨a, d, u, ha, _, hd, hr, _⟩
            rcases hsame a d ha hd with ⟨_, hdd⟩
            subst hdd
            rw [hg] at hr
            cases hr
        | ok found =>
          cases found with
          | none =>
            simp only at hv ho
            apply fail
            · rw [hv]
              rfl
            · rw [hv]
              rfl
            · rw [ho]
              rfl
            · rintro ⟨a, d, u, ha, _, hd, hr, _⟩
              rcases hsame a d ha hd with ⟨_, hdd⟩
              subst hdd
              rw [hg] at hr
              cases hr
          | some user =>
            simp only at hv ho
            have hfound : ∀ a d u, req.authorization = some a →
                env.jwtVerify (extractToken a) now = .ok d →
                (getCachedUser db cache d.userId now).1 = .ok (some u) → u = user := by
              intro a d u ha hd hr
              rcases hsame a d ha hd with ⟨_, hdd⟩
              subst hdd
              rw [hg] at hr
              simp only [Except.ok.injEq, Option.some.injEq] at hr
              exact hr.symm
            cases hact : user.isActive with
            | false =>
              simp only [hact, Bool.not_false, if_true] at hv ho
              apply fail
              · rw [hv]
                rfl
              · rw [hv]
                rfl
              · rw [ho]
                rfl
              · rintro ⟨a, d, u, ha, _, hd, hr, hua, _⟩
                have := hfound a d u ha hd hr
                subst this
                rw [hact] at hua
                cases hua
            | true =>
              cases hlocked : user.isLocked now with
              | true =>
                simp only [hact, hlocked, Bool.not_true, if_true] at hv ho
                simp only [Bool.false_eq_true, if_false] at hv ho
                apply fail
                · rw [hv]
                  rfl
                · rw [hv]
                  rfl
                · rw [ho]
                  rfl
                · rintro ⟨a, d, u, ha, _, hd, hr, _, hul, _⟩
                  have := hfound a d u ha hd hr
                  subst this
                  rw [hlocked] at hul
                  cases hul
              | false =>
                simp only [hact, hlocked, Bool.not_true, Bool.false_eq_true, if_false]
                  at hv ho
                have hvn : (verifyToken env db cache req now).nextCalls = 1 := by
                  rw [hv]
                have hvr : (verifyToken env db cache req now).req =
                    { req with user := some user, token := some (extractToken authHeader) } := by
                  rw [hv]
                have hor : (optionalAuth env db cache req now).req =
                    { req with user := some user, token := some (extractToken authHeader) } := by
                  rw [ho]
                  rfl
                refine ⟨by rw [hor, hvr], ?_, ?_, ?_⟩
                · constructor
                  · intro _
                    exact ⟨authHeader, decoded, user, hh, htoken, hverify, by rw [hg], hact,
                      hlocked, hor⟩
                  · intro _
                    exact hvn
                · intro h0
                  rw [hvn] at h0
                  cases h0
                · intro _
                  rw [hor, hvn]
                  exact ⟨fun _ => rfl, fun _ h => by cases h⟩

/-- Witness of C28: the valid token of user 7 on the sample store, where both gates attach the
stored record. -/
theorem optionalAuth_attaches_iff_verifyToken_accepts_witness :
    (optionalAuth sampleEnv sampleDb (UserCache.new User defaultTtl)
      ⟨some "Bearer token-7", none, none⟩ 1000).req =
      (verifyToken sampleEnv sampleDb (UserCache.new User defaultTtl)
        ⟨some "Bearer token-7", none, none⟩ 1000).req ∧
    (verifyToken sampleEnv sampleDb (UserCache.new User defaultTtl)
      ⟨some "Bearer token-7", none, none⟩ 1000).nextCalls = 1 ∧
    (optionalAuth sampleEnv sampleDb (UserCache.new User defaultTtl)
      ⟨some "Bearer token-7", none, none⟩ 1000).req.user ≠ none :=
  ⟨(optionalAuth_attaches_iff_verifyToken_accepts sampleEnv sampleDb
      (UserCache.new User defaultTtl) ⟨some "Bearer token-7", none, none⟩ 1000).1,
   rfl,
   ((optionalAuth_attaches_iff_verifyToken_accepts sampleEnv sampleDb
      (UserCache.new User defaultTtl) ⟨some "Bearer token-7", none, none⟩ 1000).2.2.2 rfl).2
      rfl⟩

end GateClaims


/-! ## Properties of the circuit breaker -/

section BreakerLemmas

/-- A call of `execute` on an OPEN breaker within the timeout: the breaker error, the state of
the operation and the breaker as they were. -/
theorem CircuitBreaker.execute_open {σ ρ : Type} (b : CircuitBreaker) (l now settled : Int)
    (operation : σ → Except JsError ρ × σ) (s : σ)
    (hopen : b.state = .OPEN) (hlast : b.lastFailureTime = some l)
    (hwithin : now - l ≤ b.timeout) :
    b.execute now settled operation s = (.error breakerOpenError, s, b) := by
  have henter : b.enter now = .error breakerOpenError := by
    unfold CircuitBreaker.enter
    rw [if_pos hopen, hlast]
    exact if_neg (not_lt.2 hwithin)
  unfold CircuitBreaker.execute
  rw [henter]

/-- What a call of `execute` whose operation rejects leaves of the breaker. -/
theorem CircuitBreaker.executeRejecting_eq (b : CircuitBreaker) (call : Int × Int × JsError) :
    b.executeRejecting call =
      match b.enter call.1 with
      | .error _ => b
      | .ok b1 => b1.onFailure call.2.1 := by
  unfold CircuitBreaker.executeRejecting CircuitBreaker.execute
  cases b.enter call.1 with
  | error err => rfl
  | ok b1 => rfl

theorem CircuitBreaker.onFailure_threshold (b : CircuitBreaker) (now : Int) :
    (b.onFailure now).failureThreshold = b.failureThreshold := by
  unfold CircuitBreaker.onFailure
  simp only
  split <;> rfl

theorem CircuitBreaker.executeRejecting_threshold (b : CircuitBreaker)
    (call : Int × Int × JsError) :
    (b.executeRejecting call).failureThreshold = b.failureThreshold := by
  rw [CircuitBreaker.executeRejecting_eq]
  unfold CircuitBreaker.enter
  by_cases hopen : b.state = .OPEN
  · rw [if_pos hopen]
    by_cases hpast : call.1 - b.lastFailureTime.getD 0 > b.timeout
    · rw [if_pos hpast]
      exact CircuitBreaker.onFailure_threshold _ _
    · rw [if_neg hpast]
  · rw [if_neg hopen]
    exact CircuitBreaker.onFailure_threshold _ _

theorem CircuitBreaker.failing_step (b : CircuitBreaker) (k : Nat)
    (call : Int × Int × JsError) (h : CircuitBreaker.failing b.failureThreshold k b) :
    CircuitBreaker.failing b.failureThreshold (k + 1) (b.executeRejecting call) := by
  rw [CircuitBreaker.executeRejecting_eq]
  unfold CircuitBreaker.failing at h ⊢
  rcases h with ⟨hclosed, hk, _⟩ | ⟨hopen, hthr, hlast⟩
  · have henter : b.enter call.1 = .ok b := by
      unfold CircuitBreaker.enter
      rw [if_neg (by rw [hclosed]; decide)]
    rw [henter]
    simp only
    unfold CircuitBreaker.onFailure
    simp only
    by_cases hreach : b.failureCount + 1 ≥ b.failureThreshold
    · rw [if_pos hreach]
      exact Or.inr ⟨rfl, hreach, by simp⟩
    · rw [if_neg hreach]
      refine Or.inl ⟨hclosed, ?_, fun _ => not_le.1 hreach⟩
      push_cast
      show (k : Int) + 1 ≤ b.failureCount + 1
      omega
  · unfold CircuitBreaker.enter
    rw [if_pos hopen]
    by_cases hpast : call.1 - b.lastFailureTime.getD 0 > b.timeout
    · rw [if_pos hpast]
      simp only
      unfold CircuitBreaker.onFailure
      simp only
      have hreach : b.failureCount + 1 ≥ b.failureThreshold := by omega
      rw [if_pos hreach]
      exact Or.inr ⟨rfl, hreach, by simp⟩
    · rw [if_neg hpast]
      exact Or.inr ⟨hopen, hthr, hlast⟩

theorem CircuitBreaker.failing_run (calls : List (Int × Int × JsError)) (b : CircuitBreaker)
    (k : Nat) (h : CircuitBreaker.failing b.failureThreshold k b) :
    CircuitBreaker.failing b.failureThreshold (k + calls.length)
      (calls.foldl CircuitBreaker.executeRejecting b) := by
  induction calls generalizing b k with
  | nil => exact h
  | cons call calls ih =>
    have hstep := CircuitBreaker.failing_step b k call h
    rw [← CircuitBreaker.executeRejecting_threshold b call] at hstep
    have htail := ih (b.executeRejecting call) (k + 1) hstep
    rw [CircuitBreaker.executeRejecting_threshold b call] at htail
    rw [List.foldl_cons, List.length_cons]
    have hlen : k + (calls.length + 1) = k + 1 + calls.length := by omega
    rw [hlen]
    exact htail

/-- What a completed call of `execute` leaves of the breaker. -/
theorem CircuitBreaker.executeSettling_eq (b : CircuitBreaker)
    (call : Int × Int × Except JsError Unit) :
    b.executeSettling call =
      match b.enter call.1 with
      | .error _ => b
      | .ok b1 => b1.settle call.2.2 call.2.1 := by
  unfold CircuitBreaker.executeSettling CircuitBreaker.execute settling CircuitBreaker.settle
  cases b.enter call.1 with
  | error err => rfl
  | ok b1 =>
    cases call.2.2 with
    | error e => rfl
    | ok v => rfl

theorem CircuitBreaker.settle_threshold (b : CircuitBreaker) (outcome : Except JsError Unit)
    (settled : Int) : (b.settle outcome settled).failureThreshold = b.failureThreshold := by
  unfold CircuitBreaker.settle
  cases outcome with
  | error e => exact CircuitBreaker.onFailure_threshold b settled
  | ok v => rfl

theorem CircuitBreaker.executeSettling_threshold (b : CircuitBreaker)
    (call : Int × Int × Except JsError Unit) :
    (b.executeSettling call).failureThreshold = b.failureThreshold := by
  rw [CircuitBreaker.executeSettling_eq]
  unfold CircuitBreaker.enter
  by_cases hopen : b.state = .OPEN
  · rw [if_pos hopen]
    by_cases hpast : call.1 - b.lastFailureTime.getD 0 > b.timeout
    · rw [if_pos hpast]
      exact CircuitBreaker.settle_threshold _ _ _
    · rw [if_neg hpast]
  · rw [if_neg hopen]
    exact CircuitBreaker.settle_threshold _ _ _

/-- Settling a call on a breaker that counts at least zero failures, and at least the
threshold when the call entered it OPEN, leaves a consistent breaker. -/
theorem CircuitBreaker.settle_consistent (b : CircuitBreaker) (outcome : Except JsError Unit)
    (settled : Int) (hthr : 1 ≤ b.failureThreshold) (hcount : 0 ≤ b.failureCount)
    (hstate : (b.state = .CLOSED ∧ b.failureCount < b.failureThreshold) ∨
      b.failureThreshold ≤ b.failureCount) :
    (b.settle outcome settled).consistent := by
  unfold CircuitBreaker.settle
  cases outcome with
  | ok v =>
    exact ⟨le_refl 0, Or.inl ⟨rfl, lt_of_lt_of_le Int.zero_lt_one hthr⟩⟩
  | error e =>
    simp only
    unfold CircuitBreaker.onFailure
    simp only
    by_cases hreach : b.failureCount + 1 ≥ b.failureThreshold
    · rw [if_pos hreach]
      exact ⟨by show 0 ≤ b.failureCount + 1; omega, Or.inr ⟨rfl, hreach, by simp⟩⟩
    · rw [if_neg hreach]
      rcases hstate with ⟨hclosed, _⟩ | hge
      · exact ⟨by show 0 ≤ b.failureCount + 1; omega, Or.inl ⟨hclosed, not_le.1 hreach⟩⟩
      · exact absurd (le_trans hge (by omega)) hreach

theorem CircuitBreaker.executeSettling_consistent (b : CircuitBreaker)
    (call : Int × Int × Except JsError Unit) (hthr : 1 ≤ b.failureThreshold)
    (h : b.consistent) : (b.executeSettling call).consistent := by
  rw [CircuitBreaker.executeSettling_eq]
  rcases h with ⟨hcount, ⟨hclosed, hlt⟩ | ⟨hopen, hge, hlast⟩⟩
  · have henter : b.enter call.1 = .ok b := by
      unfold CircuitBreaker.enter
      rw [if_neg (by rw [hclosed]; decide)]
    rw [henter]
    exact CircuitBreaker.settle_consistent b _ _ hthr hcount (Or.inl ⟨hclosed, hlt⟩)
  · unfold CircuitBreaker.enter
    rw [if_pos hopen]
    by_cases hpast : call.1 - b.lastFailureTime.getD 0 > b.timeout
    · rw [if_pos hpast]
      exact CircuitBreaker.settle_consistent { b with state := .HALF_OPEN } _ _ hthr hcount
        (Or.inr hge)
    · rw [if_neg hpast]
      exact ⟨hcount, Or.inr ⟨hopen, hge, hlast⟩⟩

theorem CircuitBreaker.run_consistent (calls : List (Int × Int × Except JsError Unit))
    (b : CircuitBreaker) (hthr : 1 ≤ b.failureThreshold) (h : b.consistent) :
    (calls.foldl CircuitBreaker.executeSettling b).consistent ∧
    (calls.foldl CircuitBreaker.executeSettling b).failureThreshold = b.failureThreshold := by
  induction calls generalizing b with
  | nil => exact ⟨h, rfl⟩
  | cons call calls ih =>
    have hstep := CircuitBreaker.executeSettling_consistent b call hthr h
    have hsame := CircuitBreaker.executeSettling_threshold b call
    have htail := ih (b.executeSettling call) (by rw [hsame]; exact hthr) hstep
    rw [List.foldl_cons]
    exact ⟨htail.1, htail.2.trans hsame⟩

end BreakerLemmas

section BreakerClaims

/-- C19. Fail-fast: a breaker with threshold `n ≥ 1` that is CLOSED (new, or after a success)
is OPEN, with the time of the last failure set, after `n` calls of `execute` in a row whose
operations reject; a call of `execute` on an OPEN breaker at a time `now` with
`now - lastFailureTime ≤ timeout` throws the error with message 'Circuit breaker is OPEN',
leaves the state its operation works on untouched whatever the operation is, and leaves the
breaker, so `failureCount` and `lastFailureTime`, as it was; for a body that validates, the
login and the register handler then answer 503. -/
theorem circuitBreaker_fail_fast :
    (∀ (b : CircuitBreaker) (calls : List (Int × Int × JsError)),
      1 ≤ b.failureThreshold → b.state = .CLOSED → 0 ≤ b.failureCount →
      (calls.length : Int) = b.failureThreshold →
      (calls.foldl CircuitBreaker.executeRejecting b).state = .OPEN ∧
      (calls.foldl CircuitBreaker.executeRejecting b).lastFailureTime ≠ none) ∧
    (∀ (σ ρ : Type) (b : CircuitBreaker) (l now settled : Int)
      (operation : σ → Except JsError ρ × σ) (s : σ),
      b.state = .OPEN → b.lastFailureTime = some l → now - l ≤ b.timeout →
      b.execute now settled operation s = (.error breakerOpenError, s, b)) ∧
    breakerOpenError.message = "Circuit breaker is OPEN" ∧
    (∀ (env : Env) (db : Db) (b : CircuitBreaker) (l now : Int) (body : String)
      (value : LoginValue),
      b.state = .OPEN → b.lastFailureTime = some l → now - l ≤ b.timeout →
      env.loginSchemaValidate body = .ok value →
      login env db b body now =
        { response := Response.reject 503
            "Service temporarily unavailable, please try again later",
          db := db, breaker := b }) ∧
    (∀ (env : RegisterEnv) (db : Db) (b : CircuitBreaker) (l now newId : Int) (body : String)
      (value : RegisterValue),
      b.state = .OPEN → b.lastFailureTime = some l → now - l ≤ b.timeout →
      env.registerSchemaValidate body = .ok value →
      register env db b body now newId =
        { response := Response.reject 503
            "Service temporarily unavailable, please try again later",
          db := db, breaker := b }) := by
  refine ⟨?_, ?_, rfl, ?_, ?_⟩
  · intro b calls hn hclosed hcount hlen
    have hstart : CircuitBreaker.failing b.failureThreshold 0 b :=
      Or.inl ⟨hclosed, by simpa using hcount, fun h => absurd h (by decide)⟩
    have hrun := CircuitBreaker.failing_run calls b 0 hstart
    rw [Nat.zero_add] at hrun
    rcases hrun with ⟨_, hk, hlt⟩ | ⟨hopen, _, hlast⟩
    · have hpos : 1 ≤ calls.length := by omega
      have := hlt hpos
      omega
    · exact ⟨hopen, hlast⟩
  · intro σ ρ b l now settled operation s hopen hlast hwithin
    exact CircuitBreaker.execute_open b l now settled operation s hopen hlast hwithin
  · intro env db b l now body value hopen hlast hwithin hval
    unfold login
    rw [hval]
    simp only [CircuitBreaker.execute_open b l now now _ db hopen hlast hwithin]
    rfl
  · intro env db b l now newId body value hopen hlast hwithin hval
    unfold register
    rw [hval]
    simp only [CircuitBreaker.execute_open b l now now _ db hopen hlast hwithin]
    rfl

/-- Witness of C19: five rejecting calls trip the breaker of the service; a call at 1000 on the
breaker tripped at 0 is thrown out without its operation running, and a login then gets 503. -/
theorem circuitBreaker_fail_fast_witness :
    (1 : Int) ≤ dbCircuitBreaker.failureThreshold ∧ dbCircuitBreaker.state = .CLOSED ∧
    ((dbCircuitBreaker.executeRejecting (1, 2, uniqueConstraintError)).executeRejecting
      (3, 4, uniqueConstraintError)).state = .CLOSED ∧
    ([(1, 2, uniqueConstraintError), (3, 4, uniqueConstraintError),
      (5, 6, uniqueConstraintError), (7, 8, uniqueConstraintError),
      (9, 10, uniqueConstraintError)].foldl CircuitBreaker.executeRejecting
        dbCircuitBreaker).state = .OPEN ∧
    trippedBreaker.execute 1000 1001 countingOp 0 = (.error breakerOpenError, 0, trippedBreaker) ∧
    (login sampleEnv sampleDb trippedBreaker "body" 1000).response.status = 503 ∧
    (register sampleRegisterEnv sampleDb trippedBreaker "body" 1000 8).response.status = 503 :=
  ⟨by decide, rfl, rfl,
   (circuitBreaker_fail_fast.1 dbCircuitBreaker
      [(1, 2, uniqueConstraintError), (3, 4, uniqueConstraintError),
       (5, 6, uniqueConstraintError), (7, 8, uniqueConstraintError),
       (9, 10, uniqueConstraintError)] (by decide) rfl (by decide) (by decide)).1,
   circuitBreaker_fail_fast.2.1 Nat Unit trippedBreaker 0 1000 1001 countingOp 0 rfl rfl
     (by decide),
   congrArg (fun o => o.response.status)
     (circuitBreaker_fail_fast.2.2.2.1 sampleEnv sampleDb trippedBreaker 0 1000 "body"
       { email := "a@x.com", password := "secret1" } rfl rfl (by decide) rfl),
   congrArg (fun o => o.response.status)
     (circuitBreaker_fail_fast.2.2.2.2 sampleRegisterEnv sampleDb trippedBreaker 0 1000 8 "body"
       { username := "bob", email := "b@x.com", password := "secret2",
         firstName := none, lastName := none } rfl rfl (by decide) rfl)⟩

/-- C20, evaluated on the breaker tripped at time 0 (threshold 5, timeout 30000): the call
entering at 30001 turns it HALF_OPEN; a second call entering at 30002, while the first is in
flight, is let through as well and its operation runs; and when the first call then fails and
the second succeeds, the breaker ends CLOSED with the count reset, so the outcome of the first
call did not decide alone. -/
theorem circuitBreaker_halfOpen_admits_second_call :
    trippedBreaker.enter 30001 = .ok probingBreaker ∧
    probingBreaker.state = .HALF_OPEN ∧
    probingBreaker.enter 30002 = .ok probingBreaker ∧
    (probingBreaker.execute 30002 30003 countingOp 0).1 = .ok () ∧
    (probingBreaker.execute 30002 30003 countingOp 0).2.1 = 1 ∧
    (probingBreaker.settle (.error uniqueConstraintError : Except JsError Unit) 30004).state
      = .OPEN ∧
    ((probingBreaker.settle (.error uniqueConstraintError : Except JsError Unit) 30004).settle
      (.ok () : Except JsError Unit) 30005).state = .CLOSED ∧
    ((probingBreaker.settle (.error uniqueConstraintError : Except JsError Unit) 30004).settle
      (.ok () : Except JsError Unit) 30005).failureCount = 0 :=
  ⟨rfl, rfl, rfl, rfl, rfl, rfl, rfl, rfl⟩

/-- C29. State invariant: for a breaker built with a threshold of at least 1, after any
sequence of completed `execute` calls (each rejected by the breaker, or run to a success or a
failure) CLOSED comes with `failureCount < failureThreshold`, OPEN comes with
`failureCount ≥ failureThreshold` and `lastFailureTime` set, and the state is never left
HALF_OPEN; and a call whose operation resolves leaves CLOSED with `failureCount = 0`. -/
theorem circuitBreaker_state_invariant (threshold timeout : Int)
    (calls : List (Int × Int × Except JsError Unit)) (hthr : 1 ≤ threshold) :
    ((calls.foldl CircuitBreaker.executeSettling (CircuitBreaker.new threshold timeout)).state
        = .CLOSED →
      (calls.foldl CircuitBreaker.executeSettling
          (CircuitBreaker.new threshold timeout)).failureCount <
        (calls.foldl CircuitBreaker.executeSettling
          (CircuitBreaker.new threshold timeout)).failureThreshold) ∧
    ((calls.foldl CircuitBreaker.executeSettling (CircuitBreaker.new threshold timeout)).state
        = .OPEN →
      (calls.foldl CircuitBreaker.executeSettling
          (CircuitBreaker.new threshold timeout)).failureThreshold ≤
        (calls.foldl CircuitBreaker.executeSettling
          (CircuitBreaker.new threshold timeout)).failureCount ∧
      (calls.foldl CircuitBreaker.executeSettling
          (CircuitBreaker.new threshold timeout)).lastFailureTime ≠ none) ∧
    (calls.foldl CircuitBreaker.executeSettling (CircuitBreaker.new threshold timeout)).state
      ≠ .HALF_OPEN ∧
    (∀ (σ ρ : Type) (b : CircuitBreaker) (now settled : Int)
      (operation : σ → Except JsError ρ × σ) (s : σ) (result : ρ),
      (b.execute now settled operation s).1 = .ok result →
      (b.execute now settled operation s).2.2.state = .CLOSED ∧
      (b.execute now settled operation s).2.2.failureCount = 0) := by
  have hstart : (CircuitBreaker.new threshold timeout).consistent :=
    ⟨le_refl 0, Or.inl ⟨rfl, lt_of_lt_of_le Int.zero_lt_one hthr⟩⟩
  have hrun := (CircuitBreaker.run_consistent calls (CircuitBreaker.new threshold timeout)
    hthr hstart).1
  generalize calls.foldl CircuitBreaker.executeSettling (CircuitBreaker.new threshold timeout)
    = b at hrun ⊢
  rcases hrun with ⟨_, ⟨hclosed, hlt⟩ | ⟨hopen, hge, hlast⟩⟩
  · refine ⟨fun _ => hlt, ?_, ?_, ?_⟩
    · intro h
      rw [hclosed] at h
      cases h
    · rw [hclosed]
      decide
    · intro σ ρ b0 now settled operation s result h
      unfold CircuitBreaker.execute at h ⊢
      cases hb : b0.enter now with
      | error err =>
        rw [hb] at h
        cases h
      | ok b1 =>
        rw [hb] at h
        simp only at h ⊢
        rcases hop : operation s with ⟨r, s1⟩
        rw [hop] at h
        cases r with
        | error err => cases h
        | ok res => exact ⟨rfl, rfl⟩
  · refine ⟨?_, fun _ => ⟨hge, hlast⟩, ?_, ?_⟩
    · intro h
      rw [hopen] at h
      cases h
    · rw [hopen]
      decide
    · intro σ ρ b0 now settled operation s result h
      unfold CircuitBreaker.execute at h ⊢
      cases hb : b0.enter now with
      | error err =>
        rw [hb] at h
        cases h
      | ok b1 =>
        rw [hb] at h
        simp only at h ⊢
        rcases hop : operation s with ⟨r, s1⟩
        rw [hop] at h
        cases r with
        | error err => cases h
        | ok res => exact ⟨rfl, rfl⟩

/-- Witness of C29: the breaker of the service after four failures, a success and five more
failures is OPEN with five failures counted. -/
theorem circuitBreaker_state_invariant_witness :
    (1 : Int) ≤ 5 ∧
    ([(1, 2, .error uniqueConstraintError), (3, 4, .error uniqueConstraintError),
      (5, 6, .error uniqueConstraintError), (7, 8, .error uniqueConstraintError),
      (9, 10, .ok ()), (11, 12, .error uniqueConstraintError),
      (13, 14, .error uniqueConstraintError), (15, 16, .error uniqueConstraintError),
      (17, 18, .error uniqueConstraintError),
      (19, 20, .error uniqueConstraintError)].foldl CircuitBreaker.executeSettling
        (CircuitBreaker.new 5 30000)).state = .OPEN ∧
    (CircuitBreaker.new 5 30000).failureThreshold ≤
      ([(1, 2, .error uniqueConstraintError), (3, 4, .error uniqueConstraintError),
        (5, 6, .error uniqueConstraintError), (7, 8, .error uniqueConstraintError),
        (9, 10, .ok ()), (11, 12, .error uniqueConstraintError),
        (13, 14, .error uniqueConstraintError), (15, 16, .error uniqueConstraintError),
        (17, 18, .error uniqueConstraintError),
        (19, 20, .error uniqueConstraintError)].foldl CircuitBreaker.executeSettling
          (CircuitBreaker.new 5 30000)).failureCount :=
  ⟨by decide, rfl,
   ((circuitBreaker_state_invariant 5 30000
      [(1, 2, .error uniqueConstraintError), (3, 4, .error uniqueConstraintError),
       (5, 6, .error uniqueConstraintError), (7, 8, .error uniqueConstraintError),
       (9, 10, .ok ()), (11, 12, .error uniqueConstraintError),
       (13, 14, .error uniqueConstraintError), (15, 16, .error uniqueConstraintError),
       (17, 18, .error uniqueConstraintError), (19, 20, .error uniqueConstraintError)]
      (by decide)).2.1 rfl).1⟩

end BreakerClaims


/-! ## The cache across the login path -/

section StaleCacheClaims

/-- C14, evaluated on the service whose cache holds the record of user 7 with four failed
logins: a fifth failed login at time 1000 is answered 401 and stores `loginAttempts = 5` and
`lockedUntil = 901000`, the cache is the one from before, `get(7)` right after returns the
snapshot with four attempts and no lock, and `verifyToken` lets the valid token of user 7
through with that snapshot attached while the stored account is locked. -/
theorem login_failure_leaves_stale_cache :
    (cachedService.postLogin guessEnv "body" 1000).1.status = 401 ∧
    (cachedService.postLogin guessEnv "body" 1000).2.db.users =
      [{ almostLockedUser with loginAttempts := 5, lockedUntil := some 901000 }] ∧
    ((cachedService.postLogin guessEnv "body" 1000).2.db.users.all
      (fun r => r.isLocked 1000)) = true ∧
    (cachedService.postLogin guessEnv "body" 1000).2.userCache.cache =
      cachedService.userCache.cache ∧
    ((cachedService.postLogin guessEnv "body" 1000).2.userCache.get 7 1000).1 =
      some almostLockedUser ∧
    almostLockedUser.loginAttempts = 4 ∧ almostLockedUser.lockedUntil = none ∧
    (((cachedService.postLogin guessEnv "body" 1000).2.authenticate sampleEnv
      ⟨some "Bearer token-7", none, none⟩ 1000).1.nextCalls = 1) ∧
    (((cachedService.postLogin guessEnv "body" 1000).2.authenticate sampleEnv
      ⟨some "Bearer token-7", none, none⟩ 1000).1.response = none) ∧
    (((cachedService.postLogin guessEnv "body" 1000).2.authenticate sampleEnv
      ⟨some "Bearer token-7", none, none⟩ 1000).1.req.user = some almostLockedUser) :=
  ⟨rfl, rfl, rfl, rfl, rfl, rfl, rfl, rfl, rfl, rfl⟩

end StaleCacheClaims


/-! ## Properties of the tokens -/

section TokenLemmas

/-- A login answered with `success: true` went through the breaker and found a user. -/
theorem login_success (env : Env) (db : Db) (breaker : CircuitBreaker) (body : String)
    (now : Int) (h : (login env db breaker body now).response.success = true) :
    ∃ value u,
      env.loginSchemaValidate body = .ok value ∧
      (breaker.execute now now (loginOperation env value now) db).1 = .ok (.user u) := by
  unfold login at h
  cases hval : env.loginSchemaValidate body with
  | error details =>
    rw [hval] at h
    cases h
  | ok value =>
    rw [hval] at h
    simp only at h
    rcases hex : breaker.execute now now (loginOperation env value now) db with ⟨r, db1, b1⟩
    rw [hex] at h
    cases r with
    | error err =>
      simp only at h
      split at h <;> cases h
    | ok res =>
      cases res with
      | error message status => cases h
      | user u => exact ⟨value, u, rfl, by rw [hex]⟩

/-- The user a resolved login operation yields is the stored row found for the lower-cased
email. -/
theorem loginOperation_user_found (env : Env) (value : LoginValue) (now : Int) (db : Db)
    (u : User) (h : (loginOperation env value now db).1 = .ok (.user u)) :
    u ∈ db.users ∧ u.email = env.toLowerCase value.email := by
  unfold loginOperation at h
  cases hfind : db.findOne (fun r => r.email = env.toLowerCase value.email && r.isActive) with
  | error err =>
    rw [hfind] at h
    cases h
  | ok found =>
    rw [hfind] at h
    cases found with
    | none => cases h
    | some user =>
      simp only at h
      have hu : user = u := by
        split at h
        · cases h
        · split at h
          · cases h
          · simp only [Except.ok.injEq, LoginResult.user.injEq] at h
            exact h
      subst hu
      have hrow := Db.findOne_some db _ user hfind
      simp only [Bool.and_eq_true, decide_eq_true_eq] at hrow
      exact ⟨hrow.1, hrow.2.1⟩

/-- What a successful insert leaves: the new row, built from the values, appended. -/
theorem Db.create_ok (env : RegisterEnv) (db db1 : Db) (values : RegisterValue)
    (now newId : Int) (u : User) (h : db.create env values now newId = .ok (db1, u)) :
    db1.users = db.users ++ [u] ∧ db1.failure = db.failure ∧
    u.id = newId ∧ u.username = values.username ∧ u.email = values.email ∧
    u.password = beforeCreate env values.password now ∧ u.isActive = true ∧
    u.loginAttempts = 0 ∧ u.lockedUntil = none ∧ u.deletedAt = none := by
  unfold Db.create at h
  cases hv : env.modelValidate values with
  | some err =>
    rw [hv] at h
    cases h
  | none =>
    rw [hv] at h
    simp only at h
    cases hf : db.failure with
    | some err =>
      rw [hf] at h
      cases h
    | none =>
      rw [hf] at h
      simp only at h
      split at h
      · cases h
      · simp only [Except.ok.injEq, Prod.mk.injEq] at h
        rcases h with ⟨hdb, hu⟩
        subst hdb
        subst hu
        exact ⟨rfl, rfl, rfl, rfl, rfl, rfl, rfl, rfl, rfl, rfl⟩

/-- The user a resolved register operation yields is the row it inserted, with the lower-cased
email. -/
theorem registerOperation_user (env : RegisterEnv) (value : RegisterValue) (now newId : Int)
    (db : Db) (u : User)
    (h : (registerOperation env value now newId db).1 = .ok (.user u)) :
    (registerOperation env value now newId db).2.users = db.users ++ [u] ∧
    u.email = env.toLowerCase value.email ∧ u.username = value.username ∧ u.id = newId ∧
    u.password = beforeCreate env value.password now := by
  unfold registerOperation at h ⊢
  cases hfind : db.findOne
      (fun r => r.email = env.toLowerCase value.email || r.username = value.username) with
  | error err =>
    rw [hfind] at h
    cases h
  | ok found =>
    rw [hfind] at h
    cases found with
    | some existing => cases h
    | none =>
      simp only at h ⊢
      cases hc : db.create env { value with email := env.toLowerCase value.email } now newId with
      | error err =>
        rw [hc] at h
        cases h
      | ok res =>
        rcases res with ⟨db1, user⟩
        rw [hc] at h
        simp only [Except.ok.injEq, LoginResult.user.injEq] at h
        subst h
        have hrow := Db.create_ok env db db1 _ now newId user hc
        exact ⟨hrow.1, hrow.2.2.2.2.1, hrow.2.2.2.1, hrow.2.2.1, hrow.2.2.2.2.2.1⟩

/-- A registration answered with `success: true` went through the breaker and created a
user. -/
theorem register_success (env : RegisterEnv) (db : Db) (breaker : CircuitBreaker)
    (body : String) (now newId : Int)
    (h : (register env db breaker body now newId).response.success = true) :
    ∃ value u,
      env.registerSchemaValidate body = .ok value ∧
      (breaker.execute now now (registerOperation env value now newId) db).1 = .ok (.user u) := by
  unfold register at h
  cases hval : env.registerSchemaValidate body with
  | error details =>
    rw [hval] at h
    cases h
  | ok value =>
    rw [hval] at h
    simp only at h
    rcases hex : breaker.execute now now (registerOperation env value now newId) db
      with ⟨r, db1, b1⟩
    rw [hex] at h
    cases r with
    | error err =>
      simp only at h
      split at h <;> cases h
    | ok res =>
      cases res with
      | error message status => cases h
      | user u => exact ⟨value, u, rfl, by rw [hex]⟩

/-- The response of a login whose operation resolved to the user `u`. -/
theorem login_of_user (env : Env) (db : Db) (breaker : CircuitBreaker) (body : String)
    (now : Int) (value : LoginValue) (u : User)
    (hval : env.loginSchemaValidate body = .ok value)
    (hop : (breaker.execute now now (loginOperation env value now) db).1 = .ok (.user u)) :
    (login env db breaker body now).response =
      { status := 200, success := true, message := "Login successful", details := none,
        data := some { user := u.toJSON,
                       token := some (generateToken env
                         { userId := u.id, email := u.email, username := u.username } now) } } := by
  rcases CircuitBreaker.execute_ok breaker now now (loginOperation env value now) db
    (.user u) hop with ⟨_, b1, hexec⟩
  unfold login
  rw [hval]
  simp only [hexec]

/-- The response and the store of a registration whose operation resolved to the user `u`. -/
theorem register_of_user (env : RegisterEnv) (db : Db) (breaker : CircuitBreaker)
    (body : String) (now newId : Int) (value : RegisterValue) (u : User)
    (hval : env.registerSchemaValidate body = .ok value)
    (hop : (breaker.execute now now (registerOperation env value now newId) db).1
      = .ok (.user u)) :
    (register env db breaker body now newId).response =
      { status := 201, success := true, message := "User registered successfully",
        details := none,
        data := some { user := u.toJSON,
                       token := some (generateToken env.toEnv
                         { userId := u.id, email := u.email, username := u.username } now) } } ∧
    (register env db breaker body now newId).db = (registerOperation env value now newId db).2 ∧
    (registerOperation env value now newId db).1 = .ok (.user u) := by
  rcases CircuitBreaker.execute_ok breaker now now (registerOperation env value now newId) db
    (.user u) hop with ⟨hres, b1, hexec⟩
  unfold register
  rw [hval]
  simp only [hexec, true_and]
  rw [hres]

end TokenLemmas

section TokenClaimsSection

/-- C21. Token round trip: when the module signs and verifies through a library that honours
the contract of jsonwebtoken, a token `generateToken` issues for claims at `t0` verifies, with
the options of the gate, to the same `userId`, `email` and `username` at every time before the
expiry (seven days by default), and fails with the expired error from the expiry on. -/
theorem generateToken_verify_roundtrip (env : Env) (lib : JwtLibrary) (secret : String)
    (expiresIn : Int) (claims : TokenClaims) (t0 t1 : Int)
    (huses : env.usesJwt lib secret expiresIn)
    (hlib : lib.honours claims t0 expiresIn) :
    (t1 / 1000 < t0 / 1000 + expiresIn →
      env.jwtVerify (generateToken env claims t0) t1 = .ok claims) ∧
    (t0 / 1000 + expiresIn ≤ t1 / 1000 →
      env.jwtVerify (generateToken env claims t0) t1 = .error tokenExpiredError) ∧
    tokenExpiredError.name = "TokenExpiredError" ∧
    defaultExpiresIn = 604800 := by
  have hcall : env.jwtVerify (generateToken env claims t0) t1 =
      if t1 / 1000 < t0 / 1000 + expiresIn then .ok claims else .error tokenExpiredError := by
    unfold generateToken
    rw [huses.1, huses.2]
    exact hlib secret (generateTokenOptions expiresIn) verifyTokenOptions t1 rfl rfl rfl
  refine ⟨?_, ?_, rfl, rfl⟩
  · intro hbefore
    rw [hcall, if_pos hbefore]
  · intro hafter
    rw [hcall, if_neg (not_lt.2 hafter)]

/-- Witness of C21: the claims of user 7 issued at time 0 verify one second before the seven
days are over and are expired at seven days. -/
theorem generateToken_verify_roundtrip_witness :
    sampleJwtEnv.usesJwt sampleJwt "secret" defaultExpiresIn ∧
    sampleJwt.honours sampleClaims 0 defaultExpiresIn ∧
    sampleJwtEnv.jwtVerify (generateToken sampleJwtEnv sampleClaims 0) 604799000
      = .ok sampleClaims ∧
    sampleJwtEnv.jwtVerify (generateToken sampleJwtEnv sampleClaims 0) 604800000
      = .error tokenExpiredError :=
  have huses : sampleJwtEnv.usesJwt sampleJwt "secret" defaultExpiresIn :=
    ⟨fun _ _ => rfl, fun _ _ => rfl⟩
  have hlib : sampleJwt.honours sampleClaims 0 defaultExpiresIn := by
    intro secret signed checked t1 hexp hiss haud
    show (if secret ++ "|" ++ signed.issuer ++ "|" ++ signed.audience =
        secret ++ "|" ++ checked.issuer ++ "|" ++ checked.audience then _ else _) = _
    rw [hiss, haud, if_pos rfl]
  ⟨huses, hlib,
   (generateToken_verify_roundtrip sampleJwtEnv sampleJwt "secret" defaultExpiresIn
      sampleClaims 0 604799000 huses hlib).1 (by decide),
   (generateToken_verify_roundtrip sampleJwtEnv sampleJwt "secret" defaultExpiresIn
      sampleClaims 0 604800000 huses hlib).2.1 (by decide)⟩

/-- C22. Token claim set: a login answered with success carries the token `generateToken`
makes from exactly `userId: user.id, email: user.email, username: user.username` of the stored
row found for the request, and a registration answered with success the one made from those
three fields of the row it stored; in both the email of the payload is the lower-cased email
of the validated request. -/
theorem token_payload_of_login_and_register :
    (∀ (env : Env) (db : Db) (breaker : CircuitBreaker) (body : String) (now : Int),
      (login env db breaker body now).response.success = true →
      ∃ value u,
        env.loginSchemaValidate body = .ok value ∧ u ∈ db.users ∧
        u.email = env.toLowerCase value.email ∧
        (login env db breaker body now).response.data.bind (fun d => d.token) =
          some (generateToken env
            { userId := u.id, email := u.email, username := u.username } now)) ∧
    (∀ (env : RegisterEnv) (db : Db) (breaker : CircuitBreaker) (body : String)
      (now newId : Int),
      (register env db breaker body now newId).response.success = true →
      ∃ value u,
        env.registerSchemaValidate body = .ok value ∧
        u ∈ (register env db breaker body now newId).db.users ∧
        u.email = env.toLowerCase value.email ∧
        (register env db breaker body now newId).response.data.bind (fun d => d.token) =
          some (generateToken env.toEnv
            { userId := u.id, email := u.email, username := u.username } now)) := by
  constructor
  · intro env db breaker body now hsuccess
    rcases login_success env db breaker body now hsuccess with ⟨value, u, hval, hop⟩
    have hres := (CircuitBreaker.execute_ok breaker now now (loginOperation env value now) db
      (.user u) hop).1
    have hfound := loginOperation_user_found env value now db u (by rw [hres])
    refine ⟨value, u, hval, hfound.1, hfound.2, ?_⟩
    rw [login_of_user env db breaker body now value u hval hop]
    rfl
  · intro env db breaker body now newId hsuccess
    rcases register_success env db breaker body now newId hsuccess with ⟨value, u, hval, hop⟩
    have hreg := register_of_user env db breaker body now newId value u hval hop
    have hrow := registerOperation_user env value now newId db u hreg.2.2
    refine ⟨value, u, hval, ?_, hrow.2.1, ?_⟩
    · rw [hreg.2.1, hrow.1]
      exact List.mem_append_right _ (List.mem_singleton.2 rfl)
    · rw [hreg.1]
      rfl

/-- Witness of C22: the login of user 7 with the right password, and the registration of a
second user, on the sample store. -/
theorem token_payload_of_login_and_register_witness :
    (login sampleEnv sampleDb dbCircuitBreaker "body" 1000).response.success = true ∧
    (register sampleRegisterEnv sampleDb dbCircuitBreaker "body" 1000 8).response.success
      = true ∧
    (∃ value u,
      sampleEnv.loginSchemaValidate "body" = .ok value ∧ u ∈ sampleDb.users ∧
      u.email = sampleEnv.toLowerCase value.email ∧
      (login sampleEnv sampleDb dbCircuitBreaker "body" 1000).response.data.bind
          (fun d => d.token) =
        some (generateToken sampleEnv
          { userId := u.id, email := u.email, username := u.username } 1000)) ∧
    (∃ value u,
      sampleRegisterEnv.registerSchemaValidate "body" = .ok value ∧
      u ∈ (register sampleRegisterEnv sampleDb dbCircuitBreaker "body" 1000 8).db.users ∧
      u.email = sampleRegisterEnv.toLowerCase value.email ∧
      (register sampleRegisterEnv sampleDb dbCircuitBreaker "body" 1000 8).response.data.bind
          (fun d => d.token) =
        some (generateToken sampleRegisterEnv.toEnv
          { userId := u.id, email := u.email, username := u.username } 1000)) :=
  ⟨rfl, rfl,
   token_payload_of_login_and_register.1 sampleEnv sampleDb dbCircuitBreaker "body" 1000 rfl,
   token_payload_of_login_and_register.2 sampleRegisterEnv sampleDb dbCircuitBreaker "body"
     1000 8 rfl⟩

end TokenClaimsSection


/-! ## Properties of the serialised user -/

section SerialisationLemmas

/-- The data of a login response is the serialisation of a user. -/
theorem login_data (env : Env) (db : Db) (breaker : CircuitBreaker) (body : String)
    (now : Int) (d : ResponseData) (h : (login env db breaker body now).response.data = some d) :
    ∃ u : User, d.user = u.toJSON := by
  unfold login at h
  cases hval : env.loginSchemaValidate body with
  | error details =>
    rw [hval] at h
    cases h
  | ok value =>
    rw [hval] at h
    simp only at h
    rcases hex : breaker.execute now now (loginOperation env value now) db with ⟨r, db1, b1⟩
    rw [hex] at h
    cases r with
    | error err =>
      simp only at h
      split at h <;> cases h
    | ok res =>
      cases res with
      | error message status => cases h
      | user u =>
        simp only [Option.some.injEq] at h
        exact ⟨u, by rw [← h]⟩

/-- The data of a register response is the serialisation of a user. -/
theorem register_data (env : RegisterEnv) (db : Db) (breaker : CircuitBreaker) (body : String)
    (now newId : Int) (d : ResponseData)
    (h : (register env db breaker body now newId).response.data = some d) :
    ∃ u : User, d.user = u.toJSON := by
  unfold register at h
  cases hval : env.registerSchemaValidate body with
  | error details =>
    rw [hval] at h
    cases h
  | ok value =>
    rw [hval] at h
    simp only at h
    rcases hex : breaker.execute now now (registerOperation env value now newId) db
      with ⟨r, db1, b1⟩
    rw [hex] at h
    cases r with
    | error err =>
      simp only at h
      split at h <;> cases h
    | ok res =>
      cases res with
      | error message status => cases h
      | user u =>
        simp only [Option.some.injEq] at h
        exact ⟨u, by rw [← h]⟩

/-- A response the gate sends carries no data. -/
theorem verifyToken_response_data (env : Env) (db : Db) (cache : UserCache User)
    (req : Request) (now : Int) (response : Response)
    (h : (verifyToken env db cache req now).response = some response) :
    response.data = none := by
  have hcatch : ∀ (c : UserCache User) (l : List Collaborator) (e : JsError),
      (verifyTokenCatch req c l e).response = some response → response.data = none := by
    intro c l e hc
    unfold verifyTokenCatch at hc
    split at hc
    · cases hc
      rfl
    · split at hc <;> (cases hc; rfl)
  unfold verifyToken at h
  split at h
  · cases h
    rfl
  · split at h
    · cases h
      rfl
    · simp only at h
      split at h
      · cases h
        rfl
      · split at h
        · exact hcatch _ _ _ h
        · split at h
          · exact hcatch _ _ _ h
          · cases h
            rfl
          · split at h
            · cases h
              rfl
            · split at h
              · cases h
                rfl
              · cases h

end SerialisationLemmas

section SerialisationClaims

/-- C23. The password hash is not exposed: for every user record `toJSON()` has no key
`password` and no key `deletedAt`, and holds every other key of the record with its value;
the user object of a register, a login, a `/auth/me` and a `/auth/verify` response is such a
serialisation, so none of them has a `password` key. -/
theorem toJSON_hides_password :
    (∀ u : User,
      u.toJSON.map Prod.fst =
        ["id", "username", "email", "firstName", "lastName", "isActive", "emailVerified",
         "lastLoginAt", "loginAttempts", "lockedUntil", "createdAt", "updatedAt"] ∧
      "password" ∉ u.toJSON.map Prod.fst ∧ "deletedAt" ∉ u.toJSON.map Prod.fst ∧
      (∀ kv : String × JsValue,
        kv ∈ u.toJSON ↔ (kv ∈ u.get ∧ kv.1 ≠ "password" ∧ kv.1 ≠ "deletedAt"))) ∧
    (∀ (env : Env) (db : Db) (breaker : CircuitBreaker) (body : String) (now : Int)
      (d : ResponseData),
      (login env db breaker body now).response.data = some d →
      "password" ∉ d.user.map Prod.fst) ∧
    (∀ (env : RegisterEnv) (db : Db) (breaker : CircuitBreaker) (body : String)
      (now newId : Int) (d : ResponseData),
      (register env db breaker body now newId).response.data = some d →
      "password" ∉ d.user.map Prod.fst) ∧
    (∀ (env : Env) (db : Db) (cache : UserCache User) (req : Request) (now : Int)
      (user : List (String × JsValue)),
      (authMe env db cache req now).1 = .user user → "password" ∉ user.map Prod.fst) ∧
    (∀ (env : Env) (db : Db) (cache : UserCache User) (token : Option String) (now : Int)
      (d : ResponseData),
      (authVerify env db cache token now).1.data = some d →
      "password" ∉ d.user.map Prod.fst) := by
  have hkeys : ∀ u : User, u.toJSON.map Prod.fst =
      ["id", "username", "email", "firstName", "lastName", "isActive", "emailVerified",
       "lastLoginAt", "loginAttempts", "lockedUntil", "createdAt", "updatedAt"] := by
    intro u
    rfl
  have hnone : ∀ u : User, "password" ∉ u.toJSON.map Prod.fst := by
    intro u
    rw [hkeys u]
    decide
  refine ⟨?_, ?_, ?_, ?_, ?_⟩
  · intro u
    refine ⟨hkeys u, hnone u, ?_, ?_⟩
    · rw [hkeys u]
      decide
    · intro kv
      unfold User.toJSON deleteKey
      simp only [List.mem_filter, decide_eq_true_eq, ne_eq, decide_not, Bool.not_eq_true',
        decide_eq_false_iff_not]
      constructor
      · intro h
        exact ⟨h.1.1, h.1.2, h.2⟩
      · intro h
        exact ⟨⟨h.1, h.2.1⟩, h.2.2⟩
  · intro env db breaker body now d h
    rcases login_data env db breaker body now d h with ⟨u, hu⟩
    rw [hu]
    exact hnone u
  · intro env db breaker body now newId d h
    rcases register_data env db breaker body now newId d h with ⟨u, hu⟩
    rw [hu]
    exact hnone u
  · intro env db cache req now user h
    unfold authMe at h
    simp only at h
    split at h
    · cases h
    · split at h
      · simp only [MeOut.user.injEq] at h
        rw [← h]
        exact hnone _
      · cases h
  · intro env db cache token now d h
    unfold authVerify at h
    split at h
    · cases h
    · split at h
      · cases h
      · simp only at h
        split at h
        · rename_i response hresp
          have := verifyToken_response_data env db cache _ now response hresp
          rw [this] at h
          cases h
        · split at h
          · simp only [Option.some.injEq] at h
            rw [← h]
            exact hnone _
          · cases h

/-- Witness of C23: the body of the login of user 7 has no password key, and the stored record
has one. -/
theorem toJSON_hides_password_witness :
    (∃ d, (login sampleEnv sampleDb dbCircuitBreaker "body" 1000).response.data = some d ∧
      "password" ∉ d.user.map Prod.fst) ∧
    "password" ∈ sampleUser.get.map Prod.fst :=
  ⟨⟨_, rfl, toJSON_hides_password.2.1 sampleEnv sampleDb dbCircuitBreaker "body" 1000 _ rfl⟩,
   by decide⟩

end SerialisationClaims

/-! ## Properties of password hashing -/

section HashingLemmas

/-- A bulk update whose assignment keeps the credentials keeps the credentials of every row. -/
theorem Db.update_credentials (db db1 : Db) (values : User → User) (id : Int)
    (hkeep : ∀ r, (values r).credentials = r.credentials)
    (h : db.update values id = .ok db1) :
    db1.users.map User.credentials = db.users.map User.credentials := by
  unfold Db.update at h
  cases hf : db.failure with
  | some err =>
    rw [hf] at h
    cases h
  | none =>
    rw [hf] at h
    simp only [Except.ok.injEq] at h
    subst h
    simp only [List.map_map]
    apply List.map_congr_left
    intro r _
    simp only [Function.comp]
    split
    · exact hkeep r
    · rfl

/-- An insert resolves when the model validators pass, the store can be reached and no row has
the email or the username: it appends the row it resolves to. -/
theorem Db.create_resolves (env : RegisterEnv) (db : Db) (values : RegisterValue)
    (now newId : Int) (hvalid : env.modelValidate values = none) (hdb : db.failure = none)
    (hfree : ∀ r ∈ db.users, r.email ≠ values.email ∧ r.username ≠ values.username) :
    ∃ u, db.create env values now newId = .ok ({ db with users := db.users ++ [u] }, u) := by
  have hany : db.users.any
      (fun r => r.email = values.email || r.username = values.username) = false := by
    rw [List.any_eq_false]
    intro r hr
    have h := hfree r hr
    simp only [h.1, h.2, decide_False, Bool.or_self, Bool.false_eq_true, not_false_eq_true]
  unfold Db.create
  rw [hvalid]
  simp only
  rw [hdb]
  simp only
  rw [hany]
  exact ⟨_, rfl⟩

end HashingLemmas

section HashingClaims

/-- C24. Hashing only when the credential is set. Creation: the hook `beforeCreate` turns a
non-empty password into `bcrypt.hash(password, salt)`, one application of the hash, and
`User.create` resolves (validators passing, store reachable, email and username free) with
that hash in the one row it appends, the rows from before untouched. Update: the hook
`beforeUpdate` replaces the password of the instance by the hash of that password when
`user.changed('password')` holds and returns the instance as it is when it does not, so the
password is replaced exactly when the field changed, and `id`, `username`, `email` and
`isActive` are never touched. Login state: with the store reachable `updateLastLogin` and
`incrementLoginAttempts` resolve, and they, like every bulk update whose assignment keeps
them, leave `id`, `username`, `email`, `password` and `isActive` of every stored row and of
the instance unchanged. -/
theorem password_hashed_only_when_set (env : RegisterEnv) (db : Db) (now : Int) :
    (∀ password : String, password ≠ "" →
      beforeCreate env password now = env.bcryptHash password (env.bcryptGenSalt 10 now)) ∧
    (∀ (values : RegisterValue) (newId : Int),
      values.password ≠ "" → env.modelValidate values = none → db.failure = none →
      (∀ r ∈ db.users, r.email ≠ values.email ∧ r.username ≠ values.username) →
      ∃ db1 u, db.create env values now newId = .ok (db1, u) ∧
        db1.users = db.users ++ [u] ∧
        u.password = env.bcryptHash values.password (env.bcryptGenSalt 10 now)) ∧
    (∀ (values : RegisterValue) (newId : Int) (db1 : Db) (u : User),
      values.password ≠ "" → db.create env values now newId = .ok (db1, u) →
      db1.users = db.users ++ [u] ∧
      u.password = env.bcryptHash values.password (env.bcryptGenSalt 10 now)) ∧
    (∀ user : User,
      beforeUpdate env true user now =
        { user with password := env.bcryptHash user.password (env.bcryptGenSalt 10 now) } ∧
      beforeUpdate env false user now = user) ∧
    (∀ (passwordChanged : Bool) (user : User),
      (beforeUpdate env passwordChanged user now).id = user.id ∧
      (beforeUpdate env passwordChanged user now).username = user.username ∧
      (beforeUpdate env passwordChanged user now).email = user.email ∧
      (beforeUpdate env passwordChanged user now).isActive = user.isActive ∧
      (env.bcryptHash user.password (env.bcryptGenSalt 10 now) ≠ user.password →
        ((beforeUpdate env passwordChanged user now).password ≠ user.password ↔
          passwordChanged = true))) ∧
    (∀ self : User, db.failure = none →
      (∃ db1, self.updateLastLogin db now = .ok (db1, self.withLastLogin now) ∧
        db1.users.map User.credentials = db.users.map User.credentials ∧
        (self.withLastLogin now).credentials = self.credentials) ∧
      (∃ db1 u1, self.incrementLoginAttempts db now = .ok (db1, u1) ∧
        db1.users.map User.credentials = db.users.map User.credentials ∧
        u1.credentials = self.credentials)) ∧
    (∀ (self : User) (db1 : Db) (u1 : User),
      (self.updateLastLogin db now = .ok (db1, u1) ∨
        self.incrementLoginAttempts db now = .ok (db1, u1)) →
      db1.users.map User.credentials = db.users.map User.credentials ∧
      u1.credentials = self.credentials) ∧
    (∀ (values : User → User) (id : Int),
      (∀ r, (values r).credentials = r.credentials) → db.failure = none →
      ∃ db1, db.update values id = .ok db1 ∧
        db1.users.map User.credentials = db.users.map User.credentials) := by
  have hlogin : ∀ (self : User) (db1 : Db) (u1 : User),
      (self.updateLastLogin db now = .ok (db1, u1) ∨
        self.incrementLoginAttempts db now = .ok (db1, u1)) →
      db1.users.map User.credentials = db.users.map User.credentials ∧
      u1.credentials = self.credentials := by
    intro self db1 u1 h
    rcases h with h | h
    · unfold User.updateLastLogin at h
      cases hu : db.update (fun r => r.withLastLogin now) self.id with
      | error err =>
        rw [hu] at h
        cases h
      | ok db2 =>
        rw [hu] at h
        simp only [Except.ok.injEq, Prod.mk.injEq] at h
        rcases h with ⟨hdb, hinst⟩
        subst hdb
        subst hinst
        exact ⟨Db.update_credentials db db2 (fun r => r.withLastLogin now) self.id
          (fun _ => rfl) hu, rfl⟩
    · unfold User.incrementLoginAttempts at h
      simp only at h
      split at h
      · cases h
      · rename_i db2 hu
        simp only [Except.ok.injEq, Prod.mk.injEq] at h
        rcases h with ⟨hdb, hinst⟩
        subst hdb
        subst hinst
        exact ⟨Db.update_credentials db db2
          (fun r => r.withLoginAttempts (self.loginAttempts + 1)
            (if self.loginAttempts + 1 ≥ maxLoginAttempts then some (now + lockWindow)
             else none))
          self.id (fun _ => rfl) hu, rfl⟩
  have hcreate : ∀ (values : RegisterValue) (newId : Int) (db1 : Db) (u : User),
      values.password ≠ "" → db.create env values now newId = .ok (db1, u) →
      db1.users = db.users ++ [u] ∧
      u.password = env.bcryptHash values.password (env.bcryptGenSalt 10 now) := by
    intro values newId db1 u hne hcreate
    have hrow := Db.create_ok env db db1 values now newId u hcreate
    refine ⟨hrow.1, ?_⟩
    rw [hrow.2.2.2.2.2.1]
    unfold beforeCreate
    rw [if_neg hne]
  refine ⟨?_, ?_, hcreate, ?_, ?_, ?_, hlogin, ?_⟩
  · intro password hne
    unfold beforeCreate
    rw [if_neg hne]
  · intro values newId hne hvalid hdb hfree
    rcases Db.create_resolves env db values now newId hvalid hdb hfree with ⟨u, hu⟩
    exact ⟨_, u, hu, (hcreate values newId _ u hne hu).1, (hcreate values newId _ u hne hu).2⟩
  · intro user
    exact ⟨rfl, rfl⟩
  · intro passwordChanged user
    cases passwordChanged with
    | true =>
      refine ⟨rfl, rfl, rfl, rfl, ?_⟩
      intro hne
      exact ⟨fun _ => rfl, fun _ => hne⟩
    | false =>
      refine ⟨rfl, rfl, rfl, rfl, ?_⟩
      intro _
      constructor
      · intro h
        exact absurd rfl h
      · intro h
        cases h
  · intro self hdb
    constructor
    · have hu := Db.update_ok db (fun r => r.withLastLogin now) self.id hdb
      have hres : self.updateLastLogin db now =
          .ok ({ db with users := db.users.map (fun r =>
            if r.id = self.id ∧ r.deletedAt = none then r.withLastLogin now else r) },
            self.withLastLogin now) := by
        unfold User.updateLastLogin
        rw [hu]
      exact ⟨_, hres, (hlogin self _ _ (Or.inl hres)).1, rfl⟩
    · have hres : ∃ db1 u1, self.incrementLoginAttempts db now = .ok (db1, u1) := by
        unfold User.incrementLoginAttempts
        simp only
        rw [Db.update_ok db _ self.id hdb]
        exact ⟨_, _, rfl⟩
      rcases hres with ⟨db1, u1, hres⟩
      exact ⟨db1, u1, hres, hlogin self db1 u1 (Or.inr hres)⟩
  · intro values id hkeep hdb
    have hu := Db.update_ok db values id hdb
    exact ⟨_, hu, Db.update_credentials db _ values id hkeep hu⟩

/-- Witness of C24: the registration of a second user resolves and stores the hash of its
password; the hook hashes the password of user 7 when it was changed to `secret3` and
leaves the instance alone when it was not; a successful and a failed login of user 7 resolve
and leave the credentials of the stored rows. -/
theorem password_hashed_only_when_set_witness :
    (∃ db1 u, sampleDb.create sampleRegisterEnv bobValues 1000 8 = .ok (db1, u) ∧
      db1.users = sampleDb.users ++ [u] ∧
      u.password = sampleRegisterEnv.bcryptHash "secret2"
        (sampleRegisterEnv.bcryptGenSalt 10 1000)) ∧
    beforeUpdate sampleRegisterEnv true { sampleUser with password := "secret3" } 1000 =
      { sampleUser with password := "hash:secret3" } ∧
    beforeUpdate sampleRegisterEnv false sampleUser 1000 = sampleUser ∧
    (beforeUpdate sampleRegisterEnv true sampleUser 1000).password ≠ sampleUser.password ∧
    (∃ db1, sampleUser.updateLastLogin sampleDb 1000 =
        .ok (db1, sampleUser.withLastLogin 1000) ∧
      db1.users.map User.credentials = sampleDb.users.map User.credentials) ∧
    (∃ db1 u1, sampleUser.incrementLoginAttempts sampleDb 1000 = .ok (db1, u1) ∧
      db1.users.map User.credentials = sampleDb.users.map User.credentials) :=
  ⟨(password_hashed_only_when_set sampleRegisterEnv sampleDb 1000).2.1 bobValues 8
      (by decide) rfl rfl (by decide),
   ((password_hashed_only_when_set sampleRegisterEnv sampleDb 1000).2.2.2.1
      { sampleUser with password := "secret3" }).1,
   ((password_hashed_only_when_set sampleRegisterEnv sampleDb 1000).2.2.2.1 sampleUser).2,
   (((password_hashed_only_when_set sampleRegisterEnv sampleDb 1000).2.2.2.2.1 true
      sampleUser).2.2.2.2 (by decide)).2 rfl,
   (((password_hashed_only_when_set sampleRegisterEnv sampleDb 1000).2.2.2.2.2.1 sampleUser
      rfl).1).imp (fun _ h => ⟨h.1, h.2.1⟩),
   (((password_hashed_only_when_set sampleRegisterEnv sampleDb 1000).2.2.2.2.2.1 sampleUser
      rfl).2).imp (fun _ h => h.imp (fun _ h1 => ⟨h1.1, h1.2.1⟩))⟩

end HashingClaims

/-! ## Properties of the ownership check -/

section OwnershipLemmas

theorem digitValue_digitChar (d : Nat) (hd : d < 10) :
    digitValue 10 (Nat.digitChar d) = some d := by
  interval_cases d <;> rfl

theorem digitChar_decimal (d : Nat) (hd : d < 10) :
    48 ≤ (Nat.digitChar d).toNat ∧ (Nat.digitChar d).toNat ≤ 57 := by
  interval_cases d <;> decide

/-- Reading the digits `Nat.toDigitsCore` writes in front of `ds` gives back the number, in
front of what `ds` reads as. -/
theorem parseDigits_toDigitsCore (fuel : Nat) :
    ∀ (n : Nat) (ds : List Char), n < fuel →
      ∃ k : Nat, ∀ (acc : Nat) (seen : Bool),
        parseDigits 10 (Nat.toDigitsCore 10 fuel n ds) acc seen =
          parseDigits 10 ds (acc * 10 ^ k + n) true := by
  induction fuel with
  | zero =>
    intro n ds hn
    omega
  | succ fuel ih =>
    intro n ds hn
    unfold Nat.toDigitsCore
    simp only
    by_cases h0 : n / 10 = 0
    · rw [if_pos h0]
      refine ⟨1, fun acc seen => ?_⟩
      have hmod : n % 10 = n := Nat.mod_eq_of_lt (by omega)
      rw [parseDigits, digitValue_digitChar (n % 10) (Nat.mod_lt _ (by decide)), hmod]
      simp only [pow_one]
    · rw [if_neg h0]
      obtain ⟨k, hk⟩ := ih (n / 10) (Nat.digitChar (n % 10) :: ds) (by omega)
      refine ⟨k + 1, fun acc seen => ?_⟩
      rw [hk, parseDigits, digitValue_digitChar (n % 10) (Nat.mod_lt _ (by decide))]
      simp only
      have harith : (acc * 10 ^ k + n / 10) * 10 + n % 10 = acc * 10 ^ (k + 1) + n := by
        rw [pow_succ]
        have := Nat.div_add_mod n 10
        nlinarith [this]
      rw [harith]

/-- The characters `Nat.toDigitsCore` writes are decimal digits. -/
theorem toDigitsCore_decimal (fuel : Nat) :
    ∀ (n : Nat) (ds : List Char), (∀ c ∈ ds, 48 ≤ c.toNat ∧ c.toNat ≤ 57) →
      ∀ c ∈ Nat.toDigitsCore 10 fuel n ds, 48 ≤ c.toNat ∧ c.toNat ≤ 57 := by
  induction fuel with
  | zero =>
    intro n ds hds c hc
    exact hds c hc
  | succ fuel ih =>
    intro n ds hds c hc
    unfold Nat.toDigitsCore at hc
    simp only at hc
    have hcons : ∀ c ∈ Nat.digitChar (n % 10) :: ds, 48 ≤ c.toNat ∧ c.toNat ≤ 57 := by
      intro c hc
      rcases List.mem_cons.1 hc with h | h
      · rw [h]
        exact digitChar_decimal (n % 10) (Nat.mod_lt _ (by decide))
      · exact hds c h
    by_cases h0 : n / 10 = 0
    · rw [if_pos h0] at hc
      exact hcons c hc
    · rw [if_neg h0] at hc
      exact ih (n / 10) _ hcons c hc

theorem isJsWhiteSpace_decimal (c : Char) (h : 48 ≤ c.toNat ∧ c.toNat ≤ 57) :
    isJsWhiteSpace c = false := by
  unfold isJsWhiteSpace
  simp only [Bool.or_eq_false_iff, Bool.and_eq_false_imp, decide_eq_false_iff_not,
    decide_eq_true_eq]
  omega

theorem ne_ofNat_of_toNat (c : Char) (k : Nat) (hk : (Char.ofNat k).toNat ≠ c.toNat) :
    c ≠ Char.ofNat k := by
  intro h
  rw [h] at hk
  exact hk rfl

/-- A string of decimal digits has no white space, no sign and no radix prefix for `parseInt`
to take off. -/
theorem decimal_chars_plain (cs : List Char) (h : ∀ c ∈ cs, 48 ≤ c.toNat ∧ c.toNat ≤ 57) :
    cs.dropWhile isJsWhiteSpace = cs ∧ readSign cs = (1, cs) ∧ readRadix cs = (10, cs) := by
  cases cs with
  | nil => exact ⟨rfl, rfl, rfl⟩
  | cons c rest =>
    have hc := h c (List.mem_cons_self c rest)
    refine ⟨?_, ?_, ?_⟩
    · rw [List.dropWhile_cons_of_neg]
      rw [isJsWhiteSpace_decimal c hc]
      exact Bool.false_ne_true
    · have hminus : c ≠ Char.ofNat 0x2D :=
        ne_ofNat_of_toNat c 0x2D (by
          have h45 : (Char.ofNat 0x2D).toNat = 45 := by decide
          omega)
      have hplus : c ≠ Char.ofNat 0x2B :=
        ne_ofNat_of_toNat c 0x2B (by
          have h43 : (Char.ofNat 0x2B).toNat = 43 := by decide
          omega)
      unfold readSign
      simp only [if_neg hminus, if_neg hplus]
    · cases rest with
      | nil => rfl
      | cons c1 rest1 =>
        have hc1 := h c1 (List.mem_cons_of_mem c (List.mem_cons_self c1 rest1))
        have hx : c1 ≠ Char.ofNat 0x78 :=
          ne_ofNat_of_toNat c1 0x78 (by
            have h120 : (Char.ofNat 0x78).toNat = 120 := by decide
            omega)
        have hX : c1 ≠ Char.ofNat 0x58 :=
          ne_ofNat_of_toNat c1 0x58 (by
            have h88 : (Char.ofNat 0x58).toNat = 88 := by decide
            omega)
        unfold readRadix
        simp only [hx, hX, or_self, and_false, if_false]

/-- The digits of a natural number are decimal digits that read as the number. -/
theorem toDigits_spec (n : Nat) :
    (∀ c ∈ Nat.toDigits 10 n, 48 ≤ c.toNat ∧ c.toNat ≤ 57) ∧
    parseDigits 10 (Nat.toDigits 10 n) 0 false = some n := by
  constructor
  · exact toDigitsCore_decimal (n + 1) n [] (fun c hc => absurd hc (List.not_mem_nil c))
  · obtain ⟨k, hk⟩ := parseDigits_toDigitsCore (n + 1) n [] (Nat.lt_succ_self n)
    unfold Nat.toDigits
    rw [hk 0 false]
    simp only [zero_mul, zero_add, parseDigits, if_true]

/-- From the decimal numeral of an integer `parseInt` reads the integer. -/
theorem leadingInteger_toString (n : Int) : leadingInteger (toString n) = some n := by
  cases n with
  | ofNat m =>
    have hdata : (toString (Int.ofNat m)).data = Nat.toDigits 10 m := rfl
    have hplain := decimal_chars_plain (Nat.toDigits 10 m) (toDigits_spec m).1
    unfold leadingInteger
    simp only [hdata, hplain.1, hplain.2.1, hplain.2.2, (toDigits_spec m).2, one_mul]
    rfl
  | negSucc m =>
    have hdata : (toString (Int.negSucc m)).data =
        Char.ofNat 0x2D :: Nat.toDigits 10 (m + 1) := rfl
    have hplain := decimal_chars_plain (Nat.toDigits 10 (m + 1)) (toDigits_spec (m + 1)).1
    have hdrop : (Char.ofNat 0x2D :: Nat.toDigits 10 (m + 1)).dropWhile isJsWhiteSpace =
        Char.ofNat 0x2D :: Nat.toDigits 10 (m + 1) := by
      rw [List.dropWhile_cons_of_neg]
      decide
    have hsign : readSign (Char.ofNat 0x2D :: Nat.toDigits 10 (m + 1)) =
        (-1, Nat.toDigits 10 (m + 1)) := by
      unfold readSign
      simp only [if_true]
    unfold leadingInteger
    simp only [hdata, hdrop, hsign, hplain.2.2, (toDigits_spec (m + 1)).2]
    rw [Int.negSucc_eq]
    push_cast
    ring_nf

theorem doubleExponent_small (v : Nat) (h : v < 2 ^ 53) : doubleExponent v v 0 = 0 := by
  cases v with
  | zero => rfl
  | succ n =>
    unfold doubleExponent
    rw [if_pos h]

/-- Below 2^53 every natural number is a double. -/
theorem roundToDouble_small (v : Nat) (h : v < 2 ^ 53) : roundToDouble v = some v := by
  have hlimit : 2 ^ 53 < doubleLimit := by
    unfold doubleLimit
    norm_num
  have hbig : v < doubleLimit := lt_trans h hlimit
  unfold roundToDouble
  rw [doubleExponent_small v h]
  simp only [pow_zero, Nat.div_one, Nat.mod_one, mul_zero, mul_one, Nat.not_lt_zero,
    zero_ne_one, false_and, or_self, if_false, if_pos hbig]

theorem doubleExponent_inv (fuel v : Nat) :
    ∀ e0 : Nat, (e0 = 0 ∨ 2 ^ (52 + e0) ≤ v) →
      (doubleExponent fuel v e0 = 0 ∨ 2 ^ (52 + doubleExponent fuel v e0) ≤ v) := by
  induction fuel with
  | zero =>
    intro e0 h
    exact h
  | succ fuel ih =>
    intro e0 h
    unfold doubleExponent
    by_cases hlt : v < 2 ^ (53 + e0)
    · rw [if_pos hlt]
      exact h
    · rw [if_neg hlt]
      apply ih
      right
      have heq : 52 + (e0 + 1) = 53 + e0 := by omega
      rw [heq]
      exact Nat.le_of_not_lt hlt

/-- From 2^53 on the nearest double is at least 2^53. -/
theorem roundToDouble_large (v m : Nat) (h : 2 ^ 53 ≤ v) (hm : roundToDouble v = some m) :
    2 ^ 53 ≤ m := by
  unfold roundToDouble at hm
  generalize he : doubleExponent v v 0 = e at hm
  have hinv := doubleExponent_inv v v 0 (Or.inl rfl)
  rw [he] at hinv
  dsimp only at hm
  generalize hmv :
    (if 2 ^ e < 2 * (v % 2 ^ e) ∨ (2 * (v % 2 ^ e) = 2 ^ e ∧ v / 2 ^ e % 2 = 1)
      then v / 2 ^ e + 1 else v / 2 ^ e) = mv at hm
  have hq : v / 2 ^ e ≤ mv := by
    rw [← hmv]
    split
    · exact Nat.le_succ _
    · exact le_refl _
  by_cases hlim : mv * 2 ^ e < doubleLimit
  · rw [if_pos hlim] at hm
    simp only [Option.some.injEq] at hm
    subst hm
    refine le_trans ?_ (Nat.mul_le_mul_right _ hq)
    by_cases he0 : e = 0
    · subst he0
      simp only [pow_zero, Nat.div_one, mul_one]
      exact h
    · have hpos : 0 < 2 ^ e := Nat.pow_pos (by decide)
      have hle : 2 ^ (52 + e) ≤ v := by
        rcases hinv with h0 | h1
        · exact absurd h0 he0
        · exact h1
      have hdiv : 2 ^ 52 ≤ v / 2 ^ e := by
        rw [Nat.le_div_iff_mul_le hpos, ← pow_add]
        exact hle
      have h2 : 2 ≤ 2 ^ e := by
        have h1e : 1 ≤ e := Nat.one_le_iff_ne_zero.2 he0
        calc 2 = 2 ^ 1 := by norm_num
          _ ≤ 2 ^ e := Nat.pow_le_pow_right (by decide) h1e
      calc 2 ^ 53 = 2 ^ 52 * 2 := by norm_num
        _ ≤ v / 2 ^ e * 2 ^ e := Nat.mul_le_mul hdiv h2
  · rw [if_neg hlim] at hm
    cases hm

/-- Above 2^53 `parseInt` rounds to the nearest double: for the user id 2^53 the resource id
`'9007199254740993'` passes. -/
theorem checkOwnership_rounds :
    parseInt (Coerced.ofString "9007199254740993") = .finite 9007199254740992 ∧
    checkOwnership (paramsRequest 9007199254740992 "9007199254740993") = some (none, 1) := by
  decide

/-- For an integer below 2^53 in magnitude, `parseInt` returns it exactly when it is the
integer the string spells. -/
theorem parseIntString_eq_safe (s : String) (uid : Int) (hsafe : uid.natAbs < 2 ^ 53) :
    parseIntString s = .finite uid ↔ leadingInteger s = some uid := by
  unfold parseIntString
  cases hl : leadingInteger s with
  | none =>
    simp only [reduceCtorEq]
  | some n =>
    simp only [Option.some.injEq]
    by_cases hn : n.natAbs < 2 ^ 53
    · rw [roundToDouble_small n.natAbs hn]
      simp only [JsNumber.finite.injEq]
      have hval : (if n < 0 then -((n.natAbs : Nat) : Int) else ((n.natAbs : Nat) : Int)) = n := by
        split <;> omega
      rw [hval]
    · have hne : n ≠ uid := by
        intro h
        rw [h] at hn
        exact hn hsafe
      cases hr : roundToDouble n.natAbs with
      | none =>
        simp only [reduceCtorEq, false_iff]
        exact hne
      | some m =>
        have hm := roundToDouble_large n.natAbs m (Nat.le_of_not_lt hn) hr
        simp only [JsNumber.finite.injEq]
        constructor
        · intro h
          exfalso
          split at h <;> omega
        · intro h
          exact absurd h hne

/-- The operator `!==` against an integer: false exactly for that integer. -/
theorem strictNotEqual_finite (a : Int) (x : JsNumber) :
    strictNotEqual (.finite a) x = false ↔ x = .finite a := by
  cases x with
  | nan => simp only [strictNotEqual, reduceCtorEq]
  | infinity b => simp only [strictNotEqual, reduceCtorEq]
  | finite b =>
    simp only [strictNotEqual, ne_eq, decide_not, Bool.not_eq_false', decide_eq_true_eq,
      JsNumber.finite.injEq]
    exact eq_comm

end OwnershipLemmas

section OwnershipClaims

/-- C27 as stated fails: for user 7 and the resource id `'7abc'`, which denotes no integer,
`checkOwnership` calls `next` and sends nothing; so it is not the case that `next` is called
exactly when the two ids denote the same integer, not even for user ids that are integers
below 2^53 in magnitude. -/
theorem checkOwnership_not_same_integer :
    checkOwnership looseOwnershipRequest = some (none, 1) ∧
    integerDenoted (Coerced.ofInteger 7) = some 7 ∧
    integerDenoted (Coerced.ofString "7abc") = none ∧
    parseInt (Coerced.ofString "7abc") = .finite 7 ∧
    ¬ ∀ (req : OwnershipRequest) (uid : Int) (resource : Coerced),
      uid.natAbs < 2 ^ 53 → req.userId = Coerced.ofInteger uid →
      resourceUserId req = some resource →
      (checkOwnership req = some (none, 1) ↔
        ∃ n : Int, integerDenoted req.userId = some n ∧ integerDenoted resource = some n) := by
  refine ⟨by decide, by decide, by decide, by decide, ?_⟩
  intro h
  have hnext : checkOwnership looseOwnershipRequest = some (none, 1) := by decide
  rcases (h looseOwnershipRequest 7 (Coerced.ofString "7abc") (by decide) rfl rfl).1 hnext
    with ⟨n, _, hres⟩
  have hnone : integerDenoted (Coerced.ofString "7abc") = none := by decide
  rw [hnone] at hres
  cases hres

/-- C27 as amended. For a user id that is an integer below 2^53 in magnitude:
`checkOwnership` calls `next`, sending nothing, exactly when the integer `parseInt` reads at
the start of the resource id (after white space, a sign and a `0x` prefix, up to the first
character that is no digit) is the user id, which is when `parseInt` of the two ids is the
same number; otherwise it sends 403 without calling `next`. The resource id is the first
truthy one of the fields of params, body and query, the last when none is truthy. A missing
resource id (`undefined`) and one in which `parseInt` reads no digit are rejected. With
`req.body` undefined and the field of params falsy the middleware throws instead. -/
theorem checkOwnership_parseInt (req : OwnershipRequest) (uid : Int)
    (hsafe : uid.natAbs < 2 ^ 53) (hid : req.userId.text = toString uid) :
    parseInt req.userId = .finite uid ∧
    (∀ resource : Coerced, resourceUserId req = some resource →
      (checkOwnership req = some (none, 1) ↔ leadingInteger resource.text = some uid) ∧
      (checkOwnership req = some (none, 1) ↔ parseInt resource = parseInt req.userId) ∧
      (leadingInteger resource.text ≠ some uid →
        checkOwnership req =
          some (some (Response.reject 403
            "Access denied. You can only access your own resources."), 0)) ∧
      (leadingInteger resource.text = none →
        checkOwnership req =
          some (some (Response.reject 403
            "Access denied. You can only access your own resources."), 0)) ∧
      (resource = Coerced.undefined →
        checkOwnership req =
          some (some (Response.reject 403
            "Access denied. You can only access your own resources."), 0))) ∧
    (req.params.truthy = true → resourceUserId req = some req.params) ∧
    (∀ body : Coerced, req.params.truthy = false → req.body = some body →
      (body.truthy = true → resourceUserId req = some body) ∧
      (body.truthy = false → resourceUserId req = some req.query)) ∧
    (req.params.truthy = false → req.body = none →
      resourceUserId req = none ∧ checkOwnership req = none) := by
  have huser : parseInt req.userId = .finite uid := by
    unfold parseInt
    rw [hid]
    exact (parseIntString_eq_safe (toString uid) uid hsafe).2 (leadingInteger_toString uid)
  have hreject : ∀ resource : Coerced, resourceUserId req = some resource →
      leadingInteger resource.text ≠ some uid →
      checkOwnership req =
        some (some (Response.reject 403
          "Access denied. You can only access your own resources."), 0) := by
    intro resource hres hne
    have hx : parseInt resource ≠ .finite uid := by
      intro h
      exact hne ((parseIntString_eq_safe resource.text uid hsafe).1 h)
    have hs : strictNotEqual (.finite uid) (parseInt resource) = true := by
      cases hb : strictNotEqual (.finite uid) (parseInt resource) with
      | true => rfl
      | false => exact absurd ((strictNotEqual_finite uid _).1 hb) hx
    unfold checkOwnership
    rw [hres]
    simp only [huser, hs, if_true]
  have hnext : ∀ resource : Coerced, resourceUserId req = some resource →
      (checkOwnership req = some (none, 1) ↔ leadingInteger resource.text = some uid) := by
    intro resource hres
    constructor
    · intro h
      by_contra hne
      rw [hreject resource hres hne] at h
      cases h
    · intro h
      have hx : parseInt resource = .finite uid :=
        (parseIntString_eq_safe resource.text uid hsafe).2 h
      have hs : strictNotEqual (.finite uid) (parseInt resource) = false :=
        (strictNotEqual_finite uid _).2 hx
      unfold checkOwnership
      rw [hres]
      simp only [huser, hs, Bool.false_eq_true, if_false]
  refine ⟨huser, ?_, ?_, ?_, ?_⟩
  · intro resource hres
    refine ⟨hnext resource hres, ?_, hreject resource hres, ?_, ?_⟩
    · rw [hnext resource hres, huser]
      exact (parseIntString_eq_safe resource.text uid hsafe).symm
    · intro hnone
      apply hreject resource hres
      rw [hnone]
      exact fun h => nomatch h
    · intro hundef
      apply hreject resource hres
      rw [hundef]
      have hu : leadingInteger Coerced.undefined.text = none := by decide
      rw [hu]
      exact fun h => nomatch h
  · intro hp
    unfold resourceUserId
    rw [if_pos hp]
  · intro body hp hb
    unfold resourceUserId jsOr
    rw [hp, hb]
    constructor
    · intro ht
      simp only [Bool.false_eq_true, if_false, ht, if_true]
    · intro hf
      simp only [Bool.false_eq_true, if_false, hf]
  · intro hp hb
    have hnone : resourceUserId req = none := by
      unfold resourceUserId
      rw [hp, hb]
      rfl
    refine ⟨hnone, ?_⟩
    unfold checkOwnership
    rw [hnone]

/-- Witness of C27 as amended, for user 7: the resource ids `'7'`, `' 7'`, `'+7'`, `'7abc'`
and the numbers 7 and 7.9 of a body pass, `'8'`, `'abc'`, the empty string and a missing
resource id get 403; and user 1 passes for the number 1e21 of a body, which is written
`1e+21`. -/
theorem checkOwnership_parseInt_witness :
    checkOwnership (paramsRequest 7 "7") = some (none, 1) ∧
    checkOwnership (paramsRequest 7 " 7") = some (none, 1) ∧
    checkOwnership (paramsRequest 7 "+7") = some (none, 1) ∧
    checkOwnership (paramsRequest 7 "7abc") = some (none, 1) ∧
    checkOwnership (bodyNumberRequest 7 "7") = some (none, 1) ∧
    checkOwnership (bodyNumberRequest 7 "7.9") = some (none, 1) ∧
    checkOwnership (bodyNumberRequest 1 "1e+21") = some (none, 1) ∧
    checkOwnership (paramsRequest 7 "8") =
      some (some (Response.reject 403
        "Access denied. You can only access your own resources."), 0) ∧
    checkOwnership (paramsRequest 7 "abc") =
      some (some (Response.reject 403
        "Access denied. You can only access your own resources."), 0) ∧
    checkOwnership (paramsRequest 7 "") =
      some (some (Response.reject 403
        "Access denied. You can only access your own resources."), 0) ∧
    checkOwnership bareOwnershipRequest =
      some (some (Response.reject 403
        "Access denied. You can only access your own resources."), 0) :=
  ⟨((checkOwnership_parseInt (paramsRequest 7 "7") 7 (by decide) rfl).2.1
      (Coerced.ofString "7") rfl).1.2 (by decide),
   ((checkOwnership_parseInt (paramsRequest 7 " 7") 7 (by decide) rfl).2.1
      (Coerced.ofString " 7") rfl).1.2 (by decide),
   ((checkOwnership_parseInt (paramsRequest 7 "+7") 7 (by decide) rfl).2.1
      (Coerced.ofString "+7") rfl).1.2 (by decide),
   ((checkOwnership_parseInt (paramsRequest 7 "7abc") 7 (by decide) rfl).2.1
      (Coerced.ofString "7abc") rfl).1.2 (by decide),
   ((checkOwnership_parseInt (bodyNumberRequest 7 "7") 7 (by decide) rfl).2.1
      { truthy := true, text := "7" } rfl).1.2 (by decide),
   ((checkOwnership_parseInt (bodyNumberRequest 7 "7.9") 7 (by decide) rfl).2.1
      { truthy := true, text := "7.9" } rfl).1.2 (by decide),
   ((checkOwnership_parseInt (bodyNumberRequest 1 "1e+21") 1 (by decide) rfl).2.1
      { truthy := true, text := "1e+21" } rfl).1.2 (by decide),
   ((checkOwnership_parseInt (paramsRequest 7 "8") 7 (by decide) rfl).2.1
      (Coerced.ofString "8") rfl).2.2.1 (by decide),
   ((checkOwnership_parseInt (paramsRequest 7 "abc") 7 (by decide) rfl).2.1
      (Coerced.ofString "abc") rfl).2.2.2.1 (by decide),
   ((checkOwnership_parseInt (paramsRequest 7 "") 7 (by decide) rfl).2.1
      Coerced.undefined rfl).2.2.2.2 rfl,
   ((checkOwnership_parseInt bareOwnershipRequest 7 (by decide) rfl).2.1
      Coerced.undefined rfl).2.2.2.2 rfl⟩

end OwnershipClaims

/-! ## Properties of the health monitor -/

section HealthClaims

/-- C30, evaluated on a deployment whose auth service runs into the timeout: the function
sends no report; its promise rejects with the ReferenceError for `serviceStartTime` thrown in
the `catch` block, and so it does whenever the request to the first configured service throws.
A service whose URL is not set, a branch that reads no start time, is recorded with status
'error' and gives the 'critical' report with HTTP status 503. -/
theorem healthMonitor_throws_in_catch :
    healthMonitor sampleHealthEnv "GET" 0 = .error serviceStartTimeError ∧
    (∀ (env : HealthEnv) (url : String) (now : Int) (err : JsError) (settled : Int),
      url ≠ "" → env.axiosGet (url ++ "/health") now = (.error err, settled) →
      checkService env (some url) now = (.error serviceStartTimeError, settled)) ∧
    (∀ (env : HealthEnv) (method : String) (now : Int) (err : JsError) (settled : Int)
      (url : String),
      method ≠ "OPTIONS" → env.authServiceUrl = some url → url ≠ "" →
      env.axiosGet (url ++ "/health") now = (.error err, settled) →
      healthMonitor env method now = .error serviceStartTimeError) ∧
    (healthMonitor partialHealthEnv "GET" 0).map (fun out => out.httpStatus) = .ok 503 ∧
    (healthMonitor partialHealthEnv "GET" 0).map
        (fun out => out.report.map (fun r => r.overall.status)) = .ok (some "critical") := by
  refine ⟨rfl, ?_, ?_, rfl, rfl⟩
  · intro env url now err settled hurl hthrow
    unfold checkService
    simp only [if_neg hurl, hthrow]
  · intro env method now err settled url hmethod hauth hurl hthrow
    have hcheck : checkService env (some url) now = (.error serviceStartTimeError, settled) := by
      unfold checkService
      simp only [if_neg hurl, hthrow]
    unfold healthMonitor
    rw [if_neg hmethod]
    simp only [checkServices, hauth, hcheck]

end HealthClaims

end TodoApp
